import Mathlib

/-!
# MPEG audio decoder driver (`audio/decode/decode_mad.c`)

A shallow embedding of the libmad driver of squeezeplay and the properties of
its gapless-metadata parser, tag skipper, output converter, input refill and
periodic tick.

Conventions of the embedding.

* Pointers are natural-number addresses into one byte-addressed heap
  (`decode_mad.heap`); the null pointer is address `0`.
* `u32_t` and `unsigned short` quantities (`frames`, `encoder_delay`,
  `encoder_padding`, `sample_rate`, `pcm.length`, ...) are natural numbers.
  Sums of them are taken in `Nat`. The theorems whose content depends on the
  post-increment of `frames` or on the conversion of `encoder_delay` to the
  `int offset` carry the bounds under which these are the C values:
  `frames + 1 < 2 ^ 32` and `encoder_delay < 2 ^ 31`.
* `mad_fixed_t` and `sample_t` are 32-bit signed integers, modelled as `Int`
  with an explicit wrap (`wrap32`) where the C code stores a computed value.
* The output sink (`decode_output_samples`, `decode_output_remove_padding`) is
  a log of calls; `decode_output_can_write` is an oracle passed as a parameter.
* The collaborators of the driver that are not part of decode_mad.c (the byte
  source `streambuf_read`, the decode engine `mad_frame_decode`, the synthesis
  `mad_synth_frame`, the sink) are the fields of `externals`; the calls made
  to them are recorded in order as a list of `Event`. The bits of the global
  `current_decoder_state` that the driver touches are `decoder_flags`.
* The `size_t` subtraction `INPUT_BUFFER_SIZE - remaining` of the refill is
  taken modulo `2 ^ 32` (`SIZE_MODULUS`), the width of `size_t` on a 32-bit
  target.
* `memcpy` copies the bytes that the source held before the call. For
  overlapping regions the C call is undefined: what the destination then holds
  is stated only under the hypothesis `refill_disjoint`.
* The reads of `xing_parse` and `tagtype` are recorded by traced variants
  (`xing_parse_traced`, `tagtype_traced`) that return the same values.
-/

namespace DecodeMad

/-! ## Constants -/

/-- The constant `INPUT_BUFFER_SIZE` of decode_mad.c. -/
def INPUT_BUFFER_SIZE : Nat := 2890

/-- The constant `OUTPUT_BUFFER_FRAMES` of decode_mad.c: the output buffer holds
this many `sample_t` values. -/
def OUTPUT_BUFFER_FRAMES : Nat := 2048

/-- The constant `ID3_TAG_FLAG_FOOTERPRESENT` of decode_mad.c. -/
def ID3_TAG_FLAG_FOOTERPRESENT : Nat := 0x10

/-- The constant `XING_MAGIC`: the characters `Xing`, most significant first. -/
def XING_MAGIC : Nat := 0x58 * 2 ^ 24 + 0x69 * 2 ^ 16 + 0x6E * 2 ^ 8 + 0x67

/-- The constant `INFO_MAGIC`: the characters `Info`. -/
def INFO_MAGIC : Nat := 0x49 * 2 ^ 24 + 0x6E * 2 ^ 16 + 0x66 * 2 ^ 8 + 0x6F

/-- The constant `LAME_MAGIC`: the characters `LAME`. -/
def LAME_MAGIC : Nat := 0x4C * 2 ^ 24 + 0x41 * 2 ^ 16 + 0x4D * 2 ^ 8 + 0x45

/-- Flag bit `XING_FRAMES`. -/
def XING_FRAMES : Nat := 0x01

/-- Flag bit `XING_BYTES`. -/
def XING_BYTES : Nat := 0x02

/-- Flag bit `XING_TOC`. -/
def XING_TOC : Nat := 0x04

/-- Flag bit `XING_SCALE`. -/
def XING_SCALE : Nat := 0x08

/-- The constant `MAD_DECODER_DELAY` of decode_mad.c. -/
def MAD_DECODER_DELAY : Nat := 529

/-- Modelled from the spec: `MAD_F_FRACBITS` of libmad's mad.h (not under src/),
the number of fraction bits of a fixed-point sample. -/
def MAD_F_FRACBITS : Nat := 28

/-- Modelled from the spec: `MAD_F_ONE` of libmad's mad.h, the fixed-point
value 1.0, which is `1 << MAD_F_FRACBITS`. -/
def MAD_F_ONE : Int := 2 ^ MAD_F_FRACBITS

/-- Modelled from the spec: `MAD_BUFFER_GUARD` of libmad's mad.h, the number of
zero bytes of the guard region. -/
def MAD_BUFFER_GUARD : Nat := 8

/-- Modelled from the spec: `MAD_FLAG_PROTECTION` of libmad's mad.h, the header
flag of a CRC-protected frame. -/
def MAD_FLAG_PROTECTION : Nat := 0x0010

/-- The macro `SAMPLES_TO_BYTES` of decode_priv.h, with `sizeof(sample_t) = 4`. -/
def SAMPLES_TO_BYTES (n : Nat) : Nat := 2 * n * 4

/-! ## Sample conversion -/

/-- Conversion of a mathematical integer to a 32-bit signed machine integer
(two's complement wrap), as on a store to `mad_fixed_t` or `sample_t`. -/
def wrap32 (x : Int) : Int := (x + 2 ^ 31) % 2 ^ 32 - 2 ^ 31

/-- The function `mad_fixed_to_32bit` of decode_mad.c. -/
def mad_fixed_to_32bit (fixed : Int) : Int :=
  -- fixed += (1L << (MAD_F_FRACBITS - 24));
  let fixed := wrap32 (fixed + ((1 <<< (MAD_F_FRACBITS - 24) : Nat) : Int))
  -- if (fixed >= MAD_F_ONE) fixed = MAD_F_ONE - 1;
  let fixed := if fixed ≥ MAD_F_ONE then MAD_F_ONE - 1 else fixed
  -- if (fixed <= -MAD_F_ONE) fixed = -MAD_F_ONE;
  let fixed := if fixed ≤ -MAD_F_ONE then -MAD_F_ONE else fixed
  -- fixed = fixed >> (MAD_F_FRACBITS - 23);
  let fixed := fixed >>> (MAD_F_FRACBITS - 23)
  -- return ((sample_t)fixed) << 8;
  wrap32 (fixed * 2 ^ 8)

/-! ## Data model -/

/-- The anonymous state enumeration of `struct decode_mad`. -/
inductive mad_state where
  | MAD_STATE_OK
  | MAD_STATE_PCM_READY
  | MAD_STATE_END_OF_FILE
  | MAD_STATE_ERROR
  deriving DecidableEq, Repr

/-- Modelled from the spec: libmad's `struct mad_bitptr` (mad.h is not under
src/), a bit cursor: the address of the current byte and the number of bits of
that byte still to be read (8 at a byte boundary). -/
structure mad_bitptr where
  byte : Nat
  left : Nat
  deriving DecidableEq, Repr

/-- Modelled from the spec: the fields of libmad's `struct mad_stream` that the
driver uses. All pointers are heap addresses. -/
structure mad_stream where
  buffer : Nat
  bufend : Nat
  skiplen : Nat
  sync : Nat
  ptr : mad_bitptr
  this_frame : Nat
  next_frame : Nat
  anc_ptr : mad_bitptr
  anc_bitlen : Nat
  error : Nat

/-- Modelled from the spec: the fields of libmad's `struct mad_header` that the
driver uses. -/
structure mad_header where
  flags : Nat
  samplerate : Nat

/-- Modelled from the spec: libmad's `struct mad_frame`, reduced to its header. -/
structure mad_frame where
  header : mad_header

/-- Modelled from the spec: libmad's `struct mad_pcm`: `samples c i` is
`samples[c][i]`, a 32-bit fixed-point value. -/
structure mad_pcm where
  samplerate : Nat
  channels : Nat
  length : Nat
  samples : Nat → Nat → Int

/-- Modelled from the spec: libmad's `struct mad_synth`, reduced to its PCM
block. -/
structure mad_synth where
  pcm : mad_pcm

/-- The decoder context `struct decode_mad`. The field `heap` holds the bytes
that the pointers of the context address (the input arena among them); the
content of `output_buffer` lives in the converter (see `output_loop`). -/
structure decode_mad where
  stream : mad_stream
  frame : mad_frame
  synth : mad_synth
  heap : Nat → Nat
  input_buffer : Nat
  output_buffer : Nat
  guard_pointer : Nat
  frames : Nat
  encoder_delay : Nat
  encoder_padding : Nat
  state : mad_state
  sample_rate : Nat

/-- A call received by the output sink: `decode_output_samples (buffer,
samples, sample_rate, copyright_asserted)`, where `buffer` is the part of the
output buffer written so far, or `decode_output_remove_padding (nsamples,
sample_rate)`. -/
inductive SinkCall where
  | samples (buffer : List Int) (samples : Nat) (sample_rate : Nat)
      (copyright_asserted : Bool)
  | remove_padding (nsamples : Nat) (sample_rate : Nat)
  deriving DecidableEq, Repr

/-! ## Bit cursor -/

/-- Bit number `pos` of the heap (0 or 1): bit 0 is the most significant bit of
the byte at address 0. -/
def heapBit (heap : Nat → Nat) (pos : Nat) : Nat :=
  heap (pos / 8) / 2 ^ (7 - pos % 8) % 2

/-- The value of the `len` bits that start at bit `pos`, first bit most
significant. -/
def bitsValue (heap : Nat → Nat) (pos : Nat) : Nat → Nat
  | 0 => 0
  | len + 1 => 2 * bitsValue heap pos len + heapBit heap (pos + len)

/-- The absolute bit position of a cursor. -/
def mad_bit_position (p : mad_bitptr) : Nat := 8 * p.byte + (8 - p.left)

/-- The cursor at an absolute bit position. -/
def mad_bit_at (pos : Nat) : mad_bitptr := ⟨pos / 8, 8 - pos % 8⟩

/-- Modelled from the spec: libmad's `mad_bit_skip`, which advances the cursor
by `len` bits. -/
def mad_bit_skip (p : mad_bitptr) (len : Nat) : mad_bitptr :=
  mad_bit_at (mad_bit_position p + len)

/-- Modelled from the spec: libmad's `mad_bit_read`, which returns the next
`len` bits, most significant first, and advances the cursor past them. The
cursor's byte cache is taken to mirror the heap. -/
def mad_bit_read (heap : Nat → Nat) (p : mad_bitptr) (len : Nat) :
    Nat × mad_bitptr :=
  (bitsValue heap (mad_bit_position p) len, mad_bit_skip p len)

/-! ## Gapless metadata: `xing_parse` -/

/-- One of the four blocks of `xing_parse` that skip an optional field:
`if (flags & flag) { if (bitlen < width) return; mad_bit_skip(&ptr, width); bitlen -= width; }`.
The result `none` is the `return`; otherwise the cursor, the remaining bit
count and the list of bit ranges touched so far are passed on. -/
def xing_skip (flags flag width : Nat) (ptr : mad_bitptr) (bitlen : Nat)
    (tr : List (Nat × Nat)) : Option (mad_bitptr × Nat × List (Nat × Nat)) :=
  if flags &&& flag ≠ 0 then
    if bitlen < width then none
    else some (mad_bit_skip ptr width, bitlen - width, tr ++ [(mad_bit_position ptr, width)])
  else some (ptr, bitlen, tr)

/-- The function `xing_parse` of decode_mad.c, together with the list of the
bit ranges `(position, length)` that it hands to `mad_bit_read` and
`mad_bit_skip`, in call order. -/
def xing_parse_traced (self : decode_mad) : decode_mad × List (Nat × Nat) :=
  let heap := self.heap
  let ptr := self.stream.anc_ptr
  let bitlen := self.stream.anc_bitlen
  if bitlen < 64 then (self, []) else
  let tr := [(mad_bit_position ptr, 32)]
  let (magic, ptr) := mad_bit_read heap ptr 32
  if magic ≠ XING_MAGIC ∧ magic ≠ INFO_MAGIC then (self, tr) else
  let tr := tr ++ [(mad_bit_position ptr, 32)]
  let (flags, ptr) := mad_bit_read heap ptr 32
  let bitlen := bitlen - 64
  -- skip traditional xing vbr tag data
  match xing_skip flags XING_FRAMES 32 ptr bitlen tr with
  | none => (self, tr)
  | some (ptr, bitlen, tr) =>
  match xing_skip flags XING_BYTES 32 ptr bitlen tr with
  | none => (self, tr)
  | some (ptr, bitlen, tr) =>
  match xing_skip flags XING_TOC 800 ptr bitlen tr with
  | none => (self, tr)
  | some (ptr, bitlen, tr) =>
  match xing_skip flags XING_SCALE 32 ptr bitlen tr with
  | none => (self, tr)
  | some (ptr, bitlen, tr) =>
  if bitlen < 72 then (self, tr) else
  let tr := tr ++ [(mad_bit_position ptr, 32)]
  let (magic, ptr) := mad_bit_read heap ptr 32
  let tr := tr ++ [(mad_bit_position ptr, 40)]
  let ptr := mad_bit_skip ptr 40
  let bitlen := bitlen - 72
  if magic ≠ LAME_MAGIC then (self, tr) else
  if bitlen < 120 then (self, tr) else
  let tr := tr ++ [(mad_bit_position ptr, 96)]
  let ptr := mad_bit_skip ptr 96
  let tr := tr ++ [(mad_bit_position ptr, 12)]
  let (delay, ptr) := mad_bit_read heap ptr 12
  let self := { self with encoder_delay := self.encoder_delay + delay }
  let tr := tr ++ [(mad_bit_position ptr, 12)]
  let (padding, _) := mad_bit_read heap ptr 12
  let self := { self with encoder_padding := padding }
  -- Remove MAD decoder delay of 529 samples from the end too
  if self.encoder_padding > MAD_DECODER_DELAY then
    ({ self with encoder_padding := self.encoder_padding - MAD_DECODER_DELAY }, tr)
  else
    ({ self with encoder_padding := 0 }, tr)

/-- The function `xing_parse` of decode_mad.c: the context it leaves. -/
def xing_parse (self : decode_mad) : decode_mad := (xing_parse_traced self).1

/-! ## Tag skipping: `tagtype` and `consume_id3_tags` -/

/-- The padding loop of `tagtype`:
`for (; size < length && !data[size]; ++size);`, run for at most `fuel`
iterations. -/
def tagtype_padding (data : Nat → Nat) (length : Nat) : Nat → Nat → Nat
  | 0, size => size
  | fuel + 1, size =>
    if size < length ∧ data size = 0 then
      tagtype_padding data length fuel (size + 1)
    else size

/-- The function `tagtype` of decode_mad.c; `data i` is the byte `data[i]`. The
padding loop is given `length - size` iterations, which it cannot exceed. -/
def tagtype (data : Nat → Nat) (length : Nat) : Nat :=
  if length ≥ 3 ∧ data 0 = 0x54 ∧ data 1 = 0x41 ∧ data 2 = 0x47 then
    -- ID3v1 tag detected
    128
  else if length ≥ 10 ∧
      (data 0 = 0x49 ∧ data 1 = 0x44 ∧ data 2 = 0x33) ∧
      data 3 < 0xff ∧ data 4 < 0xff ∧
      data 6 < 0x80 ∧ data 7 < 0x80 ∧ data 8 < 0x80 ∧ data 9 < 0x80 then
    -- ID3v2 tag detected
    let size := 10 + (data 6 <<< 21) + (data 7 <<< 14) + (data 8 <<< 7) + data 9
    let size := if data 5 &&& ID3_TAG_FLAG_FOOTERPRESENT ≠ 0 then size + 10 else size
    -- Consume padding
    tagtype_padding data length (length - size) size
  else 0

/-- Modelled from the spec: libmad's `mad_stream_skip`, which asks the engine
to skip `length` more bytes before the next frame. -/
def mad_stream_skip (stream : mad_stream) (length : Nat) : mad_stream :=
  { stream with skiplen := stream.skiplen + length }

/-- Modelled from the spec: libmad's `mad_stream_sync`, which moves the
engine's bit cursor to the next frame boundary. Where that is belongs to the
engine: `resync` gives the new cursor. -/
def mad_stream_sync (resync : (Nat → Nat) → mad_stream → mad_bitptr)
    (heap : Nat → Nat) (stream : mad_stream) : mad_stream :=
  { stream with ptr := resync heap stream }

/-- The function `consume_id3_tags` of decode_mad.c: the context it leaves and
its return value. -/
def consume_id3_tags (resync : (Nat → Nat) → mad_stream → mad_bitptr)
    (self : decode_mad) : decode_mad × Bool :=
  let remaining := self.stream.bufend - self.stream.next_frame
  let tagsize := tagtype (fun i => self.heap (self.stream.this_frame + i)) remaining
  let (self, rc) :=
    if tagsize ≠ 0 then
      -- ID3 tag detected, skipping tagsize bytes before next frame
      ({ self with stream := mad_stream_skip self.stream tagsize }, true)
    else (self, false)
  ({ self with stream := mad_stream_sync resync self.heap self.stream }, rc)

/-! ## Output converter: `decode_mad_output` -/

/-- The sample loop of `decode_mad_output`,
`for (i = offset; i < pcm->length; i++) { ... }`, run for at most `fuel`
iterations. `i` is the loop counter, `p` the number of increments applied to
the pointers `left` and `right` (which start at `samples[..][0]`), `buf` the
samples stored in the output buffer since it was last reset, `right` the
channel that `right` points into. The buffer is flushed to the sink when `buf`
reaches `buf_end`, that is after `OUTPUT_BUFFER_FRAMES` samples. -/
def output_loop (pcm : mad_pcm) (right : Nat) (sample_rate : Nat) :
    Nat → Nat → Nat → List Int → List SinkCall → List Int × List SinkCall
  | 0, _, _, buf, log => (buf, log)
  | fuel + 1, i, p, buf, log =>
    if i < pcm.length then
      -- *buf++ = mad_fixed_to_32bit(*left++);
      let buf := buf ++ [mad_fixed_to_32bit (pcm.samples 0 p)]
      -- *buf++ = mad_fixed_to_32bit(*right++);
      let buf := buf ++ [mad_fixed_to_32bit (pcm.samples right p)]
      if buf.length = OUTPUT_BUFFER_FRAMES then
        output_loop pcm right sample_rate fuel (i + 1) (p + 1) []
          (log ++ [SinkCall.samples buf (buf.length / 2) sample_rate false])
      else
        output_loop pcm right sample_rate fuel (i + 1) (p + 1) buf log
    else (buf, log)

/-- The closing part of `decode_mad_output`: the test of the guard pointer,
which sets the next state and removes the encoder padding at the end of the
stream. -/
def decode_mad_output_end (self : decode_mad) (log : List SinkCall) :
    decode_mad × List SinkCall :=
  -- If we've come to the guard pointer, we're done
  if self.stream.this_frame = self.guard_pointer then
    let self := { self with state := mad_state.MAD_STATE_END_OF_FILE }
    if self.encoder_padding ≠ 0 then
      (self, log ++ [SinkCall.remove_padding self.encoder_padding self.sample_rate])
    else (self, log)
  else
    ({ self with state := mad_state.MAD_STATE_OK }, log)

/-- The compensation of `decode_mad_output` for bug 5720 on the first frame:
files with CRC have the ancillary cursor in the wrong place, two bytes too
far. -/
def decode_mad_output_crc (self : decode_mad) : decode_mad :=
  if self.frame.header.flags &&& MAD_FLAG_PROTECTION ≠ 0 then
    if self.stream.anc_ptr.byte > self.stream.buffer + 2 then
      { self with stream := { self.stream with
          anc_ptr := { self.stream.anc_ptr with byte := self.stream.anc_ptr.byte - 2 } } }
    else self
  else self

/-- The function `decode_mad_output` of decode_mad.c: the context it leaves and
the calls it makes to the sink, in order. `can_write` is
`decode_output_can_write`. The counter `frames` and the `int offset` are
natural numbers here: the definition gives the C values as long as the
post-increment of the 32-bit counter does not wrap (`frames + 1 < 2 ^ 32`) and
`encoder_delay` fits the `int` (`encoder_delay < 2 ^ 31`); the theorems on the
rate test and on the number of frames written carry these bounds. -/
def decode_mad_output (can_write : Nat → Nat → Bool) (self : decode_mad) :
    decode_mad × List SinkCall :=
  let pcm := self.synth.pcm
  if can_write (SAMPLES_TO_BYTES pcm.length) self.sample_rate = false then
    ({ self with state := mad_state.MAD_STATE_PCM_READY }, [])
  else
  -- if (self->frames++ == 0)
  let frames := self.frames
  let self := { self with frames := self.frames + 1 }
  if frames = 0 then
    -- Bug 5720, files with CRC will have the ptr in the wrong place
    let self := decode_mad_output_crc self
    -- parse xing header
    let self := xing_parse self
    decode_mad_output_end self []
  else
    -- Bug 9046, don't allow sample rate to change mid stream
    if self.frames > 2 ∧ self.sample_rate ≠ self.frame.header.samplerate then
      (self, [])
    else
    let self := { self with sample_rate := self.frame.header.samplerate }
    let right := if pcm.channels = 2 then 1 else 0
    -- skip samples for the encoder delay
    let (self, offset) :=
      if self.encoder_delay ≠ 0 then
        let offset := self.encoder_delay
        let offset := if offset > pcm.length then pcm.length else offset
        ({ self with encoder_delay := self.encoder_delay - offset }, offset)
      else (self, 0)
    let (buf, log) := output_loop pcm right self.sample_rate (pcm.length - offset) offset 0 [] []
    let log := log ++ [SinkCall.samples buf (buf.length / 2) self.sample_rate false]
    decode_mad_output_end self log

/-- The function `decode_mad_start` of decode_mad.c: the fresh context, zeroed
except for its two buffers, the output rate and the intrinsic decoder delay.
`rate` is `decode_output_samplerate ()`; the two addresses are what `malloc`
returned. -/
def decode_mad_start (input_buffer output_buffer rate : Nat) : decode_mad :=
  { stream := { buffer := 0, bufend := 0, skiplen := 0, sync := 0, ptr := ⟨0, 8⟩,
                this_frame := 0, next_frame := 0, anc_ptr := ⟨0, 8⟩, anc_bitlen := 0,
                error := 0 }
    frame := { header := { flags := 0, samplerate := 0 } }
    synth := { pcm := { samplerate := 0, channels := 0, length := 0, samples := fun _ _ => 0 } }
    heap := fun _ => 0
    input_buffer := input_buffer
    output_buffer := output_buffer
    guard_pointer := 0
    frames := 0
    encoder_delay := MAD_DECODER_DELAY
    encoder_padding := 0
    state := mad_state.MAD_STATE_OK
    sample_rate := rate }

/-! ## Observations on the sink and on runs of the converter -/

/-- The stereo frames of an interleaved sample buffer. -/
def toFrames : List Int → List (Int × Int)
  | l :: r :: rest => (l, r) :: toFrames rest
  | _ => []

/-- The stereo frames that a list of sink calls writes, concatenated in call
order: each `decode_output_samples` call writes the first `samples` frames of
its buffer. -/
def sinkFrames : List SinkCall → List (Int × Int)
  | [] => []
  | SinkCall.samples buffer n _ _ :: rest => (toFrames buffer).take n ++ sinkFrames rest
  | SinkCall.remove_padding _ _ :: rest => sinkFrames rest

/-- The total of the `samples` arguments of the `decode_output_samples` calls. -/
def sinkCount : List SinkCall → Nat
  | [] => 0
  | SinkCall.samples _ n _ _ :: rest => n + sinkCount rest
  | SinkCall.remove_padding _ _ :: rest => sinkCount rest

/-- A block as the decode engine hands it over: the synthesized PCM, the frame
header and the source position of the frame. -/
structure Block where
  pcm : mad_pcm
  header : mad_header
  this_frame : Nat

/-- The context once the engine has decoded and synthesized block `b`. -/
def hand_block (self : decode_mad) (b : Block) : decode_mad :=
  { self with
    synth := { pcm := b.pcm }
    frame := { header := b.header }
    stream := { self.stream with this_frame := b.this_frame }
    state := mad_state.MAD_STATE_PCM_READY }

/-- The rate-mismatch test of `decode_mad_output` on a frame after the first:
true when the block is to be discarded. -/
def rate_discard (self : decode_mad) : Bool :=
  decide (self.frames + 1 > 2 ∧ self.sample_rate ≠ self.frame.header.samplerate)

/-- The converter run on a sequence of blocks: the final context and all the
sink calls, in order. -/
def convert_blocks (can_write : Nat → Nat → Bool) :
    decode_mad → List Block → decode_mad × List SinkCall
  | self, [] => (self, [])
  | self, b :: bs =>
    let r := decode_mad_output can_write (hand_block self b)
    let r2 := convert_blocks can_write r.1 bs
    (r2.1, r.2 ++ r2.2)

/-- No block of the sequence is discarded for a rate mismatch. -/
def no_discard (can_write : Nat → Nat → Bool) : decode_mad → List Block → Bool
  | _, [] => true
  | self, b :: bs =>
    !rate_discard (hand_block self b) &&
      no_discard can_write (decode_mad_output can_write (hand_block self b)).1 bs

/-- The total width in bits of the optional fields that the flags word of a
Xing tag announces: frame count 32, byte count 32, seek table 800, quality
scale 32. -/
def xing_opt (flags : Nat) : Nat :=
  32 * (if flags &&& 1 ≠ 0 then 1 else 0) + 32 * (if flags &&& 2 ≠ 0 then 1 else 0) +
    800 * (if flags &&& 4 ≠ 0 then 1 else 0) + 32 * (if flags &&& 8 ≠ 0 then 1 else 0)

/-- The `len`-bit field at bit offset `off` of the ancillary region of the
context, read most significant bit first. -/
def anc_bits (self : decode_mad) (off len : Nat) : Nat :=
  bitsValue self.heap (mad_bit_position self.stream.anc_ptr + off) len

/-- The gapless header of the ancillary region is complete and carries both
magics: the region has `256 + opt` bits, starts with `Xing` or `Info`, and has
`LAME` after the optional fields. -/
def xing_valid (self : decode_mad) : Prop :=
  self.stream.anc_bitlen ≥ 256 + xing_opt (anc_bits self 32 32) ∧
    (anc_bits self 0 32 = XING_MAGIC ∨ anc_bits self 0 32 = INFO_MAGIC) ∧
    anc_bits self (64 + xing_opt (anc_bits self 32 32)) 32 = LAME_MAGIC

instance (self : decode_mad) : Decidable (xing_valid self) := by
  unfold xing_valid; infer_instance

/-- The context that `xing_parse` leaves when the gapless header is valid. -/
def xing_updated (self : decode_mad) : decode_mad :=
  { self with
    encoder_delay :=
      self.encoder_delay + anc_bits self (232 + xing_opt (anc_bits self 32 32)) 12
    encoder_padding :=
      if anc_bits self (244 + xing_opt (anc_bits self 32 32)) 12 > 529 then
        anc_bits self (244 + xing_opt (anc_bits self 32 32)) 12 - 529
      else 0 }

/-- A heap that holds the bytes `bytes` from address `base` on and zero
elsewhere. -/
def heap_of (base : Nat) (bytes : List Nat) : Nat → Nat :=
  fun a => if base ≤ a then bytes.getD (a - base) 0 else 0

/-- A fresh context whose ancillary region is the `bitlen` bits that start at
the byte address 1000, where the heap holds `bytes`. -/
def anc_context (bytes : List Nat) (bitlen : Nat) : decode_mad :=
  { decode_mad_start 1000 5000 44100 with
    heap := heap_of 1000 bytes
    stream := { (decode_mad_start 1000 5000 44100).stream with
      buffer := 1000, bufend := 1000 + bytes.length, this_frame := 1000,
      next_frame := 1000 + bytes.length, anc_ptr := ⟨1000, 8⟩, anc_bitlen := bitlen } }

/-- A truncated tag: `Xing`, a zero flags word and 36 more bits. -/
def truncated_xing : decode_mad :=
  anc_context [0x58, 0x69, 0x6E, 0x67, 0, 0, 0, 0, 0x4C, 0x41, 0x4D, 0x45, 0x33] 100

/-- A complete tag of 256 bits: `Info`, zero flags, `LAME3.99r`, twelve bytes
of encoder data, then the delay 576 and the padding 1000 in 12 bits each. -/
def lame_tag : decode_mad :=
  anc_context [0x49, 0x6E, 0x66, 0x6F, 0, 0, 0, 0, 0x4C, 0x41, 0x4D, 0x45, 0x33, 0x2E, 0x39,
    0x39, 0x72, 1, 2, 3, 4, 5, 6, 7, 8, 9, 10, 11, 12, 0x24, 0x03, 0xE8] 256

/-- The 3-byte signature `TAG` of an ID3v1 tag within the first `n` bytes. -/
def id3v1_signature (data : Nat → Nat) (n : Nat) : Prop :=
  n ≥ 3 ∧ data 0 = 0x54 ∧ data 1 = 0x41 ∧ data 2 = 0x47

instance (data : Nat → Nat) (n : Nat) : Decidable (id3v1_signature data n) := by
  unfold id3v1_signature; infer_instance

/-- The 10-byte header of an ID3v2 tag within the first `n` bytes: `ID3`, a
version whose two bytes are below 0xFF and a size whose four bytes are below
0x80. -/
def id3v2_signature (data : Nat → Nat) (n : Nat) : Prop :=
  n ≥ 10 ∧ (data 0 = 0x49 ∧ data 1 = 0x44 ∧ data 2 = 0x33) ∧
    data 3 < 0xFF ∧ data 4 < 0xFF ∧
    data 6 < 0x80 ∧ data 7 < 0x80 ∧ data 8 < 0x80 ∧ data 9 < 0x80

instance (data : Nat → Nat) (n : Nat) : Decidable (id3v2_signature data n) := by
  unfold id3v2_signature; infer_instance

/-- The length of an ID3v2 tag without padding: the header, the size packed in
four bytes of 7 bits, and a footer of 10 bytes when bit 0x10 of the flags byte
is set. -/
def id3v2_base (data : Nat → Nat) : Nat :=
  10 + (data 6 <<< 21) + (data 7 <<< 14) + (data 8 <<< 7) + data 9 +
    (if data 5 &&& 0x10 ≠ 0 then 10 else 0)

/-- The bytes of an ID3v2.3 tag with a footer and a body of 2 bytes, followed
by two bytes of zero padding and the start of a frame. -/
def id3v2_sample : Nat → Nat :=
  heap_of 0 [0x49, 0x44, 0x33, 3, 0, 0x10, 0, 0, 0, 2, 7, 7, 0x33, 0x44, 0x49, 3, 0, 0x10, 0,
    0, 0, 2, 0, 0, 0xFF, 0xFB, 0x90, 0x64, 0, 0]

/-- A context that holds a synthesized block: a fresh context in which
`frames` frames have been converted, with the given remaining delay, whose
block has `length` sample frames at rate `rate`, the left channel `left` and
the right channel `right`, decoded from the start of the input buffer. -/
def block_context (frames encoder_delay rate length : Nat) (left right : List Int) :
    decode_mad :=
  { decode_mad_start 1000 5000 44100 with
    frames := frames
    encoder_delay := encoder_delay
    state := mad_state.MAD_STATE_PCM_READY
    synth := { pcm := { samplerate := rate, channels := 2, length := length,
                        samples := fun c i => if c = 0 then left.getD i 0 else right.getD i 0 } }
    frame := { header := { flags := 0, samplerate := rate } }
    stream := { (decode_mad_start 1000 5000 44100).stream with
      buffer := 1000, bufend := 1400, this_frame := 1000, next_frame := 1400 } }

/-- A second frame of two sample frames with one sample frame of delay left. -/
def delayed_block : decode_mad :=
  block_context 1 1 44100 2 [32, 64] [96, 128]

/-- A first frame whose source position is the guard marker: the guard region
was appended at the start of the input buffer. -/
def first_frame_at_guard : decode_mad :=
  { block_context 0 529 44100 2 [32, 64] [96, 128] with guard_pointer := 1000 }

/-- A third frame at 48000 Hz in a context whose rate is frozen at 44100 Hz. -/
def rate_change : decode_mad :=
  block_context 2 0 48000 2 [32, 64] [96, 128]

/-- A fourth frame at 48000 Hz, with delay left, in a context at 44100 Hz. -/
def rate_change_delayed : decode_mad :=
  block_context 3 17 48000 2 [32, 64] [96, 128]

/-- The stereo frame that the sample loop stores on the iteration that finds
the pointers `left` and `right` advanced by `p`. -/
def frame_at (pcm : mad_pcm) (right : Nat) (p : Nat) : Int × Int :=
  (mad_fixed_to_32bit (pcm.samples 0 p), mad_fixed_to_32bit (pcm.samples right p))

/-- The sink calls of the sample loop and the final flush of a block whose
first `k` loop positions are skipped. -/
def output_calls (pcm : mad_pcm) (right rate k : Nat) : List SinkCall :=
  (output_loop pcm right rate (pcm.length - k) k 0 [] []).2 ++
    [SinkCall.samples (output_loop pcm right rate (pcm.length - k) k 0 [] []).1
      ((output_loop pcm right rate (pcm.length - k) k 0 [] []).1.length / 2) rate false]

/-- The stereo frames that claim C1 expects from a block: the converted frames
at block positions `k, k + 1, ..., length - 1` for `k = min encoder_delay
length`, with the right channel taken from channel 1 for stereo and from
channel 0 for mono. -/
def claimed_frames (self : decode_mad) : List (Int × Int) :=
  (List.range' (min self.encoder_delay self.synth.pcm.length)
    (self.synth.pcm.length - min self.encoder_delay self.synth.pcm.length)).map
      (frame_at self.synth.pcm (if self.synth.pcm.channels = 2 then 1 else 0))

/-- Two blocks of two sample frames each at 44100 Hz. -/
def two_blocks : List Block :=
  [ { pcm := { samplerate := 44100, channels := 2, length := 2,
               samples := fun c i => if c = 0 then [32, 64].getD i 0 else [96, 128].getD i 0 }
      header := { flags := 0, samplerate := 44100 }
      this_frame := 1000 },
    { pcm := { samplerate := 44100, channels := 1, length := 2,
               samples := fun _ i => [160, 192].getD i 0 }
      header := { flags := 0, samplerate := 44100 }
      this_frame := 1200 } ]

/-- The sum of the lengths of a sequence of blocks. -/
def total_length : List Block → Nat
  | [] => 0
  | b :: bs => b.pcm.length + total_length bs

/-- A block at 44100 Hz of two sample frames. -/
def block_44100 : Block :=
  { pcm := { samplerate := 44100, channels := 2, length := 2,
             samples := fun c i => if c = 0 then [32, 64].getD i 0 else [96, 128].getD i 0 }
    header := { flags := 0, samplerate := 44100 }
    this_frame := 1000 }

/-- A block at 48000 Hz of two sample frames. -/
def block_48000 : Block :=
  { pcm := { samplerate := 48000, channels := 2, length := 2,
             samples := fun c i => if c = 0 then [32, 64].getD i 0 else [96, 128].getD i 0 }
    header := { flags := 0, samplerate := 48000 }
    this_frame := 1200 }

/-! ## Driver: `decode_mad_frame`, `decode_mad_callback`, `decode_mad_period` -/

/-- The constant `OUTPUT_BUFFER_BYTES` of decode_mad.c, with
`sizeof(sample_t) = 4`. -/
def OUTPUT_BUFFER_BYTES : Nat := OUTPUT_BUFFER_FRAMES * 4

/-- Modelled from the spec: `MAD_ERROR_NONE` of libmad's mad.h. -/
def MAD_ERROR_NONE : Nat := 0x0000

/-- Modelled from the spec: `MAD_ERROR_BUFLEN` of libmad's mad.h, the engine's
need-more-data error. -/
def MAD_ERROR_BUFLEN : Nat := 0x0001

/-- Modelled from the spec: `MAD_ERROR_LOSTSYNC` of libmad's mad.h, the
engine's lost-synchronization error. -/
def MAD_ERROR_LOSTSYNC : Nat := 0x0101

/-- Modelled from the spec: the macro `MAD_RECOVERABLE` of libmad's mad.h,
`((error) & 0xff00)`. -/
def MAD_RECOVERABLE (error : Nat) : Bool := decide (error &&& 0xff00 ≠ 0)

/-- The width of `size_t` in the arithmetic of `decode_mad_frame`: sizes are
taken modulo `2 ^ 32`, the width on the 32-bit targets of the player. On a
build with a 64-bit `size_t` the modulus is `2 ^ 64`; only the value of an
underflowed `read_max` depends on it. -/
def SIZE_MODULUS : Nat := 2 ^ 32

/-- The bits of the global `current_decoder_state` that the driver sets and
clears: `DECODE_STATE_UNDERRUN` and `DECODE_STATE_ERROR`. -/
structure decoder_flags where
  underrun : Bool
  error : Bool
  deriving DecidableEq, Repr

/-- A call that the driver makes to one of its collaborators, in the order of
the calls: `streambuf_read` (with the maximum asked for, the number of bytes
read and the streaming flag returned), `mad_frame_decode`, `mad_stream_sync`,
`mad_synth_frame`, or a call to the output sink. -/
inductive Event where
  | read (max num : Nat) (streaming : Bool)
  | frame_decode
  | stream_sync
  | synth_frame
  | sink (call : SinkCall)
  deriving DecidableEq, Repr

/-- The collaborators of the driver, which are not part of decode_mad.c.
Modelled from the spec: `can_write` is `decode_output_can_write`;
`streambuf_read max` is what the byte source delivers when asked for at most
`max` bytes, with its still-streaming flag; `mad_frame_decode` is the decode
engine, which reports failure (true) or success and leaves a new stream state
and frame; `mad_synth_frame` is the synthesis; `resync` is where
`mad_stream_sync` moves the engine's cursor. -/
structure externals where
  can_write : Nat → Nat → Bool
  streambuf_read : Nat → List Nat × Bool
  mad_frame_decode : (Nat → Nat) → mad_stream → mad_frame → Bool × mad_stream × mad_frame
  mad_synth_frame : mad_synth → mad_frame → mad_synth
  resync : (Nat → Nat) → mad_stream → mad_bitptr

/-- What a step of the driver leaves: the context, the global flags and the
calls made to the collaborators. -/
structure outcome where
  self : decode_mad
  flags : decoder_flags
  events : List Event

/-- The library function `memcpy (dst, src, n)` on the heap: byte `i` of the
destination becomes byte `i` of the source. C defines the call only for
regions that do not overlap; on overlapping regions the definition gives the
bytes that the source held before the call, which is one of the outcomes a
library can produce, and theorems that state what the destination holds assume
that the regions are disjoint (`refill_disjoint`). -/
def memcpy (heap : Nat → Nat) (dst src n : Nat) : Nat → Nat :=
  fun a => if dst ≤ a ∧ a < dst + n then heap (src + (a - dst)) else heap a

/-- The library function `memset (dst, c, n)` on the heap. -/
def memset (heap : Nat → Nat) (dst c n : Nat) : Nat → Nat :=
  fun a => if dst ≤ a ∧ a < dst + n then c else heap a

/-- The bytes that `streambuf_read` stores from `dst` on. -/
def store_bytes (heap : Nat → Nat) (dst : Nat) (bytes : List Nat) : Nat → Nat :=
  fun a => if dst ≤ a ∧ a < dst + bytes.length then bytes.getD (a - dst) 0 else heap a

/-- Modelled from the spec: libmad's `mad_stream_buffer`, which hands the
engine the window of `length` bytes at `buffer`: the frame positions and the
cursor are reset to the start of the window. -/
def mad_stream_buffer (stream : mad_stream) (buffer length : Nat) : mad_stream :=
  { stream with
    buffer := buffer, bufend := buffer + length, this_frame := buffer,
    next_frame := buffer, sync := 1, ptr := ⟨buffer, 8⟩ }

/-- The number of unconsumed bytes that a refill carries over: `remaining` in
`decode_mad_frame`. -/
def refill_remaining (self : decode_mad) : Nat :=
  if self.stream.next_frame ≠ 0 then self.stream.bufend - self.stream.next_frame else 0

/-- The heap once a refill has copied the unconsumed bytes to the beginning of
the input buffer: `memcpy(self->input_buffer, self->stream.next_frame,
remaining)` when `next_frame` is not null. -/
def refill_heap (self : decode_mad) : Nat → Nat :=
  if self.stream.next_frame ≠ 0 then
    memcpy self.heap self.input_buffer self.stream.next_frame (refill_remaining self)
  else self.heap

/-- The `memcpy` of a refill is defined in C: there is no tail to carry over,
or the tail `[next_frame, next_frame + remaining)` and its destination
`[input_buffer, input_buffer + remaining)` do not overlap. -/
def refill_disjoint (self : decode_mad) : Prop :=
  refill_remaining self = 0 ∨
    self.input_buffer + refill_remaining self ≤ self.stream.next_frame ∨
    self.stream.next_frame + refill_remaining self ≤ self.input_buffer

instance (self : decode_mad) : Decidable (refill_disjoint self) := by
  unfold refill_disjoint; infer_instance

/-- The bound `read_max = INPUT_BUFFER_SIZE - remaining` of `decode_mad_frame`,
in `size_t` arithmetic. -/
def refill_read_max (self : decode_mad) : Nat :=
  (INPUT_BUFFER_SIZE + SIZE_MODULUS - refill_remaining self % SIZE_MODULUS) % SIZE_MODULUS

/-- The bytes that `streambuf_read(read_start, 0, read_max, &streaming)`
stores in a refill. Modelled from the spec: the byte source delivers at most
`read_max` bytes. -/
def refill_bytes (ext : externals) (self : decode_mad) : List Nat :=
  (ext.streambuf_read (refill_read_max self)).1.take (refill_read_max self)

/-- The end of a refill in `decode_mad_frame`: the window of `length` bytes at
the start of the input buffer is sent to the engine and the stream error is
cleared. -/
def decode_mad_frame_send (self : decode_mad) (length : Nat) : decode_mad :=
  { self with stream :=
      { mad_stream_buffer self.stream self.input_buffer length with error := MAD_ERROR_NONE } }

/-- The refill of `decode_mad_frame`, the body of
`if (self->stream.buffer == NULL || self->stream.error == MAD_ERROR_BUFLEN)`.
The last component is true when the function returns from inside the refill
(no byte was read and the source is still streaming). -/
def decode_mad_frame_refill (ext : externals) (self : decode_mad) (flags : decoder_flags) :
    outcome × Bool :=
  -- If there's data left from the last time, copy it to the beginning of the input buffer
  let remaining := refill_remaining self
  let heap := refill_heap self
  let read_start := self.input_buffer + remaining
  let read_max := refill_read_max self
  -- read_num = streambuf_read(read_start, 0, read_max, &streaming);
  let bytes := refill_bytes ext self
  let streaming := (ext.streambuf_read read_max).2
  let read_num := bytes.length
  let self := { self with heap := store_bytes heap read_start bytes }
  let events := [Event.read read_max read_num streaming]
  if read_num = 0 then
    let flags := { flags with underrun := true }
    if streaming = true then (⟨self, flags, events⟩, true)
    else
      -- If we're at the end of the input file, write out the buffer guard.
      let self := { self with guard_pointer := read_start }
      let self := { self with heap := memset self.heap self.guard_pointer 0 MAD_BUFFER_GUARD }
      let read_num := read_num + MAD_BUFFER_GUARD
      (⟨decode_mad_frame_send self (read_num + remaining), flags, events⟩, false)
  else
    let flags := { flags with underrun := false }
    (⟨decode_mad_frame_send self (read_num + remaining), flags, events⟩, false)

/-- The synthesis that ends `decode_mad_frame`: `mad_synth_frame` and the
state `MAD_STATE_PCM_READY`. -/
def decode_mad_frame_synth (ext : externals) (self : decode_mad) (flags : decoder_flags)
    (events : List Event) : outcome :=
  ⟨{ self with
      synth := ext.mad_synth_frame self.synth self.frame
      state := mad_state.MAD_STATE_PCM_READY },
    flags, events ++ [Event.synth_frame]⟩

/-- The call `mad_frame_decode(&self->frame, &self->stream)`: whether the
engine reports an error, and the context with the stream state and the frame
that the engine leaves. Modelled from the spec: the engine leaves the bounds
`buffer` and `bufend` of its window alone. -/
def decode_mad_frame_engine (ext : externals) (self : decode_mad) : Bool × decode_mad :=
  let r := ext.mad_frame_decode self.heap self.stream self.frame
  (r.1, { self with
    stream := { r.2.1 with buffer := self.stream.buffer, bufend := self.stream.bufend }
    frame := r.2.2 })

/-- The part of `decode_mad_frame` that follows the refill: the call of the
engine, the classification of its error, and the synthesis. A `continue`
leaves the `do { } while (0)` loop, that is the function. -/
def decode_mad_frame_decode (ext : externals) (self : decode_mad) (flags : decoder_flags) :
    outcome :=
  let failed := (decode_mad_frame_engine ext self).1
  let self := (decode_mad_frame_engine ext self).2
  let events := [Event.frame_decode]
  if failed = true then
    if MAD_RECOVERABLE self.stream.error = true then
      let c := consume_id3_tags ext.resync self
      let events := events ++ [Event.stream_sync]
      if c.2 = true then ⟨c.1, flags, events⟩
      else if c.1.stream.error ≠ MAD_ERROR_LOSTSYNC ∨
          c.1.stream.this_frame ≠ c.1.guard_pointer then ⟨c.1, flags, events⟩
      else decode_mad_frame_synth ext c.1 flags events
    else
      -- Need more data, try again
      if self.stream.error = MAD_ERROR_BUFLEN then ⟨self, flags, events⟩
      else
        -- unrecoverable error
        ⟨{ self with state := mad_state.MAD_STATE_ERROR }, { flags with error := true }, events⟩
  else decode_mad_frame_synth ext self flags events

/-- The test of `decode_mad_frame` for a refill: first execution, or the
engine has reported that it needs more data. -/
def needs_refill (self : decode_mad) : Prop :=
  self.stream.buffer = 0 ∨ self.stream.error = MAD_ERROR_BUFLEN

instance (self : decode_mad) : Decidable (needs_refill self) := by
  unfold needs_refill; infer_instance

/-- The function `decode_mad_frame` of decode_mad.c. -/
def decode_mad_frame (ext : externals) (self : decode_mad) (flags : decoder_flags) : outcome :=
  if needs_refill self then
    let r := decode_mad_frame_refill ext self flags
    if r.2 = true then r.1
    else
      let d := decode_mad_frame_decode ext r.1.self r.1.flags
      ⟨d.self, d.flags, r.1.events ++ d.events⟩
  else decode_mad_frame_decode ext self flags

/-- The context, the flags and the calls with which `decode_mad_frame` reaches
the call of the engine: those of the refill when one is needed, the ones on
entry otherwise. -/
def decode_mad_frame_window (ext : externals) (self : decode_mad) (flags : decoder_flags) :
    outcome :=
  if needs_refill self then (decode_mad_frame_refill ext self flags).1 else ⟨self, flags, []⟩

/-- The refill of `decode_mad_frame` is needed and returns without calling the
engine: no byte was read and the source is still streaming. -/
def decode_mad_frame_starved (ext : externals) (self : decode_mad) (flags : decoder_flags) :
    Prop :=
  needs_refill self ∧ (decode_mad_frame_refill ext self flags).2 = true

instance (ext : externals) (self : decode_mad) (flags : decoder_flags) :
    Decidable (decode_mad_frame_starved ext self flags) := by
  unfold decode_mad_frame_starved; infer_instance

/-- The function `decode_mad_callback` of decode_mad.c: what the tick leaves
and its return value. -/
def decode_mad_callback (ext : externals) (self : decode_mad) (flags : decoder_flags) :
    outcome × Bool :=
  -- End of file?
  if self.state = mad_state.MAD_STATE_END_OF_FILE ∨ self.state = mad_state.MAD_STATE_ERROR then
    (⟨self, flags, []⟩, false)
  else if ext.can_write OUTPUT_BUFFER_BYTES self.sample_rate = false then
    (⟨self, flags, []⟩, false)
  else
    let f : outcome :=
      if self.state = mad_state.MAD_STATE_OK then decode_mad_frame ext self flags
      else ⟨self, flags, []⟩
    if f.self.state = mad_state.MAD_STATE_PCM_READY then
      let o := decode_mad_output ext.can_write f.self
      (⟨o.1, f.flags, f.events ++ o.2.map Event.sink⟩, true)
    else (f, true)

/-- The function `decode_mad_period` of decode_mad.c. -/
def decode_mad_period (self : decode_mad) : Nat :=
  if self.sample_rate ≤ 48000 then 8 else 4

/-- The driver after `n` ticks. -/
def ticks (ext : externals) : Nat → decode_mad × decoder_flags → decode_mad × decoder_flags
  | 0, s => s
  | n + 1, s =>
    ((decode_mad_callback ext (ticks ext n s).1 (ticks ext n s).2).1.self,
      (decode_mad_callback ext (ticks ext n s).1 (ticks ext n s).2).1.flags)

/-- The `n` bytes of the heap from address `a` on. -/
def window_bytes (heap : Nat → Nat) (a n : Nat) : List Nat :=
  (List.range n).map (fun i => heap (a + i))

/-- The arguments of the `decode_output_remove_padding` calls in a list of
sink calls. -/
def paddingCalls : List SinkCall → List (Nat × Nat)
  | [] => []
  | SinkCall.samples _ _ _ _ :: rest => paddingCalls rest
  | SinkCall.remove_padding n r :: rest => (n, r) :: paddingCalls rest

/-! ## Concrete contexts and collaborators of the driver -/

/-- A last block: a fifth frame whose source position is the guard marker, in
a context with 200 sample frames of encoder padding. -/
def last_block : decode_mad :=
  { block_context 4 0 44100 2 [32, 64] [96, 128] with
    guard_pointer := 1000, encoder_padding := 200 }

/-- Collaborators of a driver whose byte source is temporarily empty: the sink
has room, the source delivers nothing and is still streaming. -/
def starved_source : externals :=
  { can_write := fun _ _ => true,
    streambuf_read := fun _ => ([], true),
    mad_frame_decode := fun _ s f => (false, s, f),
    mad_synth_frame := fun s _ => s,
    resync := fun _ s => s.ptr }

/-- Collaborators of a driver whose sink is full. -/
def full_sink : externals :=
  { starved_source with can_write := fun _ _ => false }

/-- The flags word with no bit set. -/
def no_flags : decoder_flags := ⟨false, false⟩

/-- A context in state Ready whose engine has reported need-more-data with
four unconsumed bytes `3, 4, 5, 6` left at offset 2 of a window of six bytes:
the tail is longer than its distance from the start of the input buffer. -/
def overlapping_tail : decode_mad :=
  { decode_mad_start 1000 5000 44100 with
    heap := heap_of 1000 [1, 2, 3, 4, 5, 6]
    stream := { (decode_mad_start 1000 5000 44100).stream with
      buffer := 1000, bufend := 1006, this_frame := 1002, next_frame := 1002,
      error := MAD_ERROR_BUFLEN } }

/-- A context in state Ready whose engine has reported need-more-data with
four unconsumed bytes `7, 8, 9, 10` left at offset 6 of a window of ten bytes:
the tail does not overlap the start of the input buffer. -/
def separate_tail : decode_mad :=
  { decode_mad_start 1000 5000 44100 with
    heap := heap_of 1000 [1, 2, 3, 4, 5, 6, 7, 8, 9, 10]
    stream := { (decode_mad_start 1000 5000 44100).stream with
      buffer := 1000, bufend := 1010, this_frame := 1006, next_frame := 1006,
      error := MAD_ERROR_BUFLEN } }

/-- Collaborators whose byte source delivers the single byte 9. -/
def one_byte_source : externals :=
  { can_write := fun _ _ => true,
    streambuf_read := fun _ => ([9], true),
    mad_frame_decode := fun _ s f => (false, s, f),
    mad_synth_frame := fun s _ => s,
    resync := fun _ s => s.ptr }

/-- Collaborators whose byte source has ended and whose engine keeps reporting
need-more-data without consuming a byte. -/
def hungry_engine : externals :=
  { can_write := fun _ _ => true,
    streambuf_read := fun _ => ([], false),
    mad_frame_decode := fun _ s f => (true, { s with error := MAD_ERROR_BUFLEN }, f),
    mad_synth_frame := fun s _ => s,
    resync := fun _ s => s.ptr }

/-- Modelled from the spec: libmad's error code `MAD_ERROR_NOMEM` of mad.h
(not enough memory), an error that is neither recoverable nor
need-more-data. -/
def MAD_ERROR_NOMEM : Nat := 0x0031

/-- Collaborators whose byte source has ended and whose engine reports lost
synchronization at the start of every window, one byte consumed. -/
def guard_engine : externals :=
  { can_write := fun _ _ => true,
    streambuf_read := fun _ => ([], false),
    mad_frame_decode := fun _ s f =>
      (true, { s with error := MAD_ERROR_LOSTSYNC, this_frame := s.buffer,
                      next_frame := s.buffer + 1 }, f),
    mad_synth_frame := fun s _ => s,
    resync := fun _ s => s.ptr }

/-- Collaborators whose byte source has ended and whose engine fails with an
error that is not recoverable. -/
def fatal_engine : externals :=
  { can_write := fun _ _ => true,
    streambuf_read := fun _ => ([], false),
    mad_frame_decode := fun _ s f => (true, { s with error := MAD_ERROR_NOMEM }, f),
    mad_synth_frame := fun s _ => s,
    resync := fun _ s => s.ptr }

/-- Collaborators like `guard_engine` whose re-synchronization moves the
engine's cursor to the start of the next frame. -/
def resync_engine : externals :=
  { guard_engine with resync := fun _ s => ⟨s.next_frame, 8⟩ }

/-- The context that the engine leaves in `decode_mad_frame`, and whether it
reported an error: the engine runs on the window of the refill, or on the
window it had when no refill is needed. -/
def decode_mad_frame_decoded (ext : externals) (self : decode_mad) (flags : decoder_flags) :
    Bool × decode_mad :=
  decode_mad_frame_engine ext (decode_mad_frame_window ext self flags).self

/-- A first frame with the CRC-protection flag set, whose ancillary cursor is
at byte offset `o` of a window that starts at address 1000. -/
def crc_frame (o : Nat) : decode_mad :=
  { decode_mad_start 1000 5000 44100 with
    state := mad_state.MAD_STATE_PCM_READY
    frame := { header := { flags := MAD_FLAG_PROTECTION, samplerate := 44100 } }
    stream := { (decode_mad_start 1000 5000 44100).stream with
      buffer := 1000, bufend := 1100, this_frame := 1000, next_frame := 1100,
      anc_ptr := ⟨1000 + o, 8⟩ } }

/-! ## Bytes read by `tagtype` and `consume_id3_tags` -/

/-- A chain `test (data[i]) && test (data[j]) && ...` of C, evaluated from the
left and cut short at the first test that fails: its value and the indices of
the bytes it read, in order. -/
def read_tests (data : Nat → Nat) : List (Nat × (Nat → Bool)) → Bool × List Nat
  | [] => (true, [])
  | (i, test) :: rest =>
    if test (data i) = true then
      ((read_tests data rest).1, i :: (read_tests data rest).2)
    else (false, [i])

/-- The padding loop of `tagtype` with the indices of the bytes it reads:
`data[size]` is read only when `size < length` holds. -/
def tagtype_padding_traced (data : Nat → Nat) (length : Nat) : Nat → Nat → Nat × List Nat
  | 0, size => (size, [])
  | fuel + 1, size =>
    if size < length then
      if data size = 0 then
        ((tagtype_padding_traced data length fuel (size + 1)).1,
          size :: (tagtype_padding_traced data length fuel (size + 1)).2)
      else (size, [size])
    else (size, [])

/-- The function `tagtype` of decode_mad.c with the indices of the bytes of
`data` that it reads, in order: the value returned and the indices. The tests
joined by `&&` are evaluated from the left and cut short. -/
def tagtype_traced (data : Nat → Nat) (length : Nat) : Nat × List Nat :=
  -- length >= 3 && data[0] == 'T' && data[1] == 'A' && data[2] == 'G'
  let t1 :=
    if length ≥ 3 then
      read_tests data [(0, fun b => b == 0x54), (1, fun b => b == 0x41), (2, fun b => b == 0x47)]
    else (false, [])
  if t1.1 = true then (128, t1.2)
  else
    let t2 :=
      if length ≥ 10 then
        read_tests data
          [(0, fun b => b == 0x49), (1, fun b => b == 0x44), (2, fun b => b == 0x33),
            (3, fun b => decide (b < 0xff)), (4, fun b => decide (b < 0xff)),
            (6, fun b => decide (b < 0x80)), (7, fun b => decide (b < 0x80)),
            (8, fun b => decide (b < 0x80)), (9, fun b => decide (b < 0x80))]
      else (false, [])
    if t2.1 = true then
      -- size = 10 + (data[6]<<21) + (data[7]<<14) + (data[8]<<7) + data[9];
      let size := 10 + (data 6 <<< 21) + (data 7 <<< 14) + (data 8 <<< 7) + data 9
      -- if (data[5] & ID3_TAG_FLAG_FOOTERPRESENT)
      let size := if data 5 &&& ID3_TAG_FLAG_FOOTERPRESENT ≠ 0 then size + 10 else size
      let p := tagtype_padding_traced data length (length - size) size
      (p.1, t1.2 ++ t2.2 ++ [6, 7, 8, 9, 5] ++ p.2)
    else (0, t1.2 ++ t2.2)

/-- The addresses that `consume_id3_tags` reads through `tagtype`: the scan
starts at `this_frame` and is given the length `bufend - next_frame`. -/
def consume_id3_tags_reads (self : decode_mad) : List Nat :=
  (tagtype_traced (fun i => self.heap (self.stream.this_frame + i))
    (self.stream.bufend - self.stream.next_frame)).2.map (fun i => self.stream.this_frame + i)

/-- A window of 30 bytes at address 1000 that starts with an ID3v2 tag, after
the engine has lost synchronization at its first byte. -/
def tagged_window : decode_mad :=
  { decode_mad_start 1000 5000 44100 with
    heap := fun a => id3v2_sample (a - 1000)
    stream := { (decode_mad_start 1000 5000 44100).stream with
      buffer := 1000, bufend := 1030, this_frame := 1000, next_frame := 1001,
      error := MAD_ERROR_LOSTSYNC } }

/-- The end of the input arena of a context: `input_buffer` was allocated with
`malloc(INPUT_BUFFER_SIZE + MAD_BUFFER_GUARD)`. -/
def arena_end (self : decode_mad) : Nat :=
  self.input_buffer + (INPUT_BUFFER_SIZE + MAD_BUFFER_GUARD)

/-- A fresh context in a memory that holds the byte 0xAA everywhere: `malloc`
clears neither the arena nor what lies behind it. -/
def canary_start : decode_mad :=
  { decode_mad_start 1000 5000 44100 with heap := fun _ => 0xAA }

/-! ## A decode engine that consumes its window -/

/-- Conditions on the decode engine, which is not part of decode_mad.c, under
which the driver reaches the end of the stream. For every call on a window
`[buffer, bufend)` with `next_frame` inside it:
need-more-data is reported only when the whole window is consumed
(`next_frame = bufend` on return); every other report, success or error,
consumes at least one byte and leaves `next_frame` inside the window; an error
is recoverable or need-more-data; a success does not leave the error code
need-more-data; the frame header carries the sample rate `rate`; and when
exactly `MAD_BUFFER_GUARD` bytes are left and they are zero, the guard region,
the engine reports lost synchronization at their first byte. -/
def consuming_engine (ext : externals) (rate : Nat) : Prop :=
  ∀ (heap : Nat → Nat) (s : mad_stream) (f : mad_frame), s.next_frame ≤ s.bufend →
    ((ext.mad_frame_decode heap s f).1 = true ∧
        (ext.mad_frame_decode heap s f).2.1.error = MAD_ERROR_BUFLEN →
      (ext.mad_frame_decode heap s f).2.1.next_frame = s.bufend) ∧
    (¬ ((ext.mad_frame_decode heap s f).1 = true ∧
        (ext.mad_frame_decode heap s f).2.1.error = MAD_ERROR_BUFLEN) →
      s.next_frame < (ext.mad_frame_decode heap s f).2.1.next_frame ∧
        (ext.mad_frame_decode heap s f).2.1.next_frame ≤ s.bufend) ∧
    ((ext.mad_frame_decode heap s f).1 = true →
      MAD_RECOVERABLE (ext.mad_frame_decode heap s f).2.1.error = true ∨
        (ext.mad_frame_decode heap s f).2.1.error = MAD_ERROR_BUFLEN) ∧
    ((ext.mad_frame_decode heap s f).1 = false →
      (ext.mad_frame_decode heap s f).2.1.error ≠ MAD_ERROR_BUFLEN) ∧
    (ext.mad_frame_decode heap s f).2.2.header.samplerate = rate ∧
    (s.next_frame + MAD_BUFFER_GUARD = s.bufend →
      (∀ i, i < MAD_BUFFER_GUARD → heap (s.next_frame + i) = 0) →
      (ext.mad_frame_decode heap s f).1 = true ∧
        (ext.mad_frame_decode heap s f).2.1.error = MAD_ERROR_LOSTSYNC ∧
        (ext.mad_frame_decode heap s f).2.1.this_frame = s.next_frame)

/-- The window of a context is in use and `next_frame` lies inside it, or the
context needs a refill and has no unconsumed bytes to carry over. -/
def window_ready (self : decode_mad) : Prop :=
  (needs_refill self ∧ refill_remaining self = 0) ∨
    (¬ needs_refill self ∧ self.stream.next_frame ≤ self.stream.bufend)

instance (self : decode_mad) : Decidable (window_ready self) := by
  unfold window_ready; infer_instance

/-- Collaborators with an ended byte source, a sink that always has room, and
a toy engine that consumes one byte per call: at the end of the window it
reports need-more-data; a byte 0xFF is a frame at 44100 Hz, decoded with
success; at any other byte it reports lost synchronization. The
re-synchronization moves the cursor to `next_frame`. -/
def byte_engine : externals :=
  { can_write := fun _ _ => true,
    streambuf_read := fun _ => ([], false),
    mad_frame_decode := fun heap s _ =>
      if s.bufend ≤ s.next_frame then
        (true, { s with error := MAD_ERROR_BUFLEN, next_frame := s.bufend },
          { header := { flags := 0, samplerate := 44100 } })
      else if heap s.next_frame = 0xFF then
        (false, { s with this_frame := s.next_frame, next_frame := s.next_frame + 1,
                         error := MAD_ERROR_NONE },
          { header := { flags := 0, samplerate := 44100 } })
      else
        (true, { s with this_frame := s.next_frame, next_frame := s.next_frame + 1,
                        error := MAD_ERROR_LOSTSYNC },
          { header := { flags := 0, samplerate := 44100 } }),
    mad_synth_frame := fun s _ => s,
    resync := fun _ s => ⟨s.next_frame, 8⟩ }

/-- A context in state Ready whose window holds the three bytes 0xFF, 7, 0xFF,
none of them consumed: a frame, a byte of garbage and a frame. -/
def short_track : decode_mad :=
  { decode_mad_start 1000 5000 44100 with
    heap := heap_of 1000 [0xFF, 7, 0xFF]
    stream := { (decode_mad_start 1000 5000 44100).stream with
      buffer := 1000, bufend := 1003, this_frame := 1000, next_frame := 1000 } }

/-- The context that a tick in state Ready leaves once the window is in place
in context `w`: the call of the engine and the classification of its report,
followed by the converter when a block is ready. -/
def decode_mad_callback_from (ext : externals) (w : decode_mad) (flags : decoder_flags) :
    decode_mad :=
  if (decode_mad_frame_decode ext w flags).self.state = mad_state.MAD_STATE_PCM_READY then
    (decode_mad_output ext.can_write (decode_mad_frame_decode ext w flags).self).1
  else (decode_mad_frame_decode ext w flags).self

/-! ## Lemmas on the bit cursor and on `xing_parse` -/

/-- The cursor at a bit position has that position. -/
theorem mad_bit_position_at (pos : Nat) : mad_bit_position (mad_bit_at pos) = pos := by
  unfold mad_bit_position mad_bit_at
  simp only
  omega

/-- Skipping `len` bits advances the position of the cursor by `len`. -/
theorem mad_bit_position_skip (p : mad_bitptr) (len : Nat) :
    mad_bit_position (mad_bit_skip p len) = mad_bit_position p + len := by
  unfold mad_bit_skip
  exact mad_bit_position_at _

/-- What one optional-field block of `xing_parse` does: it returns early when
the field is announced and does not fit, and otherwise advances the cursor by
the width of the field if it is announced. -/
theorem xing_skip_spec (flags flag w : Nat) (ptr : mad_bitptr) (bl : Nat)
    (tr : List (Nat × Nat)) :
    (xing_skip flags flag w ptr bl tr = none ∧ flags &&& flag ≠ 0 ∧ bl < w) ∨
    (∃ ptr' bl' tr', xing_skip flags flag w ptr bl tr = some (ptr', bl', tr') ∧
      bl = bl' + w * (if flags &&& flag ≠ 0 then 1 else 0) ∧
      mad_bit_position ptr' =
        mad_bit_position ptr + w * (if flags &&& flag ≠ 0 then 1 else 0) ∧
      ∀ a ∈ tr', a ∈ tr ∨ (a = (mad_bit_position ptr, w) ∧ flags &&& flag ≠ 0)) := by
  unfold xing_skip
  by_cases hf : flags &&& flag ≠ 0
  · by_cases hb : bl < w
    · left
      simp [hf, hb]
    · right
      refine ⟨mad_bit_skip ptr w, bl - w, tr ++ [(mad_bit_position ptr, w)], ?_, ?_, ?_, ?_⟩
      · rw [if_pos hf, if_neg hb]
      · rw [if_pos hf]; omega
      · rw [if_pos hf, mad_bit_position_skip]; omega
      · intro a ha
        rcases List.mem_append.mp ha with h | h
        · exact Or.inl h
        · exact Or.inr ⟨List.mem_singleton.mp h, hf⟩
  · right
    refine ⟨ptr, bl, tr, ?_, ?_, ?_, ?_⟩
    · rw [if_neg hf]
    · rw [if_neg hf]; omega
    · rw [if_neg hf]; omega
    · intro a ha; exact Or.inl ha

/-- The optional-field block keeps the cursor inside the region: the cursor
position plus the remaining bit count is constant, and every range touched
ends at or before the cursor. -/
theorem xing_skip_inv (flags flag w : Nat) (ptr : mad_bitptr) (bl : Nat)
    (tr : List (Nat × Nat)) (p e : Nat) (ptr' : mad_bitptr) (bl' : Nat)
    (tr' : List (Nat × Nat))
    (h : xing_skip flags flag w ptr bl tr = some (ptr', bl', tr'))
    (hend : mad_bit_position ptr + bl = e)
    (htr : ∀ a ∈ tr, p ≤ a.1 ∧ a.1 + a.2 ≤ mad_bit_position ptr) (hp : p ≤ mad_bit_position ptr) :
    mad_bit_position ptr' + bl' = e ∧
      (∀ a ∈ tr', p ≤ a.1 ∧ a.1 + a.2 ≤ mad_bit_position ptr') ∧
      p ≤ mad_bit_position ptr' ∧
      bl = bl' + w * (if flags &&& flag ≠ 0 then 1 else 0) := by
  rcases xing_skip_spec flags flag w ptr bl tr with ⟨h0, _, _⟩ | ⟨q, b, t, h1, hb, hq, ht⟩
  · rw [h0] at h; cases h
  · rw [h1] at h
    cases h
    refine ⟨by omega, ?_, by omega, hb⟩
    intro a ha
    rcases ht a ha with h2 | ⟨h2, h3⟩
    · have := htr a h2
      omega
    · rw [if_pos h3] at hq
      rw [h2]
      show p ≤ mad_bit_position ptr ∧ mad_bit_position ptr + w ≤ mad_bit_position ptr'
      omega

/-- An optional-field block returns early only when the field is announced and
does not fit. -/
theorem xing_skip_none (flags flag w : Nat) (ptr : mad_bitptr) (bl : Nat)
    (tr : List (Nat × Nat)) (h : xing_skip flags flag w ptr bl tr = none) :
    (if flags &&& flag ≠ 0 then 1 else 0) = 1 ∧ bl < w := by
  rcases xing_skip_spec flags flag w ptr bl tr with ⟨_, hf, hb⟩ | ⟨_, _, _, h', _⟩
  · exact ⟨if_pos hf, hb⟩
  · rw [h] at h'; cases h'

set_option maxHeartbeats 1000000 in
/-- The two results of `xing_parse_traced`: the context is updated exactly when
the gapless header is valid, and every bit range touched lies inside the
ancillary region. -/
theorem xing_parse_traced_spec (self : decode_mad) :
    (xing_parse_traced self).1 = (if xing_valid self then xing_updated self else self) ∧
    ∀ a ∈ (xing_parse_traced self).2,
      mad_bit_position self.stream.anc_ptr ≤ a.1 ∧
        a.1 + a.2 ≤ mad_bit_position self.stream.anc_ptr + self.stream.anc_bitlen := by
  unfold xing_parse_traced
  simp only [mad_bit_read, mad_bit_position_skip]
  by_cases hn : self.stream.anc_bitlen < 64
  · have hv : ¬ xing_valid self := by unfold xing_valid; omega
    simp [hn, hv]
  simp only [hn, if_false]
  by_cases hm : bitsValue self.heap (mad_bit_position self.stream.anc_ptr) 32 ≠ XING_MAGIC ∧
      bitsValue self.heap (mad_bit_position self.stream.anc_ptr) 32 ≠ INFO_MAGIC
  · have hv : ¬ xing_valid self := by
      unfold xing_valid anc_bits
      simp only [Nat.add_zero]
      tauto
    rw [if_pos hm, if_neg hv]
    refine ⟨rfl, ?_⟩
    intro a ha
    rw [List.mem_singleton.mp ha]
    exact ⟨le_refl _, by show _ + 32 ≤ _; omega⟩
  rw [if_neg hm]
  have hm' : anc_bits self 0 32 = XING_MAGIC ∨ anc_bits self 0 32 = INFO_MAGIC := by
    unfold anc_bits
    simp only [Nat.add_zero]
    tauto
  have hflags : bitsValue self.heap (mad_bit_position self.stream.anc_ptr + 32) 32
      = anc_bits self 32 32 := rfl
  rw [hflags]
  generalize hp : mad_bit_position self.stream.anc_ptr = p at *
  generalize hnn : self.stream.anc_bitlen = n at *
  generalize hfl : anc_bits self 32 32 = flags at *
  have hvalid : xing_valid self ↔ (n ≥ 256 + xing_opt flags ∧
      anc_bits self (64 + xing_opt flags) 32 = LAME_MAGIC) := by
    unfold xing_valid
    rw [hnn, hfl]
    tauto
  -- the state before the optional fields
  have i0 : mad_bit_position (mad_bit_skip (mad_bit_skip self.stream.anc_ptr 32) 32)
      + (n - 64) = p + n := by
    rw [mad_bit_position_skip, mad_bit_position_skip, hp]; omega
  have t0 : ∀ a ∈ [(p, 32)] ++ [(p + 32, 32)], p ≤ a.1 ∧ a.1 + a.2 ≤
      mad_bit_position (mad_bit_skip (mad_bit_skip self.stream.anc_ptr 32) 32) := by
    rw [mad_bit_position_skip, mad_bit_position_skip, hp]
    intro a ha
    simp only [List.mem_append, List.mem_singleton] at ha
    rcases ha with rfl | rfl <;> simp
  have p0 : p ≤ mad_bit_position (mad_bit_skip (mad_bit_skip self.stream.anc_ptr 32) 32) := by
    rw [mad_bit_position_skip, mad_bit_position_skip, hp]; omega
  have q0 : mad_bit_position (mad_bit_skip (mad_bit_skip self.stream.anc_ptr 32) 32) = p + 64 := by
    rw [mad_bit_position_skip, mad_bit_position_skip, hp]
  generalize mad_bit_skip (mad_bit_skip self.stream.anc_ptr 32) 32 = ptr0 at *
  generalize [(p, 32)] ++ [(p + 32, 32)] = tr0 at *
  have hfin : ∀ (tr : List (Nat × Nat)) (ptr : mad_bitptr),
      (∀ a ∈ tr, p ≤ a.1 ∧ a.1 + a.2 ≤ mad_bit_position ptr) →
      mad_bit_position ptr ≤ p + n → ∀ a ∈ tr, p ≤ a.1 ∧ a.1 + a.2 ≤ p + n := by
    intro tr ptr h1 h2 a ha
    have := h1 a ha
    omega
  simp only [XING_FRAMES, XING_BYTES, XING_TOC, XING_SCALE]
  have hopt : xing_opt flags =
      32 * (if flags &&& 1 ≠ 0 then 1 else 0) + 32 * (if flags &&& 2 ≠ 0 then 1 else 0) +
      800 * (if flags &&& 4 ≠ 0 then 1 else 0) + 32 * (if flags &&& 8 ≠ 0 then 1 else 0) := rfl
  -- frame count
  rcases h1 : xing_skip flags 1 32 ptr0 (n - 64) tr0 with _ | ⟨ptr1, bl1, tr1⟩
  · obtain ⟨hf, hb⟩ := xing_skip_none _ _ _ _ _ _ h1
    have hv : ¬ xing_valid self := by rw [hvalid]; omega
    rw [if_neg hv]
    exact ⟨rfl, hfin tr0 ptr0 t0 (by omega)⟩
  obtain ⟨i1, t1, p1, b1⟩ :=
    xing_skip_inv flags 1 32 ptr0 (n - 64) tr0 p (p + n) ptr1 bl1 tr1 h1 i0 t0 p0
  simp only []
  -- byte count
  rcases h2 : xing_skip flags 2 32 ptr1 bl1 tr1 with _ | ⟨ptr2, bl2, tr2⟩
  · obtain ⟨hf, hb⟩ := xing_skip_none _ _ _ _ _ _ h2
    have hv : ¬ xing_valid self := by rw [hvalid]; omega
    rw [if_neg hv]
    exact ⟨rfl, hfin tr1 ptr1 t1 (by omega)⟩
  obtain ⟨i2, t2, p2, b2⟩ :=
    xing_skip_inv flags 2 32 ptr1 bl1 tr1 p (p + n) ptr2 bl2 tr2 h2 i1 t1 p1
  simp only []
  -- seek table
  rcases h3 : xing_skip flags 4 800 ptr2 bl2 tr2 with _ | ⟨ptr3, bl3, tr3⟩
  · obtain ⟨hf, hb⟩ := xing_skip_none _ _ _ _ _ _ h3
    have hv : ¬ xing_valid self := by rw [hvalid]; omega
    rw [if_neg hv]
    exact ⟨rfl, hfin tr2 ptr2 t2 (by omega)⟩
  obtain ⟨i3, t3, p3, b3⟩ :=
    xing_skip_inv flags 4 800 ptr2 bl2 tr2 p (p + n) ptr3 bl3 tr3 h3 i2 t2 p2
  simp only []
  -- quality scale
  rcases h4 : xing_skip flags 8 32 ptr3 bl3 tr3 with _ | ⟨ptr4, bl4, tr4⟩
  · obtain ⟨hf, hb⟩ := xing_skip_none _ _ _ _ _ _ h4
    have hv : ¬ xing_valid self := by rw [hvalid]; omega
    rw [if_neg hv]
    exact ⟨rfl, hfin tr3 ptr3 t3 (by omega)⟩
  obtain ⟨i4, t4, p4, b4⟩ :=
    xing_skip_inv flags 8 32 ptr3 bl3 tr3 p (p + n) ptr4 bl4 tr4 h4 i3 t3 p3
  simp only []
  have q4 : mad_bit_position ptr4 = p + (64 + xing_opt flags) := by omega
  have e4 : n = 64 + xing_opt flags + bl4 := by omega
  rw [q4]
  rw [q4] at t4
  -- the LAME tag
  by_cases hb : bl4 < 72
  · have hv : ¬ xing_valid self := by rw [hvalid]; omega
    rw [if_pos hb, if_neg hv]
    exact ⟨rfl, fun a ha => by have := t4 a ha; omega⟩
  rw [if_neg hb]
  by_cases hl : bitsValue self.heap (p + (64 + xing_opt flags)) 32 ≠ LAME_MAGIC
  · have hv : ¬ xing_valid self := by
      rw [hvalid]; unfold anc_bits; rw [hp]; tauto
    rw [if_pos hl, if_neg hv]
    refine ⟨rfl, fun a ha => ?_⟩
    simp only [List.mem_append, List.mem_singleton] at ha
    rcases ha with (ha | rfl) | rfl
    · have := t4 a ha; omega
    · simp only; omega
    · simp only; omega
  rw [if_neg hl]
  by_cases hb2 : bl4 - 72 < 120
  · have hv : ¬ xing_valid self := by rw [hvalid]; omega
    rw [if_pos hb2, if_neg hv]
    refine ⟨rfl, fun a ha => ?_⟩
    simp only [List.mem_append, List.mem_singleton] at ha
    rcases ha with (ha | rfl) | rfl
    · have := t4 a ha; omega
    · simp only; omega
    · simp only; omega
  rw [if_neg hb2]
  have hv : xing_valid self := by
    rw [hvalid]; unfold anc_bits; rw [hp]
    exact ⟨by omega, not_not.mp hl⟩
  rw [if_pos hv]
  have e1 : p + (64 + xing_opt flags) + 32 + 40 + 96 = p + (232 + xing_opt flags) := by omega
  have e2 : p + (64 + xing_opt flags) + 32 + 40 + 96 + 12 = p + (244 + xing_opt flags) := by
    omega
  constructor
  · unfold xing_updated MAD_DECODER_DELAY
    rw [hfl]
    unfold anc_bits
    rw [hp, e2, e1]
    split <;> rfl
  · intro a ha
    have hmem : a ∈ tr4 ++ [(p + (64 + xing_opt flags), 32)] ++
        [(p + (64 + xing_opt flags) + 32, 40)] ++
        [(p + (64 + xing_opt flags) + 32 + 40, 96)] ++
        [(p + (64 + xing_opt flags) + 32 + 40 + 96, 12)] ++
        [(p + (64 + xing_opt flags) + 32 + 40 + 96 + 12, 12)] := by
      split at ha <;> exact ha
    simp only [List.mem_append, List.mem_singleton] at hmem
    rcases hmem with ((((ha | rfl) | rfl) | rfl) | rfl) | rfl
    · have := t4 a ha; omega
    all_goals (simp only; omega)

/-- The context that `xing_parse` leaves: updated when the gapless header is
valid, untouched otherwise. -/
theorem xing_parse_eq (self : decode_mad) :
    xing_parse self = if xing_valid self then xing_updated self else self :=
  (xing_parse_traced_spec self).1

/-- Validity of the gapless header depends only on the stream and the heap,
which `xing_parse` does not change. -/
theorem xing_valid_xing_parse (self : decode_mad) :
    xing_valid (xing_parse self) ↔ xing_valid self := by
  rw [xing_parse_eq]
  split <;> exact Iff.rfl

/-! ## Sample conversion (C3) -/

/-- C3: with `MAD_F_FRACBITS = 28`, for every 32-bit sample `x` for which
`x + 16` does not overflow, `mad_fixed_to_32bit x` is 256 times the value of
`(x + 16) / 32` (integer division rounding down) clamped to
`[-2^23, 2^23 - 1]`; the result is a multiple of 256 in
`[-2^31, 2^31 - 256]`. -/
theorem mad_fixed_to_32bit_spec (x : Int) (hlo : -2 ^ 31 ≤ x) (hhi : x + 16 ≤ 2 ^ 31 - 1) :
    mad_fixed_to_32bit x = 256 * max (-2 ^ 23) (min ((x + 16) / 32) (2 ^ 23 - 1)) ∧
      mad_fixed_to_32bit x % 256 = 0 ∧
      -2 ^ 31 ≤ mad_fixed_to_32bit x ∧ mad_fixed_to_32bit x ≤ 2 ^ 31 - 256 := by
  unfold mad_fixed_to_32bit wrap32 MAD_F_ONE MAD_F_FRACBITS
  simp only [Int.shiftRight_eq_div_pow]
  norm_num
  split_ifs <;> omega

/-- Witness of C3 at the negative sample `-17`, where rounding down matters:
`(-17 + 16) / 32` is `-1`, so the result is `-256`. -/
theorem mad_fixed_to_32bit_spec_witness :
    mad_fixed_to_32bit (-17) = 256 * max (-2 ^ 23) (min ((-17 + 16) / 32) (2 ^ 23 - 1)) ∧
      mad_fixed_to_32bit (-17) % 256 = 0 ∧
      -2 ^ 31 ≤ mad_fixed_to_32bit (-17) ∧ mad_fixed_to_32bit (-17) ≤ 2 ^ 31 - 256 :=
  mad_fixed_to_32bit_spec (-17) (by decide) (by decide)

/-! ## Gapless metadata (C4, C5, C6) -/

/-- C4: for every ancillary bit region of length `n`, with `opt` the width of
the optional fields announced by the flags word (bits 32..63), `xing_parse`
updates the context if and only if `n ≥ 256 + opt`, bits 0..31 are `Xing` or
`Info` and bits `64 + opt .. 95 + opt` are `LAME`; the update adds the 12-bit
field at offset `232 + opt` to `encoder_delay` and sets `encoder_padding` to
`p - 529` if the 12-bit field `p` at offset `244 + opt` exceeds 529, and to 0
otherwise. -/
theorem xing_parse_spec (self : decode_mad) :
    xing_parse self =
      if self.stream.anc_bitlen ≥ 256 + xing_opt (anc_bits self 32 32) ∧
          (anc_bits self 0 32 = XING_MAGIC ∨ anc_bits self 0 32 = INFO_MAGIC) ∧
          anc_bits self (64 + xing_opt (anc_bits self 32 32)) 32 = LAME_MAGIC then
        { self with
          encoder_delay :=
            self.encoder_delay + anc_bits self (232 + xing_opt (anc_bits self 32 32)) 12
          encoder_padding :=
            if anc_bits self (244 + xing_opt (anc_bits self 32 32)) 12 > 529 then
              anc_bits self (244 + xing_opt (anc_bits self 32 32)) 12 - 529
            else 0 }
      else self :=
  xing_parse_eq self

/-- C5: `xing_parse` hands to `mad_bit_read` and `mad_bit_skip` only bit ranges
that lie inside the ancillary region; it applies both updates or neither, and
neither when the header is not valid (too short for a field it needs, or a
magic that does not match). In particular `Xing` or `Info` followed by a zero
flags word and fewer than 72 remaining bits leaves `encoder_delay` at 529 and
`encoder_padding` at 0 in a fresh context. -/
theorem xing_parse_safe (self : decode_mad) :
    (∀ a ∈ (xing_parse_traced self).2,
      mad_bit_position self.stream.anc_ptr ≤ a.1 ∧
        a.1 + a.2 ≤ mad_bit_position self.stream.anc_ptr + self.stream.anc_bitlen) ∧
    (xing_parse self = self ∨ xing_parse self = xing_updated self) ∧
    (¬ xing_valid self → xing_parse self = self) ∧
    ((anc_bits self 0 32 = XING_MAGIC ∨ anc_bits self 0 32 = INFO_MAGIC) →
      anc_bits self 32 32 = 0 → self.stream.anc_bitlen - 64 < 72 →
      self.encoder_delay = MAD_DECODER_DELAY → self.encoder_padding = 0 →
      (xing_parse self).encoder_delay = 529 ∧ (xing_parse self).encoder_padding = 0) := by
  refine ⟨(xing_parse_traced_spec self).2, ?_, ?_, ?_⟩
  · rw [xing_parse_eq]
    split
    · exact Or.inr rfl
    · exact Or.inl rfl
  · intro hv
    rw [xing_parse_eq, if_neg hv]
  · intro _ _ hlen hd hp
    have hv : ¬ xing_valid self := by
      unfold xing_valid
      omega
    rw [xing_parse_eq, if_neg hv]
    exact ⟨hd, hp⟩

/-- Witness of C5: a fresh context whose ancillary region holds `Xing`, a zero
flags word and 36 more bits keeps the delay 529 and the padding 0. -/
theorem xing_parse_safe_witness :
    (xing_parse truncated_xing).encoder_delay = 529 ∧
      (xing_parse truncated_xing).encoder_padding = 0 :=
  (xing_parse_safe truncated_xing).2.2.2 (Or.inl (by decide)) (by decide) (by decide) rfl rfl

/-- Counterexample to C6 as stated: on a complete tag with delay field 576 the
first run leaves `encoder_delay = 529 + 576` and the second run adds 576
again. -/
theorem xing_parse_not_idempotent :
    (xing_parse lame_tag).encoder_delay = 1105 ∧
      (xing_parse (xing_parse lame_tag)).encoder_delay = 1681 ∧
      (xing_parse (xing_parse lame_tag)).encoder_delay ≠ (xing_parse lame_tag).encoder_delay := by
  decide

/-- C6, amended: a second run of `xing_parse` on the same ancillary bits,
started from the context the first run produced, yields the same
`encoder_padding` as the first run, and an `encoder_delay` that is the first
run's value plus, when the header is valid, the 12-bit delay field once
more. -/
theorem xing_parse_twice (self : decode_mad) :
    (xing_parse (xing_parse self)).encoder_padding = (xing_parse self).encoder_padding ∧
      (xing_parse (xing_parse self)).encoder_delay =
        (xing_parse self).encoder_delay +
          (if xing_valid self then
            anc_bits self (232 + xing_opt (anc_bits self 32 32)) 12 else 0) := by
  by_cases hv : xing_valid self
  · have hv' : xing_valid (xing_parse self) := (xing_valid_xing_parse self).mpr hv
    rw [xing_parse_eq (xing_parse self), if_pos hv', if_pos hv]
    rw [xing_parse_eq self, if_pos hv]
    exact ⟨rfl, rfl⟩
  · have hv' : ¬ xing_valid (xing_parse self) := fun h => hv ((xing_valid_xing_parse self).mp h)
    rw [xing_parse_eq (xing_parse self), if_neg hv', if_neg hv]
    exact ⟨rfl, rfl⟩

/-! ## Tag skipping (C7) -/

/-- The padding loop of `tagtype`, given at least `length - size` iterations,
stops at the least position from `size` on that is outside the window or holds
a nonzero byte. -/
theorem tagtype_padding_spec (data : Nat → Nat) (length : Nat) :
    ∀ (fuel size : Nat), length - size ≤ fuel →
      IsLeast {r | size ≤ r ∧ (length ≤ r ∨ data r ≠ 0)}
        (tagtype_padding data length fuel size) := by
  intro fuel
  induction fuel with
  | zero =>
    intro size hf
    refine ⟨⟨le_refl _, Or.inl (by show length ≤ size; omega)⟩, ?_⟩
    intro r hr
    exact hr.1
  | succ fuel ih =>
    intro size hf
    unfold tagtype_padding
    by_cases hc : size < length ∧ data size = 0
    · rw [if_pos hc]
      obtain ⟨⟨h1, h2⟩, h3⟩ := ih (size + 1) (by omega)
      refine ⟨⟨by omega, h2⟩, ?_⟩
      intro r hr
      obtain ⟨hr1, hr2⟩ := hr
      have hne : r ≠ size := by
        rintro rfl
        rcases hr2 with h | h
        · omega
        · exact h hc.2
      exact h3 ⟨by omega, hr2⟩
    · rw [if_neg hc]
      refine ⟨⟨le_refl _, ?_⟩, fun r hr => hr.1⟩
      by_cases hl : size < length
      · exact Or.inr (fun h => hc ⟨hl, h⟩)
      · exact Or.inl (by omega)

/-- The value of `tagtype` by cases on the two signatures. -/
theorem tagtype_eq (data : Nat → Nat) (n : Nat) :
    if id3v1_signature data n then tagtype data n = 128
    else if id3v2_signature data n then
      IsLeast {r | id3v2_base data ≤ r ∧ (n ≤ r ∨ data r ≠ 0)} (tagtype data n)
    else tagtype data n = 0 := by
  by_cases h1 : id3v1_signature data n
  · rw [if_pos h1]
    unfold tagtype
    unfold id3v1_signature at h1
    rw [if_pos h1]
  · rw [if_neg h1]
    by_cases h2 : id3v2_signature data n
    · rw [if_pos h2]
      unfold tagtype
      unfold id3v1_signature at h1
      unfold id3v2_signature at h2
      rw [if_neg h1, if_pos h2]
      have hb : (if data 5 &&& ID3_TAG_FLAG_FOOTERPRESENT ≠ 0 then
          10 + (data 6 <<< 21) + (data 7 <<< 14) + (data 8 <<< 7) + data 9 + 10
          else 10 + (data 6 <<< 21) + (data 7 <<< 14) + (data 8 <<< 7) + data 9) =
          id3v2_base data := by
        unfold id3v2_base ID3_TAG_FLAG_FOOTERPRESENT
        by_cases h : data 5 &&& 0x10 ≠ 0
        · rw [if_pos h, if_pos h]
        · rw [if_neg h, if_neg h, Nat.add_zero]
      simp only [hb]
      exact tagtype_padding_spec data n _ _ (le_refl _)
    · rw [if_neg h2]
      unfold tagtype
      unfold id3v1_signature at h1
      unfold id3v2_signature at h2
      rw [if_neg h1, if_neg h2]

/-- The value of `tagtype` is nonzero exactly when one of the two signatures
is present. -/
theorem tagtype_ne_zero_iff (data : Nat → Nat) (n : Nat) :
    tagtype data n ≠ 0 ↔ (id3v1_signature data n ∨ id3v2_signature data n) := by
  have key := tagtype_eq data n
  by_cases h1 : id3v1_signature data n
  · rw [if_pos h1] at key
    rw [key]
    exact ⟨fun _ => Or.inl h1, fun _ => by decide⟩
  · rw [if_neg h1] at key
    by_cases h2 : id3v2_signature data n
    · rw [if_pos h2] at key
      have hge := key.1.1
      have hbase : 10 ≤ id3v2_base data := by
        unfold id3v2_base
        omega
      exact ⟨fun _ => Or.inr h2, fun _ => by omega⟩
    · rw [if_neg h2] at key
      rw [key]
      exact ⟨fun h => absurd rfl h, fun h => by tauto⟩

/-- C7: `tagtype data n` is 128 when the window starts with `TAG`; otherwise,
when it starts with a well-formed ID3v2 header, it is the least `r ≥ base`
with `r ≥ n` or `data[r] ≠ 0`, where `base` is the tag length computed from
the header; otherwise it is 0. Hence `consume_id3_tags`, which scans the bytes
from `this_frame` with `n = bufend - next_frame`, returns true exactly when
one of the two signatures is present, and asks the engine to skip exactly
`tagtype` bytes. -/
theorem tagtype_spec (data : Nat → Nat) (n : Nat)
    (resync : (Nat → Nat) → mad_stream → mad_bitptr) (self : decode_mad) :
    (if id3v1_signature data n then tagtype data n = 128
      else if id3v2_signature data n then
        IsLeast {r | id3v2_base data ≤ r ∧ (n ≤ r ∨ data r ≠ 0)} (tagtype data n)
      else tagtype data n = 0) ∧
    ((consume_id3_tags resync self).2 = true ↔
      (id3v1_signature (fun i => self.heap (self.stream.this_frame + i))
          (self.stream.bufend - self.stream.next_frame) ∨
        id3v2_signature (fun i => self.heap (self.stream.this_frame + i))
          (self.stream.bufend - self.stream.next_frame))) ∧
    (consume_id3_tags resync self).1.stream.skiplen =
      self.stream.skiplen +
        tagtype (fun i => self.heap (self.stream.this_frame + i))
          (self.stream.bufend - self.stream.next_frame) := by
  refine ⟨tagtype_eq data n, ?_⟩
  have hnz := tagtype_ne_zero_iff (fun i => self.heap (self.stream.this_frame + i))
    (self.stream.bufend - self.stream.next_frame)
  unfold consume_id3_tags
  by_cases ht : tagtype (fun i => self.heap (self.stream.this_frame + i))
      (self.stream.bufend - self.stream.next_frame) ≠ 0
  · dsimp only
    rw [if_pos ht]
    exact ⟨⟨fun _ => hnz.mp ht, fun _ => rfl⟩, rfl⟩
  · have h0 := not_not.mp ht
    dsimp only
    rw [if_neg ht, h0]
    exact ⟨⟨fun h => Bool.noConfusion h, fun h => absurd (hnz.mpr h) ht⟩, rfl⟩

/-- An evaluation of C7: on an ID3v2 tag of base length 22 followed by two zero
bytes inside a window of 30 bytes, `tagtype` returns 24, the least position
from 22 on that holds a nonzero byte. -/
theorem tagtype_spec_witness :
    IsLeast {r | id3v2_base id3v2_sample ≤ r ∧ (30 ≤ r ∨ id3v2_sample r ≠ 0)}
        (tagtype id3v2_sample 30) ∧
      tagtype id3v2_sample 30 = 24 ∧ id3v2_base id3v2_sample = 22 := by
  have h := (tagtype_spec id3v2_sample 30 (fun _ s => s.ptr) (anc_context [] 0)).1
  rw [if_neg (by decide), if_pos (by decide)] at h
  exact ⟨h, by decide, by decide⟩


/-! ## Lemmas on the output converter -/

/-- The frames written by two lists of sink calls in sequence. -/
theorem sinkFrames_append (l1 l2 : List SinkCall) :
    sinkFrames (l1 ++ l2) = sinkFrames l1 ++ sinkFrames l2 := by
  induction l1 with
  | nil => rfl
  | cons c rest ih =>
    cases c with
    | samples b n r f =>
      show (toFrames b).take n ++ sinkFrames (rest ++ l2) = _
      rw [ih]
      show _ = (toFrames b).take n ++ sinkFrames rest ++ sinkFrames l2
      rw [List.append_assoc]
    | remove_padding n r => exact ih

/-- The frame count of two lists of sink calls in sequence. -/
theorem sinkCount_append (l1 l2 : List SinkCall) :
    sinkCount (l1 ++ l2) = sinkCount l1 + sinkCount l2 := by
  induction l1 with
  | nil => simp [sinkCount]
  | cons c rest ih =>
    cases c with
    | samples b n r f =>
      show n + sinkCount (rest ++ l2) = n + sinkCount rest + sinkCount l2
      rw [ih, Nat.add_assoc]
    | remove_padding n r => exact ih

/-- Appending one stereo frame to a buffer of whole frames appends it to the
frames of the buffer. -/
theorem toFrames_append_pair :
    ∀ (n : Nat) (buf : List Int) (a b : Int), buf.length = 2 * n →
      toFrames (buf ++ [a] ++ [b]) = toFrames buf ++ [(a, b)]
  | 0, buf, a, b, h => by
    have : buf = [] := List.length_eq_zero.mp (by omega)
    subst this
    rfl
  | n + 1, buf, a, b, h => by
    match buf, h with
    | x :: y :: rest, h =>
      have hr : rest.length = 2 * n := by
        simp only [List.length_cons] at h
        omega
      have ih := toFrames_append_pair n rest a b hr
      show (x, y) :: toFrames (rest ++ [a] ++ [b]) = (x, y) :: (toFrames rest ++ [(a, b)])
      rw [ih]

/-- A buffer of `2 * n` samples holds `n` stereo frames. -/
theorem toFrames_length :
    ∀ (n : Nat) (buf : List Int), buf.length = 2 * n → (toFrames buf).length = n
  | 0, buf, h => by
    have : buf = [] := List.length_eq_zero.mp (by omega)
    subst this
    rfl
  | n + 1, buf, h => by
    match buf, h with
    | x :: y :: rest, h =>
      have hr : rest.length = 2 * n := by
        simp only [List.length_cons] at h
        omega
      simp only [toFrames, List.length_cons, toFrames_length n rest hr]

/-- Invariant of the sample loop: started on a buffer of `m` whole frames,
below the flush threshold, with exactly the missing iterations as fuel, it
leaves a buffer of whole frames below the threshold, and the frames flushed
plus the frames left in the buffer are the old ones followed by the frames at
pointer positions `p, p + 1, ...`, one for each iteration. -/
theorem output_loop_spec (pcm : mad_pcm) (right rate : Nat) :
    ∀ (fuel i p m : Nat) (buf : List Int) (log : List SinkCall),
      i + fuel = pcm.length → buf.length = 2 * m → buf.length < OUTPUT_BUFFER_FRAMES →
      ∃ m', (output_loop pcm right rate fuel i p buf log).1.length = 2 * m' ∧
        (output_loop pcm right rate fuel i p buf log).1.length < OUTPUT_BUFFER_FRAMES ∧
        sinkFrames (output_loop pcm right rate fuel i p buf log).2 ++
            toFrames (output_loop pcm right rate fuel i p buf log).1 =
          sinkFrames log ++ toFrames buf ++
            (List.range fuel).map (fun t => frame_at pcm right (p + t)) ∧
        sinkCount (output_loop pcm right rate fuel i p buf log).2 + m' =
          sinkCount log + m + fuel := by
  intro fuel
  induction fuel with
  | zero =>
    intro i p m buf log _ hm hlt
    exact ⟨m, hm, hlt, by simp [output_loop], by simp [output_loop]⟩
  | succ fuel ih =>
    intro i p m buf log hi hm hlt
    have hil : i < pcm.length := by omega
    unfold output_loop
    rw [if_pos hil]
    dsimp only
    have hlen : (buf ++ [mad_fixed_to_32bit (pcm.samples 0 p)] ++
        [mad_fixed_to_32bit (pcm.samples right p)]).length = 2 * (m + 1) := by
      simp only [List.length_append, List.length_singleton]
      omega
    have hfr := toFrames_append_pair m buf (mad_fixed_to_32bit (pcm.samples 0 p))
      (mad_fixed_to_32bit (pcm.samples right p)) hm
    have hrange : (List.range (fuel + 1)).map (fun t => frame_at pcm right (p + t)) =
        frame_at pcm right p ::
          (List.range fuel).map (fun t => frame_at pcm right (p + 1 + t)) := by
      rw [List.range_succ_eq_map, List.map_cons, List.map_map]
      simp only [Nat.add_zero]
      congr 1
      apply List.map_congr_left
      intro t _
      show frame_at pcm right (p + (t + 1)) = frame_at pcm right (p + 1 + t)
      rw [Nat.add_comm t 1, Nat.add_assoc]
    by_cases hfull : (buf ++ [mad_fixed_to_32bit (pcm.samples 0 p)] ++
        [mad_fixed_to_32bit (pcm.samples right p)]).length = OUTPUT_BUFFER_FRAMES
    · rw [if_pos hfull]
      obtain ⟨m', h1, h2, h3, h4⟩ := ih (i + 1) (p + 1) 0 []
        (log ++ [SinkCall.samples (buf ++ [mad_fixed_to_32bit (pcm.samples 0 p)] ++
          [mad_fixed_to_32bit (pcm.samples right p)])
          ((buf ++ [mad_fixed_to_32bit (pcm.samples 0 p)] ++
          [mad_fixed_to_32bit (pcm.samples right p)]).length / 2) rate false])
        (by omega) rfl (by decide)
      refine ⟨m', h1, h2, ?_, ?_⟩
      · rw [h3, hrange, sinkFrames_append]
        have htake : (toFrames (buf ++ [mad_fixed_to_32bit (pcm.samples 0 p)] ++
            [mad_fixed_to_32bit (pcm.samples right p)])).take
            ((buf ++ [mad_fixed_to_32bit (pcm.samples 0 p)] ++
            [mad_fixed_to_32bit (pcm.samples right p)]).length / 2) =
            toFrames buf ++ [frame_at pcm right p] := by
          unfold frame_at
          rw [← hfr]
          apply List.take_of_length_le
          rw [toFrames_length (m + 1) _ hlen, hlen]
          omega
        have hs : ∀ (b : List Int) (n : Nat),
            sinkFrames [SinkCall.samples b n rate false] = (toFrames b).take n := by
          intro b n
          show (toFrames b).take n ++ [] = _
          rw [List.append_nil]
        rw [hs, htake]
        simp only [toFrames, List.append_nil, List.append_assoc, List.singleton_append]
      · rw [h4, sinkCount_append]
        simp only [sinkCount, hlen]
        omega
    · rw [if_neg hfull]
      have hlt' : (buf ++ [mad_fixed_to_32bit (pcm.samples 0 p)] ++
          [mad_fixed_to_32bit (pcm.samples right p)]).length < OUTPUT_BUFFER_FRAMES := by
        rw [hlen] at hfull ⊢
        unfold OUTPUT_BUFFER_FRAMES at hfull hlt ⊢
        omega
      obtain ⟨m', h1, h2, h3, h4⟩ := ih (i + 1) (p + 1) (m + 1) _ log (by omega) hlen hlt'
      refine ⟨m', h1, h2, ?_, by omega⟩
      rw [h3, hrange, hfr]
      simp only [frame_at, List.append_assoc, List.singleton_append]



/-- The closing part of the converter changes only the state, and adds no
`decode_output_samples` call. -/
theorem decode_mad_output_end_spec (self : decode_mad) (log : List SinkCall) :
    (decode_mad_output_end self log).1 =
        { self with state :=
            if self.stream.this_frame = self.guard_pointer then
              mad_state.MAD_STATE_END_OF_FILE else mad_state.MAD_STATE_OK } ∧
      sinkFrames (decode_mad_output_end self log).2 = sinkFrames log ∧
      sinkCount (decode_mad_output_end self log).2 = sinkCount log ∧
      (decode_mad_output_end self log).2 =
        log ++ (if self.stream.this_frame = self.guard_pointer ∧ self.encoder_padding ≠ 0 then
          [SinkCall.remove_padding self.encoder_padding self.sample_rate] else []) := by
  unfold decode_mad_output_end
  by_cases hg : self.stream.this_frame = self.guard_pointer
  · by_cases hp : self.encoder_padding ≠ 0
    · simp only [hg, hp, if_true, and_self, not_false_eq_true, ne_eq, sinkFrames_append,
        sinkCount_append, sinkFrames, sinkCount, List.append_nil, Nat.add_zero, and_true]
    · simp only [hg, hp, if_true, if_false, and_false, List.append_nil, and_self]
  · simp only [hg, if_false, false_and, List.append_nil, and_self]

/-- The fields that `xing_parse` leaves alone. -/
theorem xing_parse_frame (self : decode_mad) :
    (xing_parse self).frames = self.frames ∧ (xing_parse self).sample_rate = self.sample_rate ∧
      (xing_parse self).stream = self.stream ∧
      (xing_parse self).guard_pointer = self.guard_pointer ∧
      (xing_parse self).state = self.state := by
  rw [xing_parse_eq]
  split
  · exact ⟨rfl, rfl, rfl, rfl, rfl⟩
  · exact ⟨rfl, rfl, rfl, rfl, rfl⟩

/-- The fields that the cursor compensation leaves alone. -/
theorem decode_mad_output_crc_frame (self : decode_mad) :
    (decode_mad_output_crc self).frames = self.frames ∧
      (decode_mad_output_crc self).sample_rate = self.sample_rate ∧
      (decode_mad_output_crc self).stream.this_frame = self.stream.this_frame ∧
      (decode_mad_output_crc self).guard_pointer = self.guard_pointer := by
  unfold decode_mad_output_crc
  split
  · split
    · exact ⟨rfl, rfl, rfl, rfl⟩
    · exact ⟨rfl, rfl, rfl, rfl⟩
  · exact ⟨rfl, rfl, rfl, rfl⟩

/-- The converter on the first frame, when the sink has room. -/
theorem decode_mad_output_first_eq (can_write : Nat → Nat → Bool) (self : decode_mad)
    (h0 : self.frames = 0)
    (hroom : can_write (SAMPLES_TO_BYTES self.synth.pcm.length) self.sample_rate = true) :
    decode_mad_output can_write self =
      decode_mad_output_end
        (xing_parse (decode_mad_output_crc { self with frames := self.frames + 1 })) [] := by
  unfold decode_mad_output
  simp only [hroom, h0, if_true, Bool.true_eq_false, if_false]

/-- The converter on a block that it discards for a rate mismatch. -/
theorem decode_mad_output_discard_eq (can_write : Nat → Nat → Bool) (self : decode_mad)
    (h0 : self.frames ≠ 0)
    (hroom : can_write (SAMPLES_TO_BYTES self.synth.pcm.length) self.sample_rate = true)
    (hd : self.frames + 1 > 2 ∧ self.sample_rate ≠ self.frame.header.samplerate) :
    decode_mad_output can_write self = ({ self with frames := self.frames + 1 }, []) := by
  unfold decode_mad_output
  simp only [hroom, h0, hd, if_true, Bool.true_eq_false, if_false, and_self, ne_eq,
    not_false_eq_true]

/-- The sample loop started at loop counter `k ≤ length` on an empty buffer,
followed by the final flush: the sink receives the frames at pointer positions
`0 .. length - k - 1`. -/
theorem output_flush_spec (pcm : mad_pcm) (right rate k : Nat) (hk : k ≤ pcm.length) :
    sinkFrames ((output_loop pcm right rate (pcm.length - k) k 0 [] []).2 ++
        [SinkCall.samples (output_loop pcm right rate (pcm.length - k) k 0 [] []).1
          ((output_loop pcm right rate (pcm.length - k) k 0 [] []).1.length / 2) rate false]) =
        (List.range (pcm.length - k)).map (frame_at pcm right) ∧
      sinkCount ((output_loop pcm right rate (pcm.length - k) k 0 [] []).2 ++
        [SinkCall.samples (output_loop pcm right rate (pcm.length - k) k 0 [] []).1
          ((output_loop pcm right rate (pcm.length - k) k 0 [] []).1.length / 2) rate false]) =
        pcm.length - k := by
  obtain ⟨m', h1, _, h3, h4⟩ :=
    output_loop_spec pcm right rate (pcm.length - k) k 0 0 [] [] (by omega) rfl (by decide)
  generalize output_loop pcm right rate (pcm.length - k) k 0 [] [] = r at h1 h3 h4 ⊢
  have htake : (toFrames r.1).take (r.1.length / 2) = toFrames r.1 := by
    apply List.take_of_length_le
    rw [toFrames_length m' _ h1, h1]
    omega
  constructor
  · rw [sinkFrames_append]
    show sinkFrames r.2 ++ ((toFrames r.1).take (r.1.length / 2) ++ []) = _
    rw [List.append_nil, htake, h3]
    simp only [sinkFrames, toFrames, List.nil_append, Nat.zero_add]
  · rw [sinkCount_append]
    show sinkCount r.2 + (r.1.length / 2 + 0) = _
    have : sinkCount ([] : List SinkCall) = 0 := rfl
    rw [h1]
    omega

/-- The converter on a block after the first frame that it does not discard,
as one equation. -/
theorem decode_mad_output_later_eq (can_write : Nat → Nat → Bool) (self : decode_mad)
    (h0 : self.frames ≠ 0)
    (hroom : can_write (SAMPLES_TO_BYTES self.synth.pcm.length) self.sample_rate = true)
    (hd : ¬ (self.frames + 1 > 2 ∧ self.sample_rate ≠ self.frame.header.samplerate)) :
    decode_mad_output can_write self =
      decode_mad_output_end
        { self with
          frames := self.frames + 1
          sample_rate := self.frame.header.samplerate
          encoder_delay :=
            self.encoder_delay - min self.encoder_delay self.synth.pcm.length }
        (output_calls self.synth.pcm (if self.synth.pcm.channels = 2 then 1 else 0)
          self.frame.header.samplerate (min self.encoder_delay self.synth.pcm.length)) := by
  unfold decode_mad_output output_calls
  simp only [hroom, h0, hd, if_true, Bool.true_eq_false, if_false]
  by_cases hz : self.encoder_delay ≠ 0
  · by_cases hgt : self.encoder_delay > self.synth.pcm.length
    · have hmin : min self.encoder_delay self.synth.pcm.length = self.synth.pcm.length := by
        omega
      simp only [if_pos hz, if_pos hgt, hmin]
    · have hmin : min self.encoder_delay self.synth.pcm.length = self.encoder_delay := by
        omega
      simp only [if_pos hz, if_neg hgt, hmin]
  · have hz' : self.encoder_delay = 0 := not_not.mp hz
    have hmin : min self.encoder_delay self.synth.pcm.length = 0 := by omega
    simp only [if_neg hz, hmin]
    simp only [hz', Nat.sub_zero]

/-- The converter on a block after the first frame that it does not discard:
it writes the frames at pointer positions `0 .. length - k - 1`, where
`k = min encoder_delay length`, and reduces `encoder_delay` by `k`. -/
theorem decode_mad_output_later (can_write : Nat → Nat → Bool) (self : decode_mad)
    (h0 : self.frames ≠ 0)
    (hroom : can_write (SAMPLES_TO_BYTES self.synth.pcm.length) self.sample_rate = true)
    (hd : ¬ (self.frames + 1 > 2 ∧ self.sample_rate ≠ self.frame.header.samplerate)) :
    sinkFrames (decode_mad_output can_write self).2 =
        (List.range (self.synth.pcm.length - min self.encoder_delay self.synth.pcm.length)).map
          (frame_at self.synth.pcm (if self.synth.pcm.channels = 2 then 1 else 0)) ∧
      sinkCount (decode_mad_output can_write self).2 =
        self.synth.pcm.length - min self.encoder_delay self.synth.pcm.length ∧
      (decode_mad_output can_write self).1.encoder_delay =
        self.encoder_delay - min self.encoder_delay self.synth.pcm.length ∧
      (decode_mad_output can_write self).1.frames = self.frames + 1 ∧
      (decode_mad_output can_write self).1.sample_rate = self.frame.header.samplerate ∧
      (decode_mad_output can_write self).1.state =
        (if self.stream.this_frame = self.guard_pointer then
          mad_state.MAD_STATE_END_OF_FILE else mad_state.MAD_STATE_OK) := by
  rw [decode_mad_output_later_eq can_write self h0 hroom hd]
  obtain ⟨e1, e2, e3, _⟩ := decode_mad_output_end_spec
    { self with
      frames := self.frames + 1
      sample_rate := self.frame.header.samplerate
      encoder_delay := self.encoder_delay - min self.encoder_delay self.synth.pcm.length }
    (output_calls self.synth.pcm (if self.synth.pcm.channels = 2 then 1 else 0)
      self.frame.header.samplerate (min self.encoder_delay self.synth.pcm.length))
  obtain ⟨f1, f2⟩ := output_flush_spec self.synth.pcm
    (if self.synth.pcm.channels = 2 then 1 else 0) self.frame.header.samplerate
    (min self.encoder_delay self.synth.pcm.length) (Nat.min_le_right _ _)
  rw [e1, e2, e3]
  exact ⟨f1, f2, rfl, rfl, rfl, rfl⟩



/-! ## Output converter (C1, C2, C8, C9, C10) -/

/-- C1, evaluated at the failing input: a stereo block of two sample frames
`(32, 96), (64, 128)` converted with one sample frame of encoder delay left.
The claim expects the frame at position 1, `(conv 64, conv 128)`; the
converter writes the frame at position 0, `(conv 32, conv 96)`, because the
pointers `left` and `right` are not advanced by the skipped count. -/
theorem decode_mad_output_delay_defect :
    delayed_block.frames = 1 ∧ delayed_block.encoder_delay = 1 ∧
      delayed_block.synth.pcm.length = 2 ∧
      sinkFrames (decode_mad_output (fun _ _ => true) delayed_block).2 =
        [(mad_fixed_to_32bit 32, mad_fixed_to_32bit 96)] ∧
      claimed_frames delayed_block = [(mad_fixed_to_32bit 64, mad_fixed_to_32bit 128)] ∧
      sinkFrames (decode_mad_output (fun _ _ => true) delayed_block).2 ≠
        claimed_frames delayed_block := by
  decide

/-- C2: for every sequence of blocks handed to the converter after the first
frame, with the sink always having room and no block discarded for a rate
mismatch, the total number of stereo frames written is `max 0 (S - D)` and
`encoder_delay` afterwards is `max 0 (D - S)`, where `S` is the sum of the
block lengths and `D` the `encoder_delay` on arrival of the first block. The
sequence does not take the 32-bit counter `frames` to its wrap
(`frames + length of the sequence < 2 ^ 32`), `D` fits the `int offset`
(`D < 2 ^ 31`) and every block length is an `unsigned short`. -/
theorem convert_blocks_count (can_write : Nat → Nat → Bool)
    (hroom : ∀ n r, can_write n r = true) (blocks : List Block) :
    ∀ (self : decode_mad), self.frames ≠ 0 → self.frames + blocks.length < 2 ^ 32 →
      self.encoder_delay < 2 ^ 31 → (∀ b ∈ blocks, b.pcm.length < 2 ^ 16) →
      no_discard can_write self blocks = true →
      (sinkCount (convert_blocks can_write self blocks).2 : Int) =
          max 0 ((total_length blocks : Int) - self.encoder_delay) ∧
        ((convert_blocks can_write self blocks).1.encoder_delay : Int) =
          max 0 ((self.encoder_delay : Int) - total_length blocks) := by
  induction blocks with
  | nil =>
    intro self _ _ _ _ _
    simp [convert_blocks, sinkCount, total_length]
  | cons b bs ih =>
    intro self h0 hfr hdl hlen16 hnd
    have hnd' : rate_discard (hand_block self b) = false ∧
        no_discard can_write (decode_mad_output can_write (hand_block self b)).1 bs = true := by
      simpa [no_discard] using hnd
    have hd : ¬ ((hand_block self b).frames + 1 > 2 ∧
        (hand_block self b).sample_rate ≠ (hand_block self b).frame.header.samplerate) := by
      have := hnd'.1
      unfold rate_discard at this
      exact of_decide_eq_false this
    obtain ⟨_, c2, c3, c4, _, _⟩ :=
      decode_mad_output_later can_write (hand_block self b) h0 (hroom _ _) hd
    have hf : (decode_mad_output can_write (hand_block self b)).1.frames ≠ 0 := by
      rw [c4]
      omega
    have hlen : (hand_block self b).synth.pcm.length = b.pcm.length := rfl
    have hdel : (hand_block self b).encoder_delay = self.encoder_delay := rfl
    have hfr' : (decode_mad_output can_write (hand_block self b)).1.frames + bs.length <
        2 ^ 32 := by
      rw [c4]
      have hl : (b :: bs).length = bs.length + 1 := rfl
      have hs : (hand_block self b).frames = self.frames := rfl
      rw [hl] at hfr
      rw [hs]
      omega
    have hdl' : (decode_mad_output can_write (hand_block self b)).1.encoder_delay <
        2 ^ 31 := by
      rw [c3, hdel]
      omega
    obtain ⟨i1, i2⟩ := ih _ hf hfr' hdl'
      (fun b' hb' => hlen16 b' (List.mem_cons_of_mem _ hb')) hnd'.2
    rw [hlen, hdel] at c2 c3
    simp only [convert_blocks, sinkCount_append, total_length]
    rw [c3] at i1 i2
    rw [c2]
    generalize total_length bs = S at i1 i2 ⊢
    generalize sinkCount (convert_blocks can_write
      (decode_mad_output can_write (hand_block self b)).1 bs).2 = n at i1 ⊢
    generalize (convert_blocks can_write
      (decode_mad_output can_write (hand_block self b)).1 bs).1.encoder_delay = d at i2 ⊢
    omega

/-- Witness of C2: two blocks of two sample frames each, handed over with three
sample frames of delay left, write one stereo frame and use the delay up. -/
theorem convert_blocks_count_witness :
    (sinkCount (convert_blocks (fun _ _ => true)
        (block_context 1 3 44100 0 [] []) two_blocks).2 : Int) =
        max 0 ((total_length two_blocks : Int) -
          (block_context 1 3 44100 0 [] []).encoder_delay) ∧
      ((convert_blocks (fun _ _ => true)
        (block_context 1 3 44100 0 [] []) two_blocks).1.encoder_delay : Int) =
        max 0 (((block_context 1 3 44100 0 [] []).encoder_delay : Int) -
          total_length two_blocks) :=
  convert_blocks_count (fun _ _ => true) (fun _ _ => rfl) two_blocks
    (block_context 1 3 44100 0 [] []) (by decide) (by decide) (by decide) (by decide)
    (by decide)



/-- Counterexample to C8 as stated: a first frame whose source position is the
guard marker leaves the state EndOfStream, not Ready, although the sink has
room. -/
theorem decode_mad_output_first_at_guard :
    first_frame_at_guard.frames = 0 ∧
      first_frame_at_guard.stream.this_frame = first_frame_at_guard.guard_pointer ∧
      (decode_mad_output (fun _ _ => true) first_frame_at_guard).1.state =
        mad_state.MAD_STATE_END_OF_FILE ∧
      (decode_mad_output (fun _ _ => true) first_frame_at_guard).1.state ≠
        mad_state.MAD_STATE_OK := by
  decide

/-- The converter on the first frame, when the sink has room: the context it
leaves and the calls it makes. -/
theorem decode_mad_output_first_ctx (can_write : Nat → Nat → Bool) (self : decode_mad)
    (h0 : self.frames = 0)
    (hroom : can_write (SAMPLES_TO_BYTES self.synth.pcm.length) self.sample_rate = true) :
    (decode_mad_output can_write self).1 =
        { xing_parse (decode_mad_output_crc { self with frames := 1 }) with
          state :=
            if self.stream.this_frame = self.guard_pointer then
              mad_state.MAD_STATE_END_OF_FILE else mad_state.MAD_STATE_OK } ∧
      (decode_mad_output can_write self).1.frames = 1 ∧
      (self.stream.this_frame ≠ self.guard_pointer →
        (decode_mad_output can_write self).1.state = mad_state.MAD_STATE_OK ∧
          (decode_mad_output can_write self).2 = []) ∧
      sinkFrames (decode_mad_output can_write self).2 = [] ∧
      sinkCount (decode_mad_output can_write self).2 = 0 ∧
      (decode_mad_output can_write self).2 =
        (if self.stream.this_frame = self.guard_pointer ∧
            (decode_mad_output can_write self).1.encoder_padding ≠ 0 then
          [SinkCall.remove_padding (decode_mad_output can_write self).1.encoder_padding
            self.sample_rate]
        else []) := by
  rw [decode_mad_output_first_eq can_write self h0 hroom]
  have h1 : self.frames + 1 = 1 := by omega
  rw [h1]
  obtain ⟨e1, e2, e3, e4⟩ := decode_mad_output_end_spec
    (xing_parse (decode_mad_output_crc { self with frames := 1 })) []
  obtain ⟨x1, x2, x3, x4, _⟩ := xing_parse_frame (decode_mad_output_crc { self with frames := 1 })
  obtain ⟨c1, c2, c3, c4⟩ := decode_mad_output_crc_frame { self with frames := 1 }
  have hc : ((xing_parse (decode_mad_output_crc { self with frames := 1 })).stream.this_frame =
      (xing_parse (decode_mad_output_crc { self with frames := 1 })).guard_pointer) =
      (self.stream.this_frame = self.guard_pointer) := by
    rw [x3, c3, x4, c4]
  have hr : (xing_parse (decode_mad_output_crc { self with frames := 1 })).sample_rate =
      self.sample_rate := by
    rw [x2, c2]
  have hfr : (xing_parse (decode_mad_output_crc { self with frames := 1 })).frames = 1 := by
    rw [x1, c1]
  simp only [hc] at e1 e4
  rw [hr] at e4
  rw [e1, e2, e3, e4]
  refine ⟨rfl, hfr, ?_, rfl, rfl, rfl⟩
  intro hne
  exact ⟨if_neg hne, by rw [if_neg (fun h => hne h.1)]; rfl⟩

/-- C8, amended: for every context with `frames = 0` and a sink that has room
for the block, the converter writes no samples to the sink, runs `xing_parse`
once (on the context with the compensated cursor), leaves `frames = 1`, and
returns with state Ready when the block's source position differs from the
guard marker; when it equals the guard marker the state is EndOfStream and the
only sink call is the removal of a nonzero encoder padding. -/
theorem decode_mad_output_first (can_write : Nat → Nat → Bool) (self : decode_mad)
    (h0 : self.frames = 0)
    (hroom : can_write (SAMPLES_TO_BYTES self.synth.pcm.length) self.sample_rate = true) :
    (decode_mad_output can_write self).1 =
        { xing_parse (decode_mad_output_crc { self with frames := 1 }) with
          state :=
            if self.stream.this_frame = self.guard_pointer then
              mad_state.MAD_STATE_END_OF_FILE else mad_state.MAD_STATE_OK } ∧
      (decode_mad_output can_write self).1.frames = 1 ∧
      (self.stream.this_frame ≠ self.guard_pointer →
        (decode_mad_output can_write self).1.state = mad_state.MAD_STATE_OK ∧
          (decode_mad_output can_write self).2 = []) ∧
      sinkFrames (decode_mad_output can_write self).2 = [] ∧
      sinkCount (decode_mad_output can_write self).2 = 0 ∧
      (decode_mad_output can_write self).2 =
        (if self.stream.this_frame = self.guard_pointer ∧
            (decode_mad_output can_write self).1.encoder_padding ≠ 0 then
          [SinkCall.remove_padding (decode_mad_output can_write self).1.encoder_padding
            self.sample_rate]
        else []) :=
  decode_mad_output_first_ctx can_write self h0 hroom

/-- Witness of C8 as amended: a first frame away from the guard marker leaves
the state Ready, the frame count 1 and the sink untouched. -/
theorem decode_mad_output_first_witness :
    (decode_mad_output (fun _ _ => true)
        (block_context 0 529 44100 2 [32, 64] [96, 128])).1.state = mad_state.MAD_STATE_OK ∧
      (decode_mad_output (fun _ _ => true)
        (block_context 0 529 44100 2 [32, 64] [96, 128])).2 = [] ∧
      (decode_mad_output (fun _ _ => true)
        (block_context 0 529 44100 2 [32, 64] [96, 128])).1.frames = 1 :=
  ⟨((decode_mad_output_first (fun _ _ => true)
      (block_context 0 529 44100 2 [32, 64] [96, 128]) rfl rfl).2.2.1 (by decide)).1,
   ((decode_mad_output_first (fun _ _ => true)
      (block_context 0 529 44100 2 [32, 64] [96, 128]) rfl rfl).2.2.1 (by decide)).2,
   (decode_mad_output_first (fun _ _ => true)
      (block_context 0 529 44100 2 [32, 64] [96, 128]) rfl rfl).2.1⟩

/-- The state that the converter leaves when the sink has room: unchanged when
the block is discarded for a rate mismatch, and otherwise EndOfStream or Ready
according to the guard marker. -/
theorem decode_mad_output_state (can_write : Nat → Nat → Bool) (self : decode_mad)
    (hroom : can_write (SAMPLES_TO_BYTES self.synth.pcm.length) self.sample_rate = true) :
    (decode_mad_output can_write self).1.state =
      if self.frames ≠ 0 ∧ self.frames + 1 > 2 ∧
          self.sample_rate ≠ self.frame.header.samplerate then self.state
      else if self.stream.this_frame = self.guard_pointer then
        mad_state.MAD_STATE_END_OF_FILE
      else mad_state.MAD_STATE_OK := by
  by_cases h0 : self.frames = 0
  · rw [if_neg (fun h => h.1 h0), (decode_mad_output_first_ctx can_write self h0 hroom).1]
  · by_cases hd : self.frames + 1 > 2 ∧ self.sample_rate ≠ self.frame.header.samplerate
    · rw [if_pos ⟨h0, hd⟩, decode_mad_output_discard_eq can_write self h0 hroom hd]
    · rw [if_neg (fun h => hd h.2)]
      exact (decode_mad_output_later can_write self h0 hroom hd).2.2.2.2.2

/-- C9, evaluated at the failing input: a third frame at 48000 Hz in a context
frozen at 44100 Hz, with room in the sink and away from the guard marker. The
claim requires the state Ready on return; the converter returns from the
rate-mismatch test without setting the state, which stays PcmReady, and a
second invocation on the same block does the same. -/
theorem decode_mad_output_discard_keeps_state :
    rate_change.frames = 2 ∧ rate_change.state = mad_state.MAD_STATE_PCM_READY ∧
      rate_change.stream.this_frame ≠ rate_change.guard_pointer ∧
      (decode_mad_output (fun _ _ => true) rate_change).1.state =
        mad_state.MAD_STATE_PCM_READY ∧
      (decode_mad_output (fun _ _ => true) rate_change).1.state ≠ mad_state.MAD_STATE_OK ∧
      (decode_mad_output (fun _ _ => true) rate_change).1.state ≠
        mad_state.MAD_STATE_END_OF_FILE ∧
      (decode_mad_output (fun _ _ => true)
        (decode_mad_output (fun _ _ => true) rate_change).1).1.state =
        mad_state.MAD_STATE_PCM_READY := by
  decide

/-- C10: for every invocation of the converter with `frames ≥ 2` on entry,
below the wrap of the 32-bit counter (`frames + 1 < 2 ^ 32`), `sample_rate` is
the same on return as on entry; and if the block's rate differs from
`sample_rate`, no call is made to the sink and `encoder_delay` is unchanged. So
for rates 44100, 44100, 48000 on frames 1, 2, 3 (with room in the sink), block
3 is discarded and `sample_rate` stays 44100. -/
theorem decode_mad_output_rate_frozen (can_write : Nat → Nat → Bool) (self : decode_mad)
    (h2 : 2 ≤ self.frames) (_hwrap : self.frames + 1 < 2 ^ 32) :
    (decode_mad_output can_write self).1.sample_rate = self.sample_rate ∧
      (self.frame.header.samplerate ≠ self.sample_rate →
        (decode_mad_output can_write self).2 = [] ∧
          (decode_mad_output can_write self).1.encoder_delay = self.encoder_delay) ∧
      ∀ (s0 : decode_mad) (b1 b2 b3 : Block), s0.frames = 0 →
        b1.header.samplerate = 44100 → b2.header.samplerate = 44100 →
        b3.header.samplerate = 48000 →
        (decode_mad_output (fun _ _ => true) (hand_block
          (decode_mad_output (fun _ _ => true) (hand_block
            (decode_mad_output (fun _ _ => true) (hand_block s0 b1)).1 b2)).1 b3)).2 = [] ∧
        (decode_mad_output (fun _ _ => true) (hand_block
          (decode_mad_output (fun _ _ => true) (hand_block
            (decode_mad_output (fun _ _ => true) (hand_block s0 b1)).1 b2)).1 b3)).1.sample_rate
          = 44100 := by
  have h0 : self.frames ≠ 0 := by omega
  refine ⟨?_, ?_, ?_⟩
  · by_cases hroom : can_write (SAMPLES_TO_BYTES self.synth.pcm.length) self.sample_rate = true
    · by_cases hd : self.frames + 1 > 2 ∧ self.sample_rate ≠ self.frame.header.samplerate
      · rw [decode_mad_output_discard_eq can_write self h0 hroom hd]
      · rw [(decode_mad_output_later can_write self h0 hroom hd).2.2.2.2.1]
        by_contra hne
        exact hd ⟨by omega, fun h => hne h.symm⟩
    · unfold decode_mad_output
      rw [if_pos (by simpa using hroom)]
  · intro hne
    by_cases hroom : can_write (SAMPLES_TO_BYTES self.synth.pcm.length) self.sample_rate = true
    · rw [decode_mad_output_discard_eq can_write self h0 hroom
        ⟨by omega, fun h => hne h.symm⟩]
      exact ⟨rfl, rfl⟩
    · unfold decode_mad_output
      rw [if_pos (by simpa using hroom)]
      exact ⟨rfl, rfl⟩
  · intro s0 b1 b2 b3 hf r1 r2 r3
    have hf1 : (decode_mad_output (fun _ _ => true) (hand_block s0 b1)).1.frames = 1 :=
      (decode_mad_output_first_ctx (fun _ _ => true) (hand_block s0 b1) hf rfl).2.1
    generalize (decode_mad_output (fun _ _ => true) (hand_block s0 b1)).1 = s1 at hf1 ⊢
    have hd2 : ¬ ((hand_block s1 b2).frames + 1 > 2 ∧
        (hand_block s1 b2).sample_rate ≠ (hand_block s1 b2).frame.header.samplerate) := by
      intro h
      have : (hand_block s1 b2).frames = 1 := hf1
      omega
    obtain ⟨_, _, _, f2, q2, _⟩ := decode_mad_output_later (fun _ _ => true)
      (hand_block s1 b2) (by show s1.frames ≠ 0; omega) rfl hd2
    have f2' : (decode_mad_output (fun _ _ => true) (hand_block s1 b2)).1.frames = 2 := by
      rw [f2]
      show s1.frames + 1 = 2
      omega
    have q2' : (decode_mad_output (fun _ _ => true) (hand_block s1 b2)).1.sample_rate
        = 44100 := by
      rw [q2]
      exact r2
    generalize (decode_mad_output (fun _ _ => true) (hand_block s1 b2)).1 = s2 at f2' q2' ⊢
    have hd3 : (hand_block s2 b3).frames + 1 > 2 ∧
        (hand_block s2 b3).sample_rate ≠ (hand_block s2 b3).frame.header.samplerate := by
      refine ⟨by show s2.frames + 1 > 2; omega, ?_⟩
      show s2.sample_rate ≠ b3.header.samplerate
      rw [q2', r3]
      decide
    rw [decode_mad_output_discard_eq (fun _ _ => true) (hand_block s2 b3)
      (by show s2.frames ≠ 0; omega) rfl hd3]
    exact ⟨rfl, q2'⟩

/-- Witness of C10: a fourth frame at 48000 Hz in a context at 44100 Hz with 17
sample frames of delay left is discarded, the rate and the delay stay; and of
three blocks at 44100, 44100 and 48000 Hz handed to a fresh context the third
is discarded. -/
theorem decode_mad_output_rate_frozen_witness :
    (decode_mad_output (fun _ _ => true) rate_change_delayed).1.sample_rate = 44100 ∧
      (decode_mad_output (fun _ _ => true) rate_change_delayed).2 = [] ∧
      (decode_mad_output (fun _ _ => true) rate_change_delayed).1.encoder_delay = 17 ∧
      (decode_mad_output (fun _ _ => true) (hand_block
        (decode_mad_output (fun _ _ => true) (hand_block
          (decode_mad_output (fun _ _ => true)
            (hand_block (decode_mad_start 1000 5000 44100) block_44100)).1
          block_44100)).1 block_48000)).2 = [] ∧
      (decode_mad_output (fun _ _ => true) (hand_block
        (decode_mad_output (fun _ _ => true) (hand_block
          (decode_mad_output (fun _ _ => true)
            (hand_block (decode_mad_start 1000 5000 44100) block_44100)).1
          block_44100)).1 block_48000)).1.sample_rate = 44100 :=
  ⟨(decode_mad_output_rate_frozen (fun _ _ => true) rate_change_delayed (by decide) (by decide)).1,
   ((decode_mad_output_rate_frozen (fun _ _ => true) rate_change_delayed (by decide) (by decide)).2.1
      (by decide)).1,
   ((decode_mad_output_rate_frozen (fun _ _ => true) rate_change_delayed (by decide) (by decide)).2.1
      (by decide)).2,
   (decode_mad_output_rate_frozen (fun _ _ => true) rate_change_delayed (by decide) (by decide)).2.2
      (decode_mad_start 1000 5000 44100) block_44100 block_44100 block_48000 rfl rfl rfl rfl⟩

/-! ## End of stream and padding removal (C11) -/

/-- The padding removals of two lists of sink calls in sequence. -/
theorem paddingCalls_append (l1 l2 : List SinkCall) :
    paddingCalls (l1 ++ l2) = paddingCalls l1 ++ paddingCalls l2 := by
  induction l1 with
  | nil => rfl
  | cons c rest ih =>
    cases c with
    | samples b n r f => exact ih
    | remove_padding n r =>
      show (n, r) :: paddingCalls (rest ++ l2) = (n, r) :: paddingCalls rest ++ paddingCalls l2
      rw [ih]
      rfl

/-- The sample loop never asks the sink to remove padding. -/
theorem output_loop_padding (pcm : mad_pcm) (right rate : Nat) :
    ∀ (fuel i p : Nat) (buf : List Int) (log : List SinkCall),
      paddingCalls (output_loop pcm right rate fuel i p buf log).2 = paddingCalls log := by
  intro fuel
  induction fuel with
  | zero => intro i p buf log; rfl
  | succ fuel ih =>
    intro i p buf log
    unfold output_loop
    by_cases hil : i < pcm.length
    · rw [if_pos hil]
      dsimp only
      split
      · rw [ih, paddingCalls_append]
        show paddingCalls log ++ [] = _
        rw [List.append_nil]
      · rw [ih]
    · rw [if_neg hil]

/-- The sample loop and the final flush never ask the sink to remove
padding. -/
theorem output_calls_padding (pcm : mad_pcm) (right rate k : Nat) :
    paddingCalls (output_calls pcm right rate k) = [] := by
  unfold output_calls
  rw [paddingCalls_append, output_loop_padding]
  rfl

/-- The sink calls of the converter when the sink lacks room. -/
theorem decode_mad_output_full_eq (can_write : Nat → Nat → Bool) (self : decode_mad)
    (hroom : can_write (SAMPLES_TO_BYTES self.synth.pcm.length) self.sample_rate = false) :
    decode_mad_output can_write self =
      ({ self with state := mad_state.MAD_STATE_PCM_READY }, []) := by
  unfold decode_mad_output
  rw [if_pos hroom]

/-- The padding removals of one invocation of the converter: one, with the
encoder padding and the sample rate of the context on return, when the block is
processed, its source position is the guard marker and the padding is nonzero;
none otherwise. -/
theorem decode_mad_output_padding_calls (can_write : Nat → Nat → Bool) (self : decode_mad) :
    paddingCalls (decode_mad_output can_write self).2 =
      if can_write (SAMPLES_TO_BYTES self.synth.pcm.length) self.sample_rate = true ∧
          (self.frames = 0 ∨
            ¬ (self.frames + 1 > 2 ∧ self.sample_rate ≠ self.frame.header.samplerate)) ∧
          self.stream.this_frame = self.guard_pointer ∧
          (decode_mad_output can_write self).1.encoder_padding ≠ 0 then
        [((decode_mad_output can_write self).1.encoder_padding,
          (decode_mad_output can_write self).1.sample_rate)]
      else [] := by
  by_cases hroom : can_write (SAMPLES_TO_BYTES self.synth.pcm.length) self.sample_rate = true
  · by_cases h0 : self.frames = 0
    · obtain ⟨e1, _, _, _, _, e6⟩ := decode_mad_output_first_ctx can_write self h0 hroom
      have hr : (decode_mad_output can_write self).1.sample_rate = self.sample_rate := by
        rw [e1]
        show (xing_parse (decode_mad_output_crc { self with frames := 1 })).sample_rate = _
        rw [(xing_parse_frame _).2.1, (decode_mad_output_crc_frame _).2.1]
      rw [hr]
      by_cases hg : self.stream.this_frame = self.guard_pointer ∧
          (decode_mad_output can_write self).1.encoder_padding ≠ 0
      · rw [if_pos ⟨hroom, Or.inl h0, hg⟩]
        rw [if_pos hg] at e6
        rw [e6]
        rfl
      · rw [if_neg (fun h => hg h.2.2)]
        rw [if_neg hg] at e6
        rw [e6]
        rfl
    · by_cases hd : self.frames + 1 > 2 ∧ self.sample_rate ≠ self.frame.header.samplerate
      · rw [decode_mad_output_discard_eq can_write self h0 hroom hd]
        rw [if_neg (fun h => h.2.1.elim h0 (fun h' => h' hd))]
        rfl
      · rw [decode_mad_output_later_eq can_write self h0 hroom hd]
        obtain ⟨e1, _, _, e4⟩ := decode_mad_output_end_spec
          { self with
            frames := self.frames + 1
            sample_rate := self.frame.header.samplerate
            encoder_delay := self.encoder_delay - min self.encoder_delay self.synth.pcm.length }
          (output_calls self.synth.pcm (if self.synth.pcm.channels = 2 then 1 else 0)
            self.frame.header.samplerate (min self.encoder_delay self.synth.pcm.length))
        rw [e4, e1, paddingCalls_append, output_calls_padding, List.nil_append]
        by_cases hg : self.stream.this_frame = self.guard_pointer ∧ self.encoder_padding ≠ 0
        · rw [if_pos hg, if_pos ⟨hroom, Or.inr hd, hg⟩]
          rfl
        · rw [if_neg hg, if_neg (fun h => hg h.2.2)]
          rfl
  · have hfull : can_write (SAMPLES_TO_BYTES self.synth.pcm.length) self.sample_rate = false := by
      simpa using hroom
    rw [decode_mad_output_full_eq can_write self hfull, if_neg (fun h => hroom h.1)]
    rfl

/-- C11: for every block the converter processes (sink has room, block not
discarded for a rate mismatch) whose source position equals the guard marker,
the state becomes EndOfStream and `decode_output_remove_padding` is called
exactly once, with exactly `encoder_padding`, when `encoder_padding > 0`, and
not at all when it is 0; it is never called for a block whose source position
is not the guard marker. After the first frame `encoder_padding` is the value
on entry. -/
theorem decode_mad_output_padding (can_write : Nat → Nat → Bool) (self : decode_mad) :
    (can_write (SAMPLES_TO_BYTES self.synth.pcm.length) self.sample_rate = true →
      (self.frames = 0 ∨
        ¬ (self.frames + 1 > 2 ∧ self.sample_rate ≠ self.frame.header.samplerate)) →
      self.stream.this_frame = self.guard_pointer →
      (decode_mad_output can_write self).1.state = mad_state.MAD_STATE_END_OF_FILE ∧
        paddingCalls (decode_mad_output can_write self).2 =
          (if (decode_mad_output can_write self).1.encoder_padding > 0 then
            [((decode_mad_output can_write self).1.encoder_padding,
              (decode_mad_output can_write self).1.sample_rate)]
          else [])) ∧
    (self.frames ≠ 0 →
      (decode_mad_output can_write self).1.encoder_padding = self.encoder_padding) ∧
    (self.stream.this_frame ≠ self.guard_pointer →
      paddingCalls (decode_mad_output can_write self).2 = []) := by
  refine ⟨?_, ?_, ?_⟩
  · intro hroom hnd hg
    constructor
    · rw [decode_mad_output_state can_write self hroom]
      rw [if_neg (fun h => hnd.elim h.1 (fun h' => h' h.2)), if_pos hg]
    · rw [decode_mad_output_padding_calls]
      by_cases hp : (decode_mad_output can_write self).1.encoder_padding ≠ 0
      · rw [if_pos ⟨hroom, hnd, hg, hp⟩, if_pos (Nat.pos_of_ne_zero hp)]
      · rw [if_neg (fun h => hp h.2.2.2), if_neg (fun h => hp (Nat.pos_iff_ne_zero.mp h))]
  · intro h0
    by_cases hroom : can_write (SAMPLES_TO_BYTES self.synth.pcm.length) self.sample_rate = true
    · by_cases hd : self.frames + 1 > 2 ∧ self.sample_rate ≠ self.frame.header.samplerate
      · rw [decode_mad_output_discard_eq can_write self h0 hroom hd]
      · rw [decode_mad_output_later_eq can_write self h0 hroom hd]
        rw [(decode_mad_output_end_spec _ _).1]
    · rw [decode_mad_output_full_eq can_write self (by simpa using hroom)]
  · intro hg
    rw [decode_mad_output_padding_calls, if_neg (fun h => hg h.2.2.1)]

/-- Witness of C11: a last block in a context with `encoder_padding = 200`
ends the stream and calls the padding removal once, with 200. -/
theorem decode_mad_output_padding_witness :
    (decode_mad_output (fun _ _ => true) last_block).1.state =
        mad_state.MAD_STATE_END_OF_FILE ∧
      paddingCalls (decode_mad_output (fun _ _ => true) last_block).2 = [(200, 44100)] ∧
      paddingCalls (decode_mad_output (fun _ _ => true) delayed_block).2 = [] :=
  ⟨((decode_mad_output_padding (fun _ _ => true) last_block).1 rfl
      (Or.inr (by decide)) rfl).1,
   ((decode_mad_output_padding (fun _ _ => true) last_block).1 rfl
      (Or.inr (by decide)) rfl).2,
   (decode_mad_output_padding (fun _ _ => true) delayed_block).2.2 (by decide)⟩

/-! ## The tick (C12, C13, C14) -/

/-- A refill that reads no byte from a source that is still streaming returns
at once: only the heap (the tail moved to the start of the input buffer) and
the underrun flag change. -/
theorem decode_mad_frame_refill_starved (ext : externals) (self : decode_mad)
    (flags : decoder_flags)
    (hsrc : ext.streambuf_read (refill_read_max self) = ([], true)) :
    decode_mad_frame_refill ext self flags =
      (⟨{ self with
            heap := store_bytes (refill_heap self) (self.input_buffer + refill_remaining self) [] },
          { flags with underrun := true },
          [Event.read (refill_read_max self) 0 true]⟩, true) := by
  have hb : refill_bytes ext self = [] := by
    unfold refill_bytes
    rw [hsrc]
    exact List.take_nil
  unfold decode_mad_frame_refill
  simp only [hb, hsrc, List.length_nil, if_true]

/-- The tick in a terminal state, or with a sink that lacks room for one
output chunk, does nothing and returns false. -/
theorem decode_mad_callback_idle (ext : externals) (self : decode_mad) (flags : decoder_flags)
    (h : (self.state = mad_state.MAD_STATE_END_OF_FILE ∨
        self.state = mad_state.MAD_STATE_ERROR) ∨
        ext.can_write OUTPUT_BUFFER_BYTES self.sample_rate = false) :
    decode_mad_callback ext self flags = (⟨self, flags, []⟩, false) := by
  unfold decode_mad_callback
  rcases h with h | h
  · rw [if_pos h]
  · by_cases ht : self.state = mad_state.MAD_STATE_END_OF_FILE ∨
        self.state = mad_state.MAD_STATE_ERROR
    · rw [if_pos ht]
    · rw [if_neg ht, if_pos h]

/-- The tick in a state that is not terminal, with room in the sink, runs the
frame step in state Ready and the converter in state PcmReady, and returns
true. -/
theorem decode_mad_callback_busy (ext : externals) (self : decode_mad) (flags : decoder_flags)
    (ht : ¬ (self.state = mad_state.MAD_STATE_END_OF_FILE ∨
        self.state = mad_state.MAD_STATE_ERROR))
    (hroom : ext.can_write OUTPUT_BUFFER_BYTES self.sample_rate = true) :
    (decode_mad_callback ext self flags).2 = true ∧
    (self.state = mad_state.MAD_STATE_OK →
      (decode_mad_frame ext self flags).self.state ≠ mad_state.MAD_STATE_PCM_READY →
      (decode_mad_callback ext self flags).1 = decode_mad_frame ext self flags) ∧
    (self.state = mad_state.MAD_STATE_OK →
      (decode_mad_frame ext self flags).self.state = mad_state.MAD_STATE_PCM_READY →
      (decode_mad_callback ext self flags).1 =
        ⟨(decode_mad_output ext.can_write (decode_mad_frame ext self flags).self).1,
          (decode_mad_frame ext self flags).flags,
          (decode_mad_frame ext self flags).events ++
            (decode_mad_output ext.can_write (decode_mad_frame ext self flags).self).2.map
              Event.sink⟩) := by
  have hroom' : ¬ ext.can_write OUTPUT_BUFFER_BYTES self.sample_rate = false := by
    rw [hroom]; decide
  unfold decode_mad_callback
  rw [if_neg ht, if_neg hroom']
  refine ⟨?_, ?_, ?_⟩
  · dsimp only
    by_cases hp : (if self.state = mad_state.MAD_STATE_OK then decode_mad_frame ext self flags
        else ⟨self, flags, []⟩).self.state = mad_state.MAD_STATE_PCM_READY
    · rw [if_pos hp]
    · rw [if_neg hp]
  · intro hs hf
    dsimp only
    rw [if_pos hs, if_neg hf]
  · intro hs hf
    dsimp only
    rw [if_pos hs, if_pos hf]

/-- C12: for every context in state Ready that needs a refill, if the byte
source returns 0 bytes while still streaming, then `decode_mad_frame`, and the
tick `decode_mad_callback`, leave the state, `frames`, `encoder_delay`,
`encoder_padding` and `sample_rate` unchanged and call neither the decode
engine nor the sink; `decode_mad_frame` raises the underrun flag, and so does
every tick that reads the source (a tick reads it when the sink has room for
one output chunk). -/
theorem decode_mad_callback_underrun (ext : externals) (self : decode_mad)
    (flags : decoder_flags) (hs : self.state = mad_state.MAD_STATE_OK)
    (hneed : needs_refill self)
    (hsrc : ext.streambuf_read (refill_read_max self) = ([], true)) :
    ((decode_mad_frame ext self flags).self.state = self.state ∧
      (decode_mad_frame ext self flags).self.frames = self.frames ∧
      (decode_mad_frame ext self flags).self.encoder_delay = self.encoder_delay ∧
      (decode_mad_frame ext self flags).self.encoder_padding = self.encoder_padding ∧
      (decode_mad_frame ext self flags).self.sample_rate = self.sample_rate ∧
      (decode_mad_frame ext self flags).events = [Event.read (refill_read_max self) 0 true] ∧
      (decode_mad_frame ext self flags).flags.underrun = true) ∧
    ((decode_mad_callback ext self flags).1.self.state = self.state ∧
      (decode_mad_callback ext self flags).1.self.frames = self.frames ∧
      (decode_mad_callback ext self flags).1.self.encoder_delay = self.encoder_delay ∧
      (decode_mad_callback ext self flags).1.self.encoder_padding = self.encoder_padding ∧
      (decode_mad_callback ext self flags).1.self.sample_rate = self.sample_rate ∧
      (∀ e ∈ (decode_mad_callback ext self flags).1.events,
        e = Event.read (refill_read_max self) 0 true) ∧
      (Event.read (refill_read_max self) 0 true ∈ (decode_mad_callback ext self flags).1.events →
        (decode_mad_callback ext self flags).1.flags.underrun = true) ∧
      (ext.can_write OUTPUT_BUFFER_BYTES self.sample_rate = true →
        Event.read (refill_read_max self) 0 true ∈
          (decode_mad_callback ext self flags).1.events)) := by
  have hf : decode_mad_frame ext self flags =
      ⟨{ self with
            heap := store_bytes (refill_heap self) (self.input_buffer + refill_remaining self) [] },
          { flags with underrun := true },
          [Event.read (refill_read_max self) 0 true]⟩ := by
    unfold decode_mad_frame
    rw [if_pos hneed]
    dsimp only
    rw [decode_mad_frame_refill_starved ext self flags hsrc]
    rfl
  refine ⟨?_, ?_⟩
  · rw [hf]
    exact ⟨rfl, rfl, rfl, rfl, rfl, rfl, rfl⟩
  · by_cases hroom : ext.can_write OUTPUT_BUFFER_BYTES self.sample_rate = true
    · have ht : ¬ (self.state = mad_state.MAD_STATE_END_OF_FILE ∨
          self.state = mad_state.MAD_STATE_ERROR) := by
        rw [hs]; decide
      have hnp : (decode_mad_frame ext self flags).self.state ≠
          mad_state.MAD_STATE_PCM_READY := by
        rw [hf]
        show self.state ≠ _
        rw [hs]; decide
      rw [(decode_mad_callback_busy ext self flags ht hroom).2.1 hs hnp, hf]
      refine ⟨rfl, rfl, rfl, rfl, rfl, ?_, fun _ => rfl, fun _ => List.mem_singleton.mpr rfl⟩
      intro e he
      exact List.mem_singleton.mp he
    · rw [decode_mad_callback_idle ext self flags (Or.inr (by simpa using hroom))]
      refine ⟨rfl, rfl, rfl, rfl, rfl, ?_, ?_, fun h => absurd h hroom⟩
      · intro e he
        cases he
      · intro he
        cases he

/-- Witness of C12: a fresh context (first execution, state Ready) with a
source that is temporarily empty: the tick reads the source, raises the
underrun flag and leaves the state Ready and the frame count 0. -/
theorem decode_mad_callback_underrun_witness :
    (decode_mad_callback starved_source (decode_mad_start 1000 5000 44100) no_flags).1.self.state
        = mad_state.MAD_STATE_OK ∧
      (decode_mad_callback starved_source (decode_mad_start 1000 5000 44100) no_flags).1.self.frames
        = 0 ∧
      (decode_mad_callback starved_source (decode_mad_start 1000 5000 44100) no_flags).1.events
        = [Event.read INPUT_BUFFER_SIZE 0 true] ∧
      (decode_mad_callback starved_source (decode_mad_start 1000 5000 44100) no_flags).1.flags.underrun
        = true :=
  ⟨(decode_mad_callback_underrun starved_source (decode_mad_start 1000 5000 44100) no_flags
      rfl (Or.inl rfl) rfl).2.1,
   (decode_mad_callback_underrun starved_source (decode_mad_start 1000 5000 44100) no_flags
      rfl (Or.inl rfl) rfl).2.2.1,
   by decide,
   (decode_mad_callback_underrun starved_source (decode_mad_start 1000 5000 44100) no_flags
      rfl (Or.inl rfl) rfl).2.2.2.2.2.2.2.1
      ((decode_mad_callback_underrun starved_source (decode_mad_start 1000 5000 44100) no_flags
        rfl (Or.inl rfl) rfl).2.2.2.2.2.2.2.2 rfl)⟩

/-- Counterexample to C13 as stated: in state Ready with a sink that lacks room
for one output chunk the tick returns false, although the state on entry is
neither EndOfStream nor Error. -/
theorem decode_mad_callback_full_sink :
    (decode_mad_start 1000 5000 44100).state = mad_state.MAD_STATE_OK ∧
      (decode_mad_callback full_sink (decode_mad_start 1000 5000 44100) no_flags).2 = false := by
  decide

/-- C13, amended: the tick returns false if and only if the state on entry is
EndOfStream or Error, or the sink lacks room for one output chunk at the
current sample rate; whenever it returns false it changes nothing in the
context or the flags and calls no collaborator. -/
theorem decode_mad_callback_false_iff (ext : externals) (self : decode_mad)
    (flags : decoder_flags) :
    ((decode_mad_callback ext self flags).2 = false ↔
      (self.state = mad_state.MAD_STATE_END_OF_FILE ∨ self.state = mad_state.MAD_STATE_ERROR ∨
        ext.can_write OUTPUT_BUFFER_BYTES self.sample_rate = false)) ∧
    ((decode_mad_callback ext self flags).2 = false →
      (decode_mad_callback ext self flags).1.self = self ∧
        (decode_mad_callback ext self flags).1.flags = flags ∧
        (decode_mad_callback ext self flags).1.events = []) := by
  by_cases h : (self.state = mad_state.MAD_STATE_END_OF_FILE ∨
      self.state = mad_state.MAD_STATE_ERROR) ∨
      ext.can_write OUTPUT_BUFFER_BYTES self.sample_rate = false
  · rw [decode_mad_callback_idle ext self flags h]
    refine ⟨⟨fun _ => ?_, fun _ => rfl⟩, fun _ => ⟨rfl, rfl, rfl⟩⟩
    rcases h with (h | h) | h
    · exact Or.inl h
    · exact Or.inr (Or.inl h)
    · exact Or.inr (Or.inr h)
  · have ht : ¬ (self.state = mad_state.MAD_STATE_END_OF_FILE ∨
        self.state = mad_state.MAD_STATE_ERROR) := fun h' => h (Or.inl h')
    have hroom : ext.can_write OUTPUT_BUFFER_BYTES self.sample_rate = true := by
      by_contra hc
      exact h (Or.inr (by simpa using hc))
    have htrue := (decode_mad_callback_busy ext self flags ht hroom).1
    rw [htrue]
    refine ⟨⟨fun hc => Bool.noConfusion hc, fun hc => ?_⟩, fun hc => Bool.noConfusion hc⟩
    rcases hc with hc | hc | hc
    · exact absurd (Or.inl hc) ht
    · exact absurd (Or.inr hc) ht
    · rw [hroom] at hc; cases hc

/-- Counterexample to C14 as stated: at 44100 Hz, below the threshold, the
period is 8, which is longer, not shorter, than the period 4 at 96000 Hz. -/
theorem decode_mad_period_longer_below :
    decode_mad_period (decode_mad_start 1000 5000 44100) = 8 ∧
      decode_mad_period (decode_mad_start 1000 5000 96000) = 4 ∧
      ¬ (decode_mad_period (decode_mad_start 1000 5000 44100) <
        decode_mad_period (decode_mad_start 1000 5000 96000)) := by
  decide

/-- C14, amended: the suggested poll period depends only on `sample_rate`, and
for every sample rate at or below 48000 it is 8, strictly longer than the
period 4 of every sample rate above 48000. -/
theorem decode_mad_period_spec (s1 s2 : decode_mad) :
    (s1.sample_rate = s2.sample_rate → decode_mad_period s1 = decode_mad_period s2) ∧
    (s1.sample_rate ≤ 48000 → 48000 < s2.sample_rate →
      decode_mad_period s1 = 8 ∧ decode_mad_period s2 = 4 ∧
        decode_mad_period s2 < decode_mad_period s1) := by
  unfold decode_mad_period
  refine ⟨fun h => by rw [h], fun h1 h2 => ?_⟩
  rw [if_pos h1, if_neg (by omega)]
  exact ⟨rfl, rfl, by decide⟩

/-! ## The refill (C16, C17) -/

/-- A window splits into its first `m` bytes and the rest. -/
theorem window_bytes_append (heap : Nat → Nat) (a m n : Nat) :
    window_bytes heap a (m + n) = window_bytes heap a m ++ window_bytes heap (a + m) n := by
  unfold window_bytes
  rw [List.range_add, List.map_append, List.map_map]
  congr 1
  apply List.map_congr_left
  intro i _
  show heap (a + (m + i)) = heap (a + m + i)
  rw [Nat.add_assoc]

/-- Two heaps that agree on a window have the same bytes there. -/
theorem window_bytes_congr (h1 h2 : Nat → Nat) (a n : Nat)
    (h : ∀ i, i < n → h1 (a + i) = h2 (a + i)) :
    window_bytes h1 a n = window_bytes h2 a n := by
  unfold window_bytes
  apply List.map_congr_left
  intro i hi
  exact h i (List.mem_range.mp hi)

/-- The bytes stored by `streambuf_read` are the bytes of the window it
wrote. -/
theorem window_bytes_store (heap : Nat → Nat) (dst : Nat) (bytes : List Nat) :
    window_bytes (store_bytes heap dst bytes) dst bytes.length = bytes := by
  apply List.ext_getElem
  · simp [window_bytes]
  · intro i h1 h2
    simp only [window_bytes, List.getElem_map, List.getElem_range, store_bytes]
    rw [if_pos ⟨by omega, by omega⟩]
    have : dst + i - dst = i := by omega
    rw [this, List.getD_eq_getElem _ _ h2]

/-- The window that `memset` wrote holds the byte it was given. -/
theorem window_bytes_memset (heap : Nat → Nat) (dst c n : Nat) :
    window_bytes (memset heap dst c n) dst n = List.replicate n c := by
  apply List.ext_getElem
  · simp [window_bytes]
  · intro i h1 h2
    simp only [window_bytes, List.getElem_map, List.getElem_range, memset,
      List.getElem_replicate]
    simp only [window_bytes, List.length_map, List.length_range] at h1
    rw [if_pos ⟨by omega, by omega⟩]

/-- After the copy of a refill the start of the input buffer holds the
unconsumed tail. -/
theorem window_bytes_refill_heap (self : decode_mad) :
    window_bytes (refill_heap self) self.input_buffer (refill_remaining self) =
      window_bytes self.heap self.stream.next_frame (refill_remaining self) := by
  unfold refill_heap
  by_cases hn : self.stream.next_frame ≠ 0
  · rw [if_pos hn]
    unfold window_bytes
    apply List.map_congr_left
    intro i hi
    have hi' := List.mem_range.mp hi
    unfold memcpy
    rw [if_pos ⟨by omega, by omega⟩]
    have : self.input_buffer + i - self.input_buffer = i := by omega
    rw [this]
  · have h0 : refill_remaining self = 0 := by
      unfold refill_remaining
      rw [if_neg hn]
    rw [h0]
    rfl



/-- The bound of the read when the tail fits the input buffer. -/
theorem refill_read_max_eq (self : decode_mad)
    (ht : refill_remaining self ≤ INPUT_BUFFER_SIZE) :
    refill_read_max self = INPUT_BUFFER_SIZE - refill_remaining self := by
  unfold refill_read_max SIZE_MODULUS
  unfold INPUT_BUFFER_SIZE at ht ⊢
  omega

/-- A refill that reads at least one byte: the bytes are stored after the
tail and the window is sent to the engine. -/
theorem decode_mad_frame_refill_filled (ext : externals) (self : decode_mad)
    (flags : decoder_flags) (hn : refill_bytes ext self ≠ []) :
    decode_mad_frame_refill ext self flags =
      (⟨decode_mad_frame_send
          { self with
            heap := store_bytes (refill_heap self) (self.input_buffer + refill_remaining self)
                      (refill_bytes ext self) }
          ((refill_bytes ext self).length + refill_remaining self),
        { flags with underrun := false },
        [Event.read (refill_read_max self) (refill_bytes ext self).length
          (ext.streambuf_read (refill_read_max self)).2]⟩, false) := by
  unfold decode_mad_frame_refill
  have hl : ¬ (refill_bytes ext self).length = 0 := fun h => hn (List.length_eq_zero.mp h)
  dsimp only
  rw [if_neg hl]

/-- A refill that reads no byte from a source that has ended: the guard region
is written after the tail, the guard marker is set to its start and the window
is sent to the engine. -/
theorem decode_mad_frame_refill_guard (ext : externals) (self : decode_mad)
    (flags : decoder_flags) (hn : refill_bytes ext self = [])
    (hs : (ext.streambuf_read (refill_read_max self)).2 = false) :
    decode_mad_frame_refill ext self flags =
      (⟨decode_mad_frame_send
          { self with
            heap := memset (store_bytes (refill_heap self)
                      (self.input_buffer + refill_remaining self) [])
                      (self.input_buffer + refill_remaining self) 0 MAD_BUFFER_GUARD
            guard_pointer := self.input_buffer + refill_remaining self }
          (0 + MAD_BUFFER_GUARD + refill_remaining self),
        { flags with underrun := true },
        [Event.read (refill_read_max self) 0 false]⟩, false) := by
  unfold decode_mad_frame_refill
  dsimp only
  rw [hn, hs]
  simp only [List.length_nil, if_true, Bool.false_eq_true, if_false]

/-- A starved refill leaves the bytes of the unconsumed tail as they were when
the tail does not overlap its destination at the start of the input buffer, or
lies exactly there. -/
theorem decode_mad_frame_refill_starved_tail (ext : externals) (self : decode_mad)
    (flags : decoder_flags)
    (hsrc : ext.streambuf_read (refill_read_max self) = ([], true))
    (hd : self.stream.next_frame = self.input_buffer ∨
      self.input_buffer + refill_remaining self ≤ self.stream.next_frame ∨
      self.stream.next_frame + refill_remaining self ≤ self.input_buffer) :
    window_bytes (decode_mad_frame_refill ext self flags).1.self.heap
        self.stream.next_frame (refill_remaining self) =
      window_bytes self.heap self.stream.next_frame (refill_remaining self) := by
  rw [decode_mad_frame_refill_starved ext self flags hsrc]
  apply window_bytes_congr
  intro i hi
  show store_bytes (refill_heap self) (self.input_buffer + refill_remaining self) []
    (self.stream.next_frame + i) = _
  unfold store_bytes refill_heap
  rw [if_neg (by simp only [List.length_nil]; omega)]
  by_cases hn : self.stream.next_frame ≠ 0
  · rw [if_pos hn]
    unfold memcpy
    rcases hd with hd | hd | hd
    · rw [hd, if_pos ⟨by omega, by omega⟩]
      congr 1
      omega
    · rw [if_neg (by omega)]
    · rw [if_neg (by omega)]
  · rw [if_neg hn]

/-- C16, evaluated at the failing input: a context in state Ready with the
four unconsumed bytes 3, 4, 5, 6 at offset 2 of the input buffer, and a source
that has no byte yet and is still streaming. The refill is starved, and the
engine's next_frame and bufend are as before, but the bytes between them are
now 5, 6, 5, 6: the tail was copied to the start of the buffer, over its own
first half, before the source was read. A later refill that reads the byte 9
hands the engine 5, 6, 5, 6, 9, where without the starved attempt it hands
3, 4, 5, 6, 9. -/
theorem decode_mad_frame_starved_tail_defect :
    overlapping_tail.state = mad_state.MAD_STATE_OK ∧
      decode_mad_frame_starved starved_source overlapping_tail no_flags ∧
      refill_remaining overlapping_tail = 4 ∧
      window_bytes overlapping_tail.heap overlapping_tail.stream.next_frame 4 = [3, 4, 5, 6] ∧
      (decode_mad_frame starved_source overlapping_tail no_flags).self.stream.next_frame =
        overlapping_tail.stream.next_frame ∧
      (decode_mad_frame starved_source overlapping_tail no_flags).self.stream.bufend =
        overlapping_tail.stream.bufend ∧
      window_bytes (decode_mad_frame starved_source overlapping_tail no_flags).self.heap
        overlapping_tail.stream.next_frame 4 = [5, 6, 5, 6] ∧
      window_bytes
        (decode_mad_frame_refill one_byte_source
          (decode_mad_frame starved_source overlapping_tail no_flags).self no_flags).1.self.heap
        overlapping_tail.input_buffer 5 = [5, 6, 5, 6, 9] ∧
      window_bytes
        (decode_mad_frame_refill one_byte_source overlapping_tail no_flags).1.self.heap
        overlapping_tail.input_buffer 5 = [3, 4, 5, 6, 9] := by
  decide

/-! ## The guard region (C18) -/

/-- The fields that `consume_id3_tags` leaves alone: it changes the engine's
skip length and bit cursor only. -/
theorem consume_id3_tags_frame (resync : (Nat → Nat) → mad_stream → mad_bitptr)
    (self : decode_mad) :
    (consume_id3_tags resync self).1.guard_pointer = self.guard_pointer ∧
      (consume_id3_tags resync self).1.heap = self.heap ∧
      (consume_id3_tags resync self).1.input_buffer = self.input_buffer ∧
      (consume_id3_tags resync self).1.state = self.state ∧
      (consume_id3_tags resync self).1.stream.error = self.stream.error ∧
      (consume_id3_tags resync self).1.stream.this_frame = self.stream.this_frame := by
  unfold consume_id3_tags
  dsimp only
  split <;> exact ⟨rfl, rfl, rfl, rfl, rfl, rfl⟩

/-- The part of `decode_mad_frame` after the refill changes neither the guard
marker nor the heap nor the input buffer. -/
theorem decode_mad_frame_decode_guard (ext : externals) (self : decode_mad)
    (flags : decoder_flags) :
    (decode_mad_frame_decode ext self flags).self.guard_pointer = self.guard_pointer ∧
      (decode_mad_frame_decode ext self flags).self.heap = self.heap ∧
      (decode_mad_frame_decode ext self flags).self.input_buffer = self.input_buffer := by
  obtain ⟨c1, c2, c3, -, -, -⟩ :=
    consume_id3_tags_frame ext.resync (decode_mad_frame_engine ext self).2
  unfold decode_mad_frame_decode
  dsimp only
  split
  · split
    · split
      · exact ⟨c1, c2, c3⟩
      · split
        · exact ⟨c1, c2, c3⟩
        · exact ⟨c1, c2, c3⟩
    · split
      · exact ⟨rfl, rfl, rfl⟩
      · exact ⟨rfl, rfl, rfl⟩
  · exact ⟨rfl, rfl, rfl⟩

/-- A refill that stores no byte while the source is still streaming returns
at once: only the heap (the tail moved to the start of the input buffer) and
the underrun flag change. -/
theorem decode_mad_frame_refill_empty (ext : externals) (self : decode_mad)
    (flags : decoder_flags) (hn : refill_bytes ext self = [])
    (hs : (ext.streambuf_read (refill_read_max self)).2 = true) :
    decode_mad_frame_refill ext self flags =
      (⟨{ self with
            heap := store_bytes (refill_heap self) (self.input_buffer + refill_remaining self) [] },
          { flags with underrun := true },
          [Event.read (refill_read_max self) 0 true]⟩, true) := by
  unfold decode_mad_frame_refill
  simp only [hn, hs, List.length_nil, if_true]

/-- The frame step when the refill is starved: it is the refill alone. -/
theorem decode_mad_frame_of_starved (ext : externals) (self : decode_mad)
    (flags : decoder_flags) (h : decode_mad_frame_starved ext self flags) :
    decode_mad_frame ext self flags = (decode_mad_frame_refill ext self flags).1 := by
  unfold decode_mad_frame
  rw [if_pos h.1]
  dsimp only
  rw [if_pos h.2]

/-- The frame step when the refill is not starved: the engine runs on the
window of the refill, or on the window it had when no refill is needed. -/
theorem decode_mad_frame_of_window (ext : externals) (self : decode_mad)
    (flags : decoder_flags) (h : ¬ decode_mad_frame_starved ext self flags) :
    decode_mad_frame ext self flags =
      ⟨(decode_mad_frame_decode ext (decode_mad_frame_window ext self flags).self
          (decode_mad_frame_window ext self flags).flags).self,
        (decode_mad_frame_decode ext (decode_mad_frame_window ext self flags).self
          (decode_mad_frame_window ext self flags).flags).flags,
        (decode_mad_frame_window ext self flags).events ++
          (decode_mad_frame_decode ext (decode_mad_frame_window ext self flags).self
            (decode_mad_frame_window ext self flags).flags).events⟩ := by
  unfold decode_mad_frame decode_mad_frame_window
  by_cases hr : needs_refill self
  · have h2 : ¬ (decode_mad_frame_refill ext self flags).2 = true := fun h2 => h ⟨hr, h2⟩
    rw [if_pos hr, if_pos hr]
    dsimp only
    rw [if_neg h2]
  · rw [if_neg hr, if_neg hr]
    rfl

/-- The guard marker is the one of the window on which the engine runs. -/
theorem decode_mad_frame_guard_window (ext : externals) (self : decode_mad)
    (flags : decoder_flags) :
    (decode_mad_frame ext self flags).self.guard_pointer =
        (decode_mad_frame_window ext self flags).self.guard_pointer ∧
      (decode_mad_frame ext self flags).self.heap =
        (decode_mad_frame_window ext self flags).self.heap := by
  by_cases h : decode_mad_frame_starved ext self flags
  · rw [decode_mad_frame_of_starved ext self flags h]
    unfold decode_mad_frame_window
    rw [if_pos h.1]
    exact ⟨rfl, rfl⟩
  · rw [decode_mad_frame_of_window ext self flags h]
    exact ⟨(decode_mad_frame_decode_guard ext _ _).1, (decode_mad_frame_decode_guard ext _ _).2.1⟩

/-- C18, refuted at a concrete run: a track whose source has ended, with a
decode engine that reports need-more-data on every window. The first tick
appends a guard region at the start of the input buffer and sets the guard
marker there (address 1000); the second tick appends a second guard region
behind the first and moves the guard marker to it (address 1008), and the
window grows from 8 to 16 bytes. -/
theorem decode_mad_frame_guard_twice :
    (ticks hungry_engine 0 (decode_mad_start 1000 5000 44100, no_flags)).1.guard_pointer = 0 ∧
      (ticks hungry_engine 1 (decode_mad_start 1000 5000 44100, no_flags)).1.guard_pointer =
        1000 ∧
      (ticks hungry_engine 1 (decode_mad_start 1000 5000 44100, no_flags)).1.stream.bufend =
        1000 + MAD_BUFFER_GUARD ∧
      (ticks hungry_engine 2 (decode_mad_start 1000 5000 44100, no_flags)).1.guard_pointer =
        1008 ∧
      (ticks hungry_engine 2 (decode_mad_start 1000 5000 44100, no_flags)).1.stream.bufend =
        1000 + 2 * MAD_BUFFER_GUARD ∧
      (ticks hungry_engine 2 (decode_mad_start 1000 5000 44100, no_flags)).1.state =
        mad_state.MAD_STATE_OK := by
  decide

/-- C18, amended: `decode_mad_frame` writes a guard region and sets the guard
marker in every refill that reads no byte from a source that is not streaming,
whether or not the marker was set before: the marker becomes the address after
the unconsumed tail, and the `MAD_BUFFER_GUARD` bytes from there on are zero.
In every other case (no refill needed, bytes read, or source still streaming)
the guard marker is unchanged. -/
theorem decode_mad_frame_guard (ext : externals) (self : decode_mad) (flags : decoder_flags) :
    (decode_mad_frame ext self flags).self.guard_pointer =
        (if needs_refill self ∧ refill_bytes ext self = [] ∧
            (ext.streambuf_read (refill_read_max self)).2 = false then
          self.input_buffer + refill_remaining self
        else self.guard_pointer) ∧
      (needs_refill self ∧ refill_bytes ext self = [] ∧
          (ext.streambuf_read (refill_read_max self)).2 = false →
        window_bytes (decode_mad_frame ext self flags).self.heap
          (self.input_buffer + refill_remaining self) MAD_BUFFER_GUARD =
            List.replicate MAD_BUFFER_GUARD 0) := by
  rw [(decode_mad_frame_guard_window ext self flags).1,
    (decode_mad_frame_guard_window ext self flags).2]
  unfold decode_mad_frame_window
  by_cases hr : needs_refill self
  · rw [if_pos hr]
    by_cases hn : refill_bytes ext self = []
    · by_cases hs : (ext.streambuf_read (refill_read_max self)).2 = false
      · rw [decode_mad_frame_refill_guard ext self flags hn hs]
        refine ⟨?_, fun _ => ?_⟩
        · rw [if_pos (And.intro hr (And.intro hn hs))]
          rfl
        · exact window_bytes_memset _ _ _ _
      · have hs2 : (ext.streambuf_read (refill_read_max self)).2 = true := by
          cases h : (ext.streambuf_read (refill_read_max self)).2
          · exact absurd h hs
          · rfl
        rw [decode_mad_frame_refill_empty ext self flags hn hs2]
        refine ⟨?_, fun h => absurd h.2.2 hs⟩
        rw [if_neg (fun h => hs h.2.2)]
    · rw [decode_mad_frame_refill_filled ext self flags hn]
      refine ⟨?_, fun h => absurd h.2.1 hn⟩
      rw [if_neg (fun h => hn h.2.1)]
      rfl
  · rw [if_neg hr]
    refine ⟨?_, fun h => absurd h.1 hr⟩
    rw [if_neg (fun h => hr h.1)]

/-! ## Engine errors (C19) -/

/-- The refill makes one call, to the byte source. -/
theorem decode_mad_frame_refill_events (ext : externals) (self : decode_mad)
    (flags : decoder_flags) :
    (decode_mad_frame_refill ext self flags).1.events =
        [Event.read (refill_read_max self) (refill_bytes ext self).length
          (ext.streambuf_read (refill_read_max self)).2] ∧
      (decode_mad_frame_refill ext self flags).1.self.state = self.state := by
  unfold decode_mad_frame_refill
  dsimp only
  split
  · split
    · exact ⟨rfl, rfl⟩
    · exact ⟨rfl, rfl⟩
  · exact ⟨rfl, rfl⟩

/-- The window on which the engine runs is reached in the state on entry, with
no call made but the read of the refill. -/
theorem decode_mad_frame_window_state (ext : externals) (self : decode_mad)
    (flags : decoder_flags) :
    (decode_mad_frame_window ext self flags).self.state = self.state ∧
      Event.synth_frame ∉ (decode_mad_frame_window ext self flags).events ∧
      Event.stream_sync ∉ (decode_mad_frame_window ext self flags).events := by
  unfold decode_mad_frame_window
  by_cases hr : needs_refill self
  · rw [if_pos hr, (decode_mad_frame_refill_events ext self flags).1]
    refine ⟨(decode_mad_frame_refill_events ext self flags).2, ?_, ?_⟩
    · intro h
      rcases List.mem_singleton.mp h
    · intro h
      rcases List.mem_singleton.mp h
  · rw [if_neg hr]
    exact ⟨rfl, List.not_mem_nil _, List.not_mem_nil _⟩

/-- The part of `decode_mad_frame` after the refill, when the engine reports an
error, by cases on the error. -/
theorem decode_mad_frame_decode_error (ext : externals) (self : decode_mad)
    (flags : decoder_flags) (hs : self.state = mad_state.MAD_STATE_OK)
    (he : (decode_mad_frame_engine ext self).1 = true) :
    ((decode_mad_frame_decode ext self flags).self.state = mad_state.MAD_STATE_ERROR ↔
        MAD_RECOVERABLE (decode_mad_frame_engine ext self).2.stream.error = false ∧
          (decode_mad_frame_engine ext self).2.stream.error ≠ MAD_ERROR_BUFLEN) ∧
      (Event.synth_frame ∈ (decode_mad_frame_decode ext self flags).events ↔
        MAD_RECOVERABLE (decode_mad_frame_engine ext self).2.stream.error = true ∧
          (consume_id3_tags ext.resync (decode_mad_frame_engine ext self).2).2 = false ∧
          (decode_mad_frame_engine ext self).2.stream.error = MAD_ERROR_LOSTSYNC ∧
          (decode_mad_frame_engine ext self).2.stream.this_frame =
            (decode_mad_frame_engine ext self).2.guard_pointer) ∧
      ((decode_mad_frame_decode ext self flags).self.state = mad_state.MAD_STATE_PCM_READY ↔
        MAD_RECOVERABLE (decode_mad_frame_engine ext self).2.stream.error = true ∧
          (consume_id3_tags ext.resync (decode_mad_frame_engine ext self).2).2 = false ∧
          (decode_mad_frame_engine ext self).2.stream.error = MAD_ERROR_LOSTSYNC ∧
          (decode_mad_frame_engine ext self).2.stream.this_frame =
            (decode_mad_frame_engine ext self).2.guard_pointer) ∧
      ((decode_mad_frame_decode ext self flags).self.state = mad_state.MAD_STATE_ERROR ∨
        (decode_mad_frame_decode ext self flags).self.state = mad_state.MAD_STATE_PCM_READY ∨
        (decode_mad_frame_decode ext self flags).self.state = mad_state.MAD_STATE_OK) ∧
      (Event.stream_sync ∈ (decode_mad_frame_decode ext self flags).events ↔
        MAD_RECOVERABLE (decode_mad_frame_engine ext self).2.stream.error = true) := by
  obtain ⟨c1, -, -, c4, c5, c6⟩ :=
    consume_id3_tags_frame ext.resync (decode_mad_frame_engine ext self).2
  have hse : (decode_mad_frame_engine ext self).2.state = mad_state.MAD_STATE_OK := hs
  rw [hse] at c4
  have r1 : MAD_RECOVERABLE MAD_ERROR_LOSTSYNC = true := by decide
  have r2 : MAD_RECOVERABLE MAD_ERROR_BUFLEN = false := by decide
  unfold decode_mad_frame_decode
  dsimp only
  rw [if_pos he]
  by_cases hrec : MAD_RECOVERABLE (decode_mad_frame_engine ext self).2.stream.error = true
  · rw [if_pos hrec]
    by_cases hc : (consume_id3_tags ext.resync (decode_mad_frame_engine ext self).2).2 = true
    · rw [if_pos hc]
      simp [hrec, hc, c4]
    · rw [if_neg hc]
      have hc2 : (consume_id3_tags ext.resync (decode_mad_frame_engine ext self).2).2 = false := by
        cases h : (consume_id3_tags ext.resync (decode_mad_frame_engine ext self).2).2
        · rfl
        · exact absurd h hc
      by_cases hg : (consume_id3_tags ext.resync (decode_mad_frame_engine ext self).2).1.stream.error
          ≠ MAD_ERROR_LOSTSYNC ∨
          (consume_id3_tags ext.resync (decode_mad_frame_engine ext self).2).1.stream.this_frame ≠
            (consume_id3_tags ext.resync (decode_mad_frame_engine ext self).2).1.guard_pointer
      · rw [if_pos hg]
        rw [c5, c6, c1] at hg
        have hg2 : ¬ ((decode_mad_frame_engine ext self).2.stream.error = MAD_ERROR_LOSTSYNC ∧
            (decode_mad_frame_engine ext self).2.stream.this_frame =
              (decode_mad_frame_engine ext self).2.guard_pointer) := by
          intro h
          rcases hg with hg | hg
          · exact hg h.1
          · exact hg h.2
        simp [hrec, hc2, c4, hg2]
      · rw [if_neg hg]
        rw [c5, c6, c1] at hg
        have hg2 : (decode_mad_frame_engine ext self).2.stream.error = MAD_ERROR_LOSTSYNC ∧
            (decode_mad_frame_engine ext self).2.stream.this_frame =
              (decode_mad_frame_engine ext self).2.guard_pointer := by
          constructor
          · by_contra h
            exact hg (Or.inl h)
          · by_contra h
            exact hg (Or.inr h)
        simp [decode_mad_frame_synth, hrec, hc2, hg2, r1]
  · rw [if_neg hrec]
    have hrec2 : MAD_RECOVERABLE (decode_mad_frame_engine ext self).2.stream.error = false := by
      cases h : MAD_RECOVERABLE (decode_mad_frame_engine ext self).2.stream.error
      · rfl
      · exact absurd h hrec
    by_cases hb : (decode_mad_frame_engine ext self).2.stream.error = MAD_ERROR_BUFLEN
    · rw [if_pos hb]
      simp [hrec2, hb, hse, r2]
    · rw [if_neg hb]
      simp [hrec2, hb]

/-- The stream state that `consume_id3_tags` leaves: the tag, if there is one,
is skipped, and then, tag or not, `mad_stream_sync` is applied. -/
theorem consume_id3_tags_stream (resync : (Nat → Nat) → mad_stream → mad_bitptr)
    (self : decode_mad) :
    (consume_id3_tags resync self).1.stream =
      mad_stream_sync resync self.heap
        (if tagtype (fun i => self.heap (self.stream.this_frame + i))
            (self.stream.bufend - self.stream.next_frame) ≠ 0 then
          mad_stream_skip self.stream
            (tagtype (fun i => self.heap (self.stream.this_frame + i))
              (self.stream.bufend - self.stream.next_frame))
        else self.stream) := by
  unfold consume_id3_tags
  dsimp only
  by_cases ht : tagtype (fun i => self.heap (self.stream.this_frame + i))
      (self.stream.bufend - self.stream.next_frame) ≠ 0
  · rw [if_pos ht, if_pos ht]
  · rw [if_neg ht, if_neg ht]

/-- The stream state after the part of `decode_mad_frame` that follows the
refill, when the engine reports an error: what `consume_id3_tags` leaves when
the error is recoverable, what the engine left otherwise. -/
theorem decode_mad_frame_decode_stream (ext : externals) (self : decode_mad)
    (flags : decoder_flags) (he : (decode_mad_frame_engine ext self).1 = true) :
    (MAD_RECOVERABLE (decode_mad_frame_engine ext self).2.stream.error = true →
        (decode_mad_frame_decode ext self flags).self.stream =
          (consume_id3_tags ext.resync (decode_mad_frame_engine ext self).2).1.stream) ∧
      (MAD_RECOVERABLE (decode_mad_frame_engine ext self).2.stream.error = false →
        (decode_mad_frame_decode ext self flags).self.stream =
          (decode_mad_frame_engine ext self).2.stream) := by
  unfold decode_mad_frame_decode
  dsimp only
  rw [if_pos he]
  refine ⟨fun hrec => ?_, fun hrec => ?_⟩
  · rw [if_pos hrec]
    by_cases hc : (consume_id3_tags ext.resync (decode_mad_frame_engine ext self).2).2 = true
    · rw [if_pos hc]
    · rw [if_neg hc]
      by_cases hg : (consume_id3_tags ext.resync (decode_mad_frame_engine ext self).2).1.stream.error
          ≠ MAD_ERROR_LOSTSYNC ∨
          (consume_id3_tags ext.resync (decode_mad_frame_engine ext self).2).1.stream.this_frame ≠
            (consume_id3_tags ext.resync (decode_mad_frame_engine ext self).2).1.guard_pointer
      · rw [if_pos hg]
      · rw [if_neg hg]
        rfl
  · have hrec2 : ¬ MAD_RECOVERABLE (decode_mad_frame_engine ext self).2.stream.error = true := by
      rw [hrec]
      exact fun h => Bool.noConfusion h
    rw [if_neg hrec2]
    by_cases hb : (decode_mad_frame_engine ext self).2.stream.error = MAD_ERROR_BUFLEN
    · rw [if_pos hb]
    · rw [if_neg hb]

/-- C19: in state Ready, when the decode engine reports an error in
`decode_mad_frame` (the refill, if one was needed, not starved): the state
becomes Error if and only if the error is not recoverable and is not
need-more-data; synthesis runs if and only if the error is recoverable, no tag
was consumed, the error is lost-synchronization and the error position equals
the guard marker, and the state becomes PcmReady under exactly the same
condition; in every other error case the state stays Ready and no synthesis
happens. The engine is re-synchronized on every recoverable error, tag or
not: the stream state on return is the one that `mad_stream_sync` produces
from the engine's stream state, after the skip of the tag if there is one;
after an error that is not recoverable the stream state is the one the engine
left. -/
theorem decode_mad_frame_error (ext : externals) (self : decode_mad) (flags : decoder_flags)
    (hs : self.state = mad_state.MAD_STATE_OK)
    (hn : ¬ decode_mad_frame_starved ext self flags)
    (he : (decode_mad_frame_decoded ext self flags).1 = true) :
    ((decode_mad_frame ext self flags).self.state = mad_state.MAD_STATE_ERROR ↔
        MAD_RECOVERABLE (decode_mad_frame_decoded ext self flags).2.stream.error = false ∧
          (decode_mad_frame_decoded ext self flags).2.stream.error ≠ MAD_ERROR_BUFLEN) ∧
      (Event.synth_frame ∈ (decode_mad_frame ext self flags).events ↔
        MAD_RECOVERABLE (decode_mad_frame_decoded ext self flags).2.stream.error = true ∧
          (consume_id3_tags ext.resync (decode_mad_frame_decoded ext self flags).2).2 = false ∧
          (decode_mad_frame_decoded ext self flags).2.stream.error = MAD_ERROR_LOSTSYNC ∧
          (decode_mad_frame_decoded ext self flags).2.stream.this_frame =
            (decode_mad_frame_decoded ext self flags).2.guard_pointer) ∧
      ((decode_mad_frame ext self flags).self.state = mad_state.MAD_STATE_PCM_READY ↔
        MAD_RECOVERABLE (decode_mad_frame_decoded ext self flags).2.stream.error = true ∧
          (consume_id3_tags ext.resync (decode_mad_frame_decoded ext self flags).2).2 = false ∧
          (decode_mad_frame_decoded ext self flags).2.stream.error = MAD_ERROR_LOSTSYNC ∧
          (decode_mad_frame_decoded ext self flags).2.stream.this_frame =
            (decode_mad_frame_decoded ext self flags).2.guard_pointer) ∧
      (¬ (MAD_RECOVERABLE (decode_mad_frame_decoded ext self flags).2.stream.error = false ∧
          (decode_mad_frame_decoded ext self flags).2.stream.error ≠ MAD_ERROR_BUFLEN) →
        ¬ (MAD_RECOVERABLE (decode_mad_frame_decoded ext self flags).2.stream.error = true ∧
          (consume_id3_tags ext.resync (decode_mad_frame_decoded ext self flags).2).2 = false ∧
          (decode_mad_frame_decoded ext self flags).2.stream.error = MAD_ERROR_LOSTSYNC ∧
          (decode_mad_frame_decoded ext self flags).2.stream.this_frame =
            (decode_mad_frame_decoded ext self flags).2.guard_pointer) →
        (decode_mad_frame ext self flags).self.state = mad_state.MAD_STATE_OK ∧
          Event.synth_frame ∉ (decode_mad_frame ext self flags).events) ∧
      (Event.stream_sync ∈ (decode_mad_frame ext self flags).events ↔
        MAD_RECOVERABLE (decode_mad_frame_decoded ext self flags).2.stream.error = true) ∧
      (MAD_RECOVERABLE (decode_mad_frame_decoded ext self flags).2.stream.error = true →
        (decode_mad_frame ext self flags).self.stream =
          mad_stream_sync ext.resync (decode_mad_frame_decoded ext self flags).2.heap
            (if tagtype
                (fun i => (decode_mad_frame_decoded ext self flags).2.heap
                  ((decode_mad_frame_decoded ext self flags).2.stream.this_frame + i))
                ((decode_mad_frame_decoded ext self flags).2.stream.bufend -
                  (decode_mad_frame_decoded ext self flags).2.stream.next_frame) ≠ 0 then
              mad_stream_skip (decode_mad_frame_decoded ext self flags).2.stream
                (tagtype
                  (fun i => (decode_mad_frame_decoded ext self flags).2.heap
                    ((decode_mad_frame_decoded ext self flags).2.stream.this_frame + i))
                  ((decode_mad_frame_decoded ext self flags).2.stream.bufend -
                    (decode_mad_frame_decoded ext self flags).2.stream.next_frame))
            else (decode_mad_frame_decoded ext self flags).2.stream)) ∧
      (MAD_RECOVERABLE (decode_mad_frame_decoded ext self flags).2.stream.error = false →
        (decode_mad_frame ext self flags).self.stream =
          (decode_mad_frame_decoded ext self flags).2.stream) := by
  obtain ⟨w1, w2, w3⟩ := decode_mad_frame_window_state ext self flags
  obtain ⟨t1, t2⟩ := decode_mad_frame_decode_stream ext
    (decode_mad_frame_window ext self flags).self (decode_mad_frame_window ext self flags).flags he
  have hstream : (decode_mad_frame ext self flags).self.stream =
      (decode_mad_frame_decode ext (decode_mad_frame_window ext self flags).self
        (decode_mad_frame_window ext self flags).flags).self.stream := by
    rw [decode_mad_frame_of_window ext self flags hn]
  obtain ⟨d1, d2, d3, d4, d5⟩ := decode_mad_frame_decode_error ext
    (decode_mad_frame_window ext self flags).self (decode_mad_frame_window ext self flags).flags
    (w1.trans hs) he
  have hsynth : Event.synth_frame ∈ (decode_mad_frame ext self flags).events ↔
      Event.synth_frame ∈ (decode_mad_frame_decode ext (decode_mad_frame_window ext self flags).self
        (decode_mad_frame_window ext self flags).flags).events := by
    rw [decode_mad_frame_of_window ext self flags hn]
    show _ ∈ _ ++ _ ↔ _
    rw [List.mem_append]
    exact ⟨fun h => h.resolve_left w2, Or.inr⟩
  have hsync : Event.stream_sync ∈ (decode_mad_frame ext self flags).events ↔
      Event.stream_sync ∈ (decode_mad_frame_decode ext (decode_mad_frame_window ext self flags).self
        (decode_mad_frame_window ext self flags).flags).events := by
    rw [decode_mad_frame_of_window ext self flags hn]
    show _ ∈ _ ++ _ ↔ _
    rw [List.mem_append]
    exact ⟨fun h => h.resolve_left w3, Or.inr⟩
  have hstate : (decode_mad_frame ext self flags).self.state =
      (decode_mad_frame_decode ext (decode_mad_frame_window ext self flags).self
        (decode_mad_frame_window ext self flags).flags).self.state := by
    rw [decode_mad_frame_of_window ext self flags hn]
  rw [hsynth, hsync, hstate, hstream]
  refine ⟨d1, d2, d3, ?_, d5, ?_, t2⟩
  · intro h1 h2
    rcases d4 with d4 | d4 | d4
    · exact absurd (d1.mp d4) h1
    · exact absurd (d3.mp d4) h2
    · exact ⟨d4, fun h => h2 (d2.mp h)⟩
  · intro hrec
    rw [t1 hrec]
    exact consume_id3_tags_stream ext.resync _

/-- C19 at concrete inputs: an engine that reports lost synchronization at
the guard marker of an ended track; synthesis runs, the state becomes PcmReady
and the engine's cursor, which the engine left at address 1000, is moved by
the re-synchronization to address 1001. With an engine that fails with an
error that is not recoverable the state becomes Error. -/
theorem decode_mad_frame_error_witness :
    Event.synth_frame ∈
        (decode_mad_frame guard_engine (decode_mad_start 1000 5000 44100) no_flags).events ∧
      (decode_mad_frame guard_engine (decode_mad_start 1000 5000 44100) no_flags).self.state =
        mad_state.MAD_STATE_PCM_READY ∧
      (decode_mad_frame fatal_engine (decode_mad_start 1000 5000 44100) no_flags).self.state =
        mad_state.MAD_STATE_ERROR ∧
      (decode_mad_frame_decoded resync_engine (decode_mad_start 1000 5000 44100)
        no_flags).2.stream.ptr = ⟨1000, 8⟩ ∧
      (decode_mad_frame resync_engine (decode_mad_start 1000 5000 44100)
        no_flags).self.stream.ptr = ⟨1001, 8⟩ :=
  ⟨(decode_mad_frame_error guard_engine (decode_mad_start 1000 5000 44100) no_flags rfl
      (by decide) (by decide)).2.1.mpr (by decide),
    (decode_mad_frame_error guard_engine (decode_mad_start 1000 5000 44100) no_flags rfl
      (by decide) (by decide)).2.2.1.mpr (by decide),
    (decode_mad_frame_error fatal_engine (decode_mad_start 1000 5000 44100) no_flags rfl
      (by decide) (by decide)).1.mpr (by decide),
    rfl,
    (congrArg mad_stream.ptr
      ((decode_mad_frame_error resync_engine (decode_mad_start 1000 5000 44100) no_flags rfl
        (by decide) (by decide)).2.2.2.2.2.1 (by decide))).trans rfl⟩

/-! ## Reaching the end of the stream (C15) -/

/-- Ticks in a terminal state change nothing. -/
theorem ticks_terminal (ext : externals) (self : decode_mad) (flags : decoder_flags)
    (h : self.state = mad_state.MAD_STATE_END_OF_FILE ∨
      self.state = mad_state.MAD_STATE_ERROR) (n : Nat) :
    ticks ext n (self, flags) = (self, flags) := by
  induction n with
  | zero => rfl
  | succ n ih =>
    show ((decode_mad_callback ext (ticks ext n (self, flags)).1
        (ticks ext n (self, flags)).2).1.self,
      (decode_mad_callback ext (ticks ext n (self, flags)).1
        (ticks ext n (self, flags)).2).1.flags) = _
    rw [ih, decode_mad_callback_idle ext self flags (Or.inl h)]

/-- The first tick of a run, followed by the rest. -/
theorem ticks_succ_first (ext : externals) (s : decode_mad × decoder_flags) (n : Nat) :
    ticks ext (n + 1) s =
      ticks ext n ((decode_mad_callback ext s.1 s.2).1.self,
        (decode_mad_callback ext s.1 s.2).1.flags) := by
  induction n with
  | zero => rfl
  | succ n ih =>
    show ((decode_mad_callback ext (ticks ext (n + 1) s).1 (ticks ext (n + 1) s).2).1.self,
      (decode_mad_callback ext (ticks ext (n + 1) s).1 (ticks ext (n + 1) s).2).1.flags) = _
    rw [ih]
    rfl

/-- With an engine that reports need-more-data on every window, a tick in
state Ready ends in state Ready. -/
theorem decode_mad_callback_hungry (self : decode_mad) (flags : decoder_flags)
    (hs : self.state = mad_state.MAD_STATE_OK) :
    (decode_mad_callback hungry_engine self flags).1.self.state = mad_state.MAD_STATE_OK := by
  have hf : (decode_mad_frame hungry_engine self flags).self.state =
      mad_state.MAD_STATE_OK := by
    by_cases h : decode_mad_frame_starved hungry_engine self flags
    · rw [decode_mad_frame_of_starved hungry_engine self flags h,
        (decode_mad_frame_refill_events hungry_engine self flags).2]
      exact hs
    · obtain ⟨w1, -, -⟩ := decode_mad_frame_window_state hungry_engine self flags
      obtain ⟨d1, -, d3, d4, -⟩ := decode_mad_frame_decode_error hungry_engine
        (decode_mad_frame_window hungry_engine self flags).self
        (decode_mad_frame_window hungry_engine self flags).flags (w1.trans hs) rfl
      rw [decode_mad_frame_of_window hungry_engine self flags h]
      rcases d4 with d4 | d4 | d4
      · exact absurd rfl (d1.mp d4).2
      · have hb : MAD_RECOVERABLE MAD_ERROR_BUFLEN = true := (d3.mp d4).1
        exact absurd hb (by decide)
      · exact d4
  have ht : ¬ (self.state = mad_state.MAD_STATE_END_OF_FILE ∨
      self.state = mad_state.MAD_STATE_ERROR) := by
    rw [hs]
    decide
  have hne : (decode_mad_frame hungry_engine self flags).self.state ≠
      mad_state.MAD_STATE_PCM_READY := by
    rw [hf]
    decide
  rw [(decode_mad_callback_busy hungry_engine self flags ht rfl).2.1 hs hne]
  exact hf

/-- A tick that ends the stream: in state Ready, with room in the sink for an
output chunk, when `decode_mad_frame` leaves a block whose source position
equals the guard marker, the sink has room for the block and the block is not
discarded for a rate mismatch, the tick leaves the state EndOfStream and
returns true, and the driver is in EndOfStream after every later tick. -/
theorem decode_mad_callback_end_of_stream (ext : externals) (self : decode_mad)
    (flags : decoder_flags) (hs : self.state = mad_state.MAD_STATE_OK)
    (hroom : ext.can_write OUTPUT_BUFFER_BYTES self.sample_rate = true)
    (hp : (decode_mad_frame ext self flags).self.state = mad_state.MAD_STATE_PCM_READY)
    (hg : (decode_mad_frame ext self flags).self.stream.this_frame =
      (decode_mad_frame ext self flags).self.guard_pointer)
    (hw : ext.can_write
      (SAMPLES_TO_BYTES (decode_mad_frame ext self flags).self.synth.pcm.length)
      (decode_mad_frame ext self flags).self.sample_rate = true)
    (hd : ¬ ((decode_mad_frame ext self flags).self.frames ≠ 0 ∧
      (decode_mad_frame ext self flags).self.frames + 1 > 2 ∧
      (decode_mad_frame ext self flags).self.sample_rate ≠
        (decode_mad_frame ext self flags).self.frame.header.samplerate)) :
    (decode_mad_callback ext self flags).1.self.state = mad_state.MAD_STATE_END_OF_FILE ∧
      (decode_mad_callback ext self flags).2 = true ∧
      ∀ n, (ticks ext (n + 1) (self, flags)).1.state = mad_state.MAD_STATE_END_OF_FILE := by
  have ht : ¬ (self.state = mad_state.MAD_STATE_END_OF_FILE ∨
      self.state = mad_state.MAD_STATE_ERROR) := by
    rw [hs]
    decide
  obtain ⟨b1, -, b3⟩ := decode_mad_callback_busy ext self flags ht hroom
  have he : (decode_mad_callback ext self flags).1.self.state =
      mad_state.MAD_STATE_END_OF_FILE := by
    rw [b3 hs hp]
    show (decode_mad_output ext.can_write (decode_mad_frame ext self flags).self).1.state = _
    rw [decode_mad_output_state ext.can_write _ hw, if_neg hd, if_pos hg]
  refine ⟨he, b1, fun n => ?_⟩
  rw [ticks_succ_first, ticks_terminal ext _ _ (Or.inl he) n]
  exact he

/-! ## The ancillary cursor on the first frame (C20) -/

/-- The engine's stream state after the converter: only the first frame, with
room in the sink, can change it, and only by the cursor compensation. -/
theorem decode_mad_output_stream (can_write : Nat → Nat → Bool) (self : decode_mad) :
    (decode_mad_output can_write self).1.stream =
      if self.frames = 0 ∧
          can_write (SAMPLES_TO_BYTES self.synth.pcm.length) self.sample_rate = true then
        (decode_mad_output_crc { self with frames := self.frames + 1 }).stream
      else self.stream := by
  by_cases hroom : can_write (SAMPLES_TO_BYTES self.synth.pcm.length) self.sample_rate = true
  · by_cases h0 : self.frames = 0
    · rw [if_pos ⟨h0, hroom⟩, decode_mad_output_first_eq can_write self h0 hroom,
        (decode_mad_output_end_spec _ _).1]
      exact (xing_parse_frame _).2.2.1
    · rw [if_neg (fun h => h0 h.1)]
      by_cases hd : self.frames + 1 > 2 ∧ self.sample_rate ≠ self.frame.header.samplerate
      · rw [decode_mad_output_discard_eq can_write self h0 hroom hd]
      · rw [decode_mad_output_later_eq can_write self h0 hroom hd,
          (decode_mad_output_end_spec _ _).1]
  · have hroom2 : can_write (SAMPLES_TO_BYTES self.synth.pcm.length) self.sample_rate = false := by
      cases h : can_write (SAMPLES_TO_BYTES self.synth.pcm.length) self.sample_rate
      · rfl
      · exact absurd h hroom
    rw [if_neg (fun h => hroom h.2), decode_mad_output_full_eq can_write self hroom2]

/-- C20, refuted at a concrete input: a first frame with the CRC-protection
flag set and the ancillary cursor at byte offset 2 of the window (address
1002 in a window that starts at 1000). Rewinding by 2 would stay within the
buffer, at offset 0, but the converter leaves the cursor at offset 2: it
rewinds only from an offset greater than 2. -/
theorem decode_mad_output_crc_at_two :
    (crc_frame 2).frames = 0 ∧
      (crc_frame 2).frame.header.flags &&& MAD_FLAG_PROTECTION ≠ 0 ∧
      (crc_frame 2).stream.anc_ptr.byte = (crc_frame 2).stream.buffer + 2 ∧
      (decode_mad_output_crc (crc_frame 2)).stream.anc_ptr.byte =
        (crc_frame 2).stream.buffer + 2 ∧
      (decode_mad_output (fun _ _ => true) (crc_frame 2)).1.stream.anc_ptr.byte =
        (crc_frame 2).stream.buffer + 2 ∧
      (decode_mad_output (fun _ _ => true) (crc_frame 2)).1.stream.anc_ptr.byte ≠
        (crc_frame 2).stream.buffer + (2 - 2) := by
  decide

/-- C20, amended: with the ancillary cursor at byte offset `o` from the start
of the input window, on the first frame with room in the sink the metadata
extraction `xing_parse` runs on the context that the cursor compensation
leaves, and that cursor is the one the converter returns: at offset `o - 2`
if the CRC-protection flag is set and `o > 2`, unchanged if the flag is set
and `o ≤ 2` or the flag is clear; its bit offset is never changed. The cursor
is never before the start of the window, and the converter never moves it on a
later frame. -/
theorem decode_mad_output_crc_spec (can_write : Nat → Nat → Bool) (self : decode_mad) (o : Nat)
    (ho : self.stream.anc_ptr.byte = self.stream.buffer + o) :
    (self.frames = 0 →
        can_write (SAMPLES_TO_BYTES self.synth.pcm.length) self.sample_rate = true →
        decode_mad_output can_write self =
            decode_mad_output_end
              (xing_parse (decode_mad_output_crc { self with frames := self.frames + 1 })) [] ∧
          (decode_mad_output_crc { self with frames := self.frames + 1 }).stream.anc_ptr =
            (decode_mad_output can_write self).1.stream.anc_ptr ∧
          (self.frame.header.flags &&& MAD_FLAG_PROTECTION ≠ 0 → 2 < o →
            (decode_mad_output can_write self).1.stream.anc_ptr =
              ⟨self.stream.buffer + (o - 2), self.stream.anc_ptr.left⟩) ∧
          (self.frame.header.flags &&& MAD_FLAG_PROTECTION ≠ 0 → o ≤ 2 →
            (decode_mad_output can_write self).1.stream.anc_ptr = self.stream.anc_ptr) ∧
          (self.frame.header.flags &&& MAD_FLAG_PROTECTION = 0 →
            (decode_mad_output can_write self).1.stream.anc_ptr = self.stream.anc_ptr)) ∧
      self.stream.buffer ≤ (decode_mad_output can_write self).1.stream.anc_ptr.byte ∧
      (decode_mad_output can_write self).1.stream.buffer = self.stream.buffer ∧
      (self.frames ≠ 0 →
        (decode_mad_output can_write self).1.stream.anc_ptr = self.stream.anc_ptr) := by
  have hs := decode_mad_output_stream can_write self
  have hcrc : (decode_mad_output_crc { self with frames := self.frames + 1 }).stream =
      if self.frame.header.flags &&& MAD_FLAG_PROTECTION ≠ 0 ∧ 2 < o then
        { self.stream with
          anc_ptr := ⟨self.stream.buffer + (o - 2), self.stream.anc_ptr.left⟩ }
      else self.stream := by
    unfold decode_mad_output_crc
    dsimp only
    by_cases hf : self.frame.header.flags &&& MAD_FLAG_PROTECTION ≠ 0
    · rw [if_pos hf]
      by_cases h2 : 2 < o
      · rw [if_pos (by omega), if_pos ⟨hf, h2⟩]
        have e : self.stream.anc_ptr.byte - 2 = self.stream.buffer + (o - 2) := by omega
        rw [e]
      · rw [if_neg (by omega), if_neg (fun h => h2 h.2)]
    · rw [if_neg hf, if_neg (fun h => hf h.1)]
  refine ⟨?_, ?_, ?_, ?_⟩
  · intro h0 hroom
    rw [if_pos ⟨h0, hroom⟩] at hs
    refine ⟨decode_mad_output_first_eq can_write self h0 hroom, ?_, ?_, ?_, ?_⟩
    · rw [hs]
    · intro hf h2
      rw [hs, hcrc, if_pos ⟨hf, h2⟩]
    · intro hf h2
      rw [hs, hcrc, if_neg (by omega)]
    · intro hf
      rw [hs, hcrc, if_neg (fun h => h.1 hf)]
  · rw [hs, hcrc]
    by_cases hc : self.frames = 0 ∧
        can_write (SAMPLES_TO_BYTES self.synth.pcm.length) self.sample_rate = true
    · rw [if_pos hc]
      by_cases hf : self.frame.header.flags &&& MAD_FLAG_PROTECTION ≠ 0 ∧ 2 < o
      · rw [if_pos hf]
        exact Nat.le_add_right _ _
      · rw [if_neg hf, ho]
        exact Nat.le_add_right _ _
    · rw [if_neg hc, ho]
      exact Nat.le_add_right _ _
  · rw [hs, hcrc]
    by_cases hc : self.frames = 0 ∧
        can_write (SAMPLES_TO_BYTES self.synth.pcm.length) self.sample_rate = true
    · rw [if_pos hc]
      by_cases hf : self.frame.header.flags &&& MAD_FLAG_PROTECTION ≠ 0 ∧ 2 < o
      · rw [if_pos hf]
      · rw [if_neg hf]
    · rw [if_neg hc]
  · intro h0
    rw [hs, if_neg (fun h => h0 h.1)]

/-- C20 at concrete inputs: from offset 6 the cursor is rewound to offset 4,
and from offset 2 it is not moved. -/
theorem decode_mad_output_crc_spec_witness :
    (crc_frame 6).stream.anc_ptr.byte = (crc_frame 6).stream.buffer + 6 ∧
      (decode_mad_output (fun _ _ => true) (crc_frame 6)).1.stream.anc_ptr =
        ⟨(crc_frame 6).stream.buffer + (6 - 2), (crc_frame 6).stream.anc_ptr.left⟩ :=
  ⟨rfl, ((decode_mad_output_crc_spec (fun _ _ => true) (crc_frame 6) 6 rfl).1 rfl rfl).2.2.1
    (by decide) (by decide)⟩

/-! ## Bytes read by the tag skipper (C21) -/

/-- A chain of tests is true exactly when every test holds, and it reads only
indices of its tests. -/
theorem read_tests_spec (data : Nat → Nat) (l : List (Nat × (Nat → Bool))) :
    ((read_tests data l).1 = true ↔ ∀ t ∈ l, t.2 (data t.1) = true) ∧
      ∀ i ∈ (read_tests data l).2, i ∈ l.map Prod.fst := by
  induction l with
  | nil => exact ⟨⟨fun _ t ht => absurd ht (List.not_mem_nil t), fun _ => rfl⟩,
      fun i hi => absurd hi (List.not_mem_nil i)⟩
  | cons t rest ih =>
    obtain ⟨j, test⟩ := t
    unfold read_tests
    by_cases h : test (data j) = true
    · rw [if_pos h]
      refine ⟨⟨fun hr t ht => ?_, fun hr => ?_⟩, fun i hi => ?_⟩
      · rcases List.mem_cons.mp ht with ht | ht
        · rw [ht]
          exact h
        · exact ih.1.mp hr t ht
      · exact ih.1.mpr (fun t ht => hr t (List.mem_cons_of_mem _ ht))
      · rcases List.mem_cons.mp hi with hi | hi
        · rw [hi]
          exact List.mem_cons_self _ _
        · exact List.mem_cons_of_mem _ (ih.2 i hi)
    · rw [if_neg h]
      refine ⟨⟨fun hr => Bool.noConfusion hr, fun hr => absurd (hr (j, test)
        (List.mem_cons_self _ _)) h⟩, fun i hi => ?_⟩
      rw [List.mem_singleton.mp hi]
      exact List.mem_cons_self _ _

/-- The traced padding loop returns what the padding loop returns and reads
only below `length`. -/
theorem tagtype_padding_traced_spec (data : Nat → Nat) (length : Nat) :
    ∀ fuel size, (tagtype_padding_traced data length fuel size).1 =
        tagtype_padding data length fuel size ∧
      ∀ i ∈ (tagtype_padding_traced data length fuel size).2, i < length := by
  intro fuel
  induction fuel with
  | zero => exact fun size => ⟨rfl, fun i hi => absurd hi (List.not_mem_nil i)⟩
  | succ fuel ih =>
    intro size
    unfold tagtype_padding_traced tagtype_padding
    by_cases h1 : size < length
    · rw [if_pos h1]
      by_cases h2 : data size = 0
      · rw [if_pos h2, if_pos ⟨h1, h2⟩]
        refine ⟨(ih (size + 1)).1, fun i hi => ?_⟩
        rcases List.mem_cons.mp hi with hi | hi
        · rw [hi]
          exact h1
        · exact (ih (size + 1)).2 i hi
      · rw [if_neg h2, if_neg (fun h => h2 h.2)]
        refine ⟨rfl, fun i hi => ?_⟩
        rw [List.mem_singleton.mp hi]
        exact h1
    · rw [if_neg h1, if_neg (fun h => h1 h.1)]
      exact ⟨rfl, fun i hi => absurd hi (List.not_mem_nil i)⟩

/-- The traced `tagtype` returns what `tagtype` returns, and every index it
reads is below the length it was given. -/
theorem tagtype_traced_spec (data : Nat → Nat) (n : Nat) :
    (tagtype_traced data n).1 = tagtype data n ∧ ∀ i ∈ (tagtype_traced data n).2, i < n := by
  have h1v : (read_tests data
      [(0, fun b => b == 0x54), (1, fun b => b == 0x41), (2, fun b => b == 0x47)]).1 = true ↔
      (data 0 = 0x54 ∧ data 1 = 0x41 ∧ data 2 = 0x47) := by
    rw [(read_tests_spec data _).1]
    simp
  have h1i : ∀ i ∈ (read_tests data
      [(0, fun b => b == 0x54), (1, fun b => b == 0x41), (2, fun b => b == 0x47)]).2, i < 3 := by
    intro i hi
    have h := (read_tests_spec data _).2 i hi
    simp at h
    omega
  have h2v : (read_tests data
      [(0, fun b => b == 0x49), (1, fun b => b == 0x44), (2, fun b => b == 0x33),
        (3, fun b => decide (b < 0xff)), (4, fun b => decide (b < 0xff)),
        (6, fun b => decide (b < 0x80)), (7, fun b => decide (b < 0x80)),
        (8, fun b => decide (b < 0x80)), (9, fun b => decide (b < 0x80))]).1 = true ↔
      ((data 0 = 0x49 ∧ data 1 = 0x44 ∧ data 2 = 0x33) ∧
        data 3 < 0xff ∧ data 4 < 0xff ∧
        data 6 < 0x80 ∧ data 7 < 0x80 ∧ data 8 < 0x80 ∧ data 9 < 0x80) := by
    rw [(read_tests_spec data _).1]
    simp [and_assoc]
  have h2i : ∀ i ∈ (read_tests data
      [(0, fun b => b == 0x49), (1, fun b => b == 0x44), (2, fun b => b == 0x33),
        (3, fun b => decide (b < 0xff)), (4, fun b => decide (b < 0xff)),
        (6, fun b => decide (b < 0x80)), (7, fun b => decide (b < 0x80)),
        (8, fun b => decide (b < 0x80)), (9, fun b => decide (b < 0x80))]).2, i < 10 := by
    intro i hi
    have h := (read_tests_spec data _).2 i hi
    simp at h
    omega
  unfold tagtype_traced tagtype
  dsimp only
  by_cases c1 : n ≥ 3 ∧ data 0 = 0x54 ∧ data 1 = 0x41 ∧ data 2 = 0x47
  · rw [if_pos c1.1, if_pos (h1v.mpr c1.2), if_pos c1]
    exact ⟨rfl, fun i hi => Nat.lt_of_lt_of_le (h1i i hi) c1.1⟩
  · rw [if_neg c1]
    have r1 : ¬ (if n ≥ 3 then read_tests data
        [(0, fun b => b == 0x54), (1, fun b => b == 0x41), (2, fun b => b == 0x47)]
        else (false, [])).1 = true := by
      by_cases hn : n ≥ 3
      · rw [if_pos hn]
        exact fun h => c1 ⟨hn, h1v.mp h⟩
      · rw [if_neg hn]
        exact fun h => Bool.noConfusion h
    have i1 : ∀ i ∈ (if n ≥ 3 then read_tests data
        [(0, fun b => b == 0x54), (1, fun b => b == 0x41), (2, fun b => b == 0x47)]
        else (false, [])).2, i < n := by
      by_cases hn : n ≥ 3
      · rw [if_pos hn]
        exact fun i hi => Nat.lt_of_lt_of_le (h1i i hi) hn
      · rw [if_neg hn]
        exact fun i hi => absurd hi (List.not_mem_nil i)
    rw [if_neg r1]
    by_cases c2 : n ≥ 10 ∧ (data 0 = 0x49 ∧ data 1 = 0x44 ∧ data 2 = 0x33) ∧
        data 3 < 0xff ∧ data 4 < 0xff ∧
        data 6 < 0x80 ∧ data 7 < 0x80 ∧ data 8 < 0x80 ∧ data 9 < 0x80
    · rw [if_pos c2.1, if_pos (h2v.mpr c2.2), if_pos c2]
      refine ⟨(tagtype_padding_traced_spec data n _ _).1, fun i hi => ?_⟩
      rcases List.mem_append.mp hi with hi | hi
      · rcases List.mem_append.mp hi with hi | hi
        · rcases List.mem_append.mp hi with hi | hi
          · exact i1 i hi
          · exact Nat.lt_of_lt_of_le (h2i i hi) c2.1
        · have h10 : i < 10 := by
            simp at hi
            omega
          exact Nat.lt_of_lt_of_le h10 c2.1
      · exact (tagtype_padding_traced_spec data n _ _).2 i hi
    · rw [if_neg c2]
      by_cases hn : n ≥ 10
      · rw [if_pos hn, if_neg (fun h => c2 ⟨hn, h2v.mp h⟩)]
        refine ⟨rfl, fun i hi => ?_⟩
        rcases List.mem_append.mp hi with hi | hi
        · exact i1 i hi
        · exact Nat.lt_of_lt_of_le (h2i i hi) hn
      · rw [if_neg hn, if_neg (fun h => Bool.noConfusion h)]
        refine ⟨rfl, fun i hi => ?_⟩
        rcases List.mem_append.mp hi with hi | hi
        · exact i1 i hi
        · exact absurd hi (List.not_mem_nil i)

/-- C21: for every byte array `data` and every length `n`, `tagtype` (traced,
with the value of `tagtype`) reads `data` only at indices below `n`; and for
every context with `this_frame ≤ next_frame ≤ bufend`, every address that
`consume_id3_tags` reads through `tagtype` lies at or after `this_frame` and
before `bufend`, hence inside the window when `this_frame` is. The scan whose
reads are traced is the one whose result `consume_id3_tags` returns. -/
theorem tagtype_reads_inside (data : Nat → Nat) (n : Nat)
    (resync : (Nat → Nat) → mad_stream → mad_bitptr) (self : decode_mad) :
    (tagtype_traced data n).1 = tagtype data n ∧
      (∀ i ∈ (tagtype_traced data n).2, i < n) ∧
      ((consume_id3_tags resync self).2 = true ↔
        (tagtype_traced (fun i => self.heap (self.stream.this_frame + i))
          (self.stream.bufend - self.stream.next_frame)).1 ≠ 0) ∧
      (self.stream.this_frame ≤ self.stream.next_frame →
        self.stream.next_frame ≤ self.stream.bufend →
        ∀ a ∈ consume_id3_tags_reads self,
          self.stream.this_frame ≤ a ∧ a < self.stream.bufend ∧
            (self.stream.buffer ≤ self.stream.this_frame → self.stream.buffer ≤ a)) := by
  refine ⟨(tagtype_traced_spec data n).1, (tagtype_traced_spec data n).2, ?_, ?_⟩
  · rw [(tagtype_traced_spec _ _).1]
    unfold consume_id3_tags
    dsimp only
    by_cases ht : tagtype (fun i => self.heap (self.stream.this_frame + i))
        (self.stream.bufend - self.stream.next_frame) ≠ 0
    · rw [if_pos ht]
      exact ⟨fun _ => ht, fun _ => rfl⟩
    · rw [if_neg ht]
      exact ⟨fun h => Bool.noConfusion h, fun h => absurd h ht⟩
  · intro h1 h2 a ha
    unfold consume_id3_tags_reads at ha
    obtain ⟨i, hi, rfl⟩ := List.mem_map.mp ha
    have hlt := (tagtype_traced_spec _ _).2 i hi
    refine ⟨Nat.le_add_right _ _, by omega, fun hb => by omega⟩

/-- C21 at a concrete window: 30 bytes at address 1000 that start with an
ID3v2 tag, scanned from `this_frame = 1000` with `next_frame = 1001`. The tag
skipper reads the signature and header bytes and the padding up to the first
nonzero byte at address 1024, all inside the window. -/
theorem tagtype_reads_inside_witness :
    consume_id3_tags_reads tagged_window =
        [1000, 1000, 1001, 1002, 1003, 1004, 1006, 1007, 1008, 1009,
          1006, 1007, 1008, 1009, 1005, 1022, 1023, 1024] ∧
      (tagtype_traced id3v2_sample 29).1 = 24 ∧
      ∀ a ∈ consume_id3_tags_reads tagged_window, 1000 ≤ a ∧ a < 1030 :=
  ⟨by decide, by decide, fun a ha =>
    ⟨((tagtype_reads_inside id3v2_sample 29 (fun _ s => s.ptr) tagged_window).2.2.2
        (by decide) (by decide) a ha).1,
      ((tagtype_reads_inside id3v2_sample 29 (fun _ s => s.ptr) tagged_window).2.2.2
        (by decide) (by decide) a ha).2.1⟩⟩

/-! ## The refill and the input arena (C22) -/

/-- With an engine that reports need-more-data on every window, the part of
`decode_mad_frame` after the refill only records that error. -/
theorem decode_mad_frame_decode_hungry (self : decode_mad) (flags : decoder_flags) :
    decode_mad_frame_decode hungry_engine self flags =
      ⟨{ self with stream := { self.stream with error := MAD_ERROR_BUFLEN } }, flags,
        [Event.frame_decode]⟩ := by
  have h1 : (decode_mad_frame_engine hungry_engine self).1 = true := rfl
  have h2 : (decode_mad_frame_engine hungry_engine self).2.stream.error = MAD_ERROR_BUFLEN := rfl
  have h3 : ¬ MAD_RECOVERABLE MAD_ERROR_BUFLEN = true := by decide
  unfold decode_mad_frame_decode
  dsimp only
  rw [if_pos h1, h2, if_neg h3, if_pos rfl]
  rfl

/-- With an ended source and an engine that reports need-more-data on every
window without consuming a byte, a tick in state Ready that needs a refill, on
a window that starts at the input buffer (or on no window yet), carries the
whole window over, appends a guard region behind it and moves the guard marker
there; no other byte of the heap changes. -/
theorem decode_mad_callback_hungry_step (self : decode_mad) (flags : decoder_flags)
    (hs : self.state = mad_state.MAD_STATE_OK)
    (hneed : needs_refill self)
    (hnf : self.stream.next_frame = 0 ∨ self.stream.next_frame = self.input_buffer) :
    (decode_mad_callback hungry_engine self flags).1.self.state = mad_state.MAD_STATE_OK ∧
      (decode_mad_callback hungry_engine self flags).1.self.stream.error = MAD_ERROR_BUFLEN ∧
      (decode_mad_callback hungry_engine self flags).1.self.input_buffer = self.input_buffer ∧
      (decode_mad_callback hungry_engine self flags).1.self.stream.buffer = self.input_buffer ∧
      (decode_mad_callback hungry_engine self flags).1.self.stream.next_frame =
        self.input_buffer ∧
      (decode_mad_callback hungry_engine self flags).1.self.stream.bufend =
        self.input_buffer + (refill_remaining self + MAD_BUFFER_GUARD) ∧
      (decode_mad_callback hungry_engine self flags).1.self.guard_pointer =
        self.input_buffer + refill_remaining self ∧
      (∀ a, (decode_mad_callback hungry_engine self flags).1.self.heap a =
        if self.input_buffer + refill_remaining self ≤ a ∧
            a < self.input_buffer + refill_remaining self + MAD_BUFFER_GUARD then 0
        else self.heap a) := by
  have ht : ¬ (self.state = mad_state.MAD_STATE_END_OF_FILE ∨
      self.state = mad_state.MAD_STATE_ERROR) := by
    rw [hs]
    decide
  have hguard := decode_mad_frame_refill_guard hungry_engine self flags List.take_nil rfl
  have hnst : ¬ decode_mad_frame_starved hungry_engine self flags := by
    intro h
    have h2 := h.2
    rw [hguard] at h2
    exact Bool.noConfusion h2
  have hf := decode_mad_frame_of_window hungry_engine self flags hnst
  have hw : decode_mad_frame_window hungry_engine self flags =
      (decode_mad_frame_refill hungry_engine self flags).1 := by
    unfold decode_mad_frame_window
    rw [if_pos hneed]
  have hne : (decode_mad_frame hungry_engine self flags).self.state ≠
      mad_state.MAD_STATE_PCM_READY := by
    rw [hf, decode_mad_frame_decode_hungry, hw, hguard]
    show self.state ≠ _
    rw [hs]
    decide
  rw [(decode_mad_callback_busy hungry_engine self flags ht rfl).2.1 hs hne, hf,
    decode_mad_frame_decode_hungry, hw, hguard]
  refine ⟨hs, rfl, rfl, rfl, rfl, ?_, rfl, ?_⟩
  · show self.input_buffer + (0 + MAD_BUFFER_GUARD + refill_remaining self) = _
    omega
  · intro a
    show memset (store_bytes (refill_heap self) (self.input_buffer + refill_remaining self) [])
      (self.input_buffer + refill_remaining self) 0 MAD_BUFFER_GUARD a = _
    unfold memset
    by_cases hin : self.input_buffer + refill_remaining self ≤ a ∧
        a < self.input_buffer + refill_remaining self + MAD_BUFFER_GUARD
    · rw [if_pos hin, if_pos hin]
    · rw [if_neg hin, if_neg hin]
      unfold store_bytes
      rw [if_neg (by simp only [List.length_nil]; omega)]
      unfold refill_heap
      by_cases h0 : self.stream.next_frame ≠ 0
      · rw [if_pos h0]
        have hib : self.stream.next_frame = self.input_buffer := hnf.resolve_left h0
        unfold memcpy
        by_cases hc : self.input_buffer ≤ a ∧ a < self.input_buffer + refill_remaining self
        · rw [if_pos hc, hib]
          congr 1
          omega
        · rw [if_neg hc]
      · rw [if_neg h0]

/-- The run of the driver from a fresh context with an ended source and an
engine that reports need-more-data on every window: after `n + 1` ticks the
window has `8 * (n + 1)` bytes, all of them guard zeros, the guard marker is at
its last 8 bytes, and the heap behind the window is as at the start. -/
theorem ticks_hungry (self : decode_mad) (flags : decoder_flags)
    (hs : self.state = mad_state.MAD_STATE_OK) (hb : self.stream.buffer = 0)
    (hnf : self.stream.next_frame = 0) (hib : self.input_buffer ≠ 0) (n : Nat) :
    (ticks hungry_engine (n + 1) (self, flags)).1.state = mad_state.MAD_STATE_OK ∧
      (ticks hungry_engine (n + 1) (self, flags)).1.stream.error = MAD_ERROR_BUFLEN ∧
      (ticks hungry_engine (n + 1) (self, flags)).1.input_buffer = self.input_buffer ∧
      (ticks hungry_engine (n + 1) (self, flags)).1.stream.buffer = self.input_buffer ∧
      (ticks hungry_engine (n + 1) (self, flags)).1.stream.next_frame = self.input_buffer ∧
      (ticks hungry_engine (n + 1) (self, flags)).1.stream.bufend =
        self.input_buffer + MAD_BUFFER_GUARD * (n + 1) ∧
      (ticks hungry_engine (n + 1) (self, flags)).1.guard_pointer =
        self.input_buffer + MAD_BUFFER_GUARD * n ∧
      (∀ a, (ticks hungry_engine (n + 1) (self, flags)).1.heap a =
        if self.input_buffer ≤ a ∧ a < self.input_buffer + MAD_BUFFER_GUARD * (n + 1) then 0
        else self.heap a) := by
  induction n with
  | zero =>
    have hrem : refill_remaining self = 0 := by
      unfold refill_remaining
      rw [if_neg (fun h => h hnf)]
    obtain ⟨a1, a2, a3, a4, a5, a6, a7, a8⟩ :=
      decode_mad_callback_hungry_step self flags hs (Or.inl hb) (Or.inl hnf)
    rw [hrem] at a6 a7 a8
    refine ⟨a1, a2, a3, a4, a5, a6, a7, fun a => ?_⟩
    exact a8 a
  | succ n ih =>
    obtain ⟨i1, i2, i3, i4, i5, i6, i7, i8⟩ := ih
    · have hrem : refill_remaining (ticks hungry_engine (n + 1) (self, flags)).1 =
          MAD_BUFFER_GUARD * (n + 1) := by
        unfold refill_remaining
        rw [i5, if_pos hib, i6]
        omega
      obtain ⟨a1, a2, a3, a4, a5, a6, a7, a8⟩ :=
        decode_mad_callback_hungry_step (ticks hungry_engine (n + 1) (self, flags)).1
          (ticks hungry_engine (n + 1) (self, flags)).2 i1 (Or.inr i2) (Or.inr (i5.trans i3.symm))
      rw [hrem, i3] at a6 a7 a8
      refine ⟨a1, a2, a3.trans i3, a4.trans i3, a5.trans i3, ?_, a7, fun a => ?_⟩
      · show (decode_mad_callback hungry_engine (ticks hungry_engine (n + 1) (self, flags)).1
          (ticks hungry_engine (n + 1) (self, flags)).2).1.self.stream.bufend = _
        rw [a6]
        unfold MAD_BUFFER_GUARD
        omega
      · show (decode_mad_callback hungry_engine (ticks hungry_engine (n + 1) (self, flags)).1
          (ticks hungry_engine (n + 1) (self, flags)).2).1.self.heap a = _
        rw [a8 a, i8 a]
        unfold MAD_BUFFER_GUARD
        by_cases c1 : self.input_buffer + 8 * (n + 1) ≤ a ∧ a < self.input_buffer + 8 * (n + 1) + 8
        · rw [if_pos c1, if_pos (by omega)]
        · rw [if_neg c1]
          by_cases c2 : self.input_buffer ≤ a ∧ a < self.input_buffer + 8 * (n + 1)
          · rw [if_pos c2, if_pos (by omega)]
          · rw [if_neg c2, if_neg (by omega)]

/-- A refill whose carried-over tail is at most `INPUT_BUFFER_SIZE` stays
inside the input arena: the bound of the read does not underflow, the tail and
the bytes read end within `INPUT_BUFFER_SIZE`, the window handed to the engine
ends at or before the end of the arena, and no byte outside the arena
changes. -/
theorem decode_mad_frame_refill_arena (ext : externals) (self : decode_mad)
    (flags : decoder_flags) (ht : refill_remaining self ≤ INPUT_BUFFER_SIZE) :
    refill_read_max self = INPUT_BUFFER_SIZE - refill_remaining self ∧
      refill_remaining self + (refill_bytes ext self).length ≤ INPUT_BUFFER_SIZE ∧
      ((decode_mad_frame_refill ext self flags).2 = false →
        (decode_mad_frame_refill ext self flags).1.self.stream.bufend ≤ arena_end self) ∧
      (∀ a, a < self.input_buffer ∨ arena_end self ≤ a →
        (decode_mad_frame_refill ext self flags).1.self.heap a = self.heap a) := by
  have hmax := refill_read_max_eq self ht
  have hlen : refill_remaining self + (refill_bytes ext self).length ≤ INPUT_BUFFER_SIZE := by
    have h : (refill_bytes ext self).length ≤ refill_read_max self := List.length_take_le _ _
    rw [hmax] at h
    omega
  have hcopy : ∀ a, a < self.input_buffer ∨ arena_end self ≤ a →
      refill_heap self a = self.heap a := by
    intro a ha
    unfold arena_end at ha
    unfold refill_heap
    by_cases h0 : self.stream.next_frame ≠ 0
    · rw [if_pos h0]
      unfold memcpy
      rw [if_neg (by omega)]
    · rw [if_neg h0]
  have hstore : ∀ a, a < self.input_buffer ∨ arena_end self ≤ a →
      store_bytes (refill_heap self) (self.input_buffer + refill_remaining self)
        (refill_bytes ext self) a = self.heap a := by
    intro a ha
    rw [← hcopy a ha]
    unfold arena_end at ha
    unfold store_bytes
    rw [if_neg (by omega)]
  refine ⟨hmax, hlen, ?_, ?_⟩
  · intro hf
    unfold arena_end
    by_cases hn : refill_bytes ext self = []
    · by_cases hs : (ext.streambuf_read (refill_read_max self)).2 = false
      · rw [decode_mad_frame_refill_guard ext self flags hn hs]
        show self.input_buffer + (0 + MAD_BUFFER_GUARD + refill_remaining self) ≤ _
        omega
      · have hs2 : (ext.streambuf_read (refill_read_max self)).2 = true := by
          cases h : (ext.streambuf_read (refill_read_max self)).2
          · exact absurd h hs
          · rfl
        rw [decode_mad_frame_refill_empty ext self flags hn hs2] at hf
        exact Bool.noConfusion hf
    · rw [decode_mad_frame_refill_filled ext self flags hn]
      show self.input_buffer + ((refill_bytes ext self).length + refill_remaining self) ≤ _
      omega
  · intro a ha
    by_cases hn : refill_bytes ext self = []
    · rw [hn] at hstore
      by_cases hs : (ext.streambuf_read (refill_read_max self)).2 = false
      · rw [decode_mad_frame_refill_guard ext self flags hn hs]
        show memset (store_bytes (refill_heap self) (self.input_buffer + refill_remaining self) [])
          (self.input_buffer + refill_remaining self) 0 MAD_BUFFER_GUARD a = _
        rw [← hstore a ha]
        unfold arena_end at ha
        unfold memset
        rw [if_neg (by omega)]
      · have hs2 : (ext.streambuf_read (refill_read_max self)).2 = true := by
          cases h : (ext.streambuf_read (refill_read_max self)).2
          · exact absurd h hs
          · rfl
        rw [decode_mad_frame_refill_empty ext self flags hn hs2]
        exact hstore a ha
    · rw [decode_mad_frame_refill_filled ext self flags hn]
      exact hstore a ha

/-- The run of `ticks_hungry` after `n ≥ 1` ticks, from a context whose input
buffer is at address 1000. -/
theorem ticks_hungry_pos (self : decode_mad) (flags : decoder_flags)
    (hs : self.state = mad_state.MAD_STATE_OK) (hb : self.stream.buffer = 0)
    (hnf : self.stream.next_frame = 0) (hib : self.input_buffer = 1000) (n : Nat)
    (hn : 0 < n) :
    (ticks hungry_engine n (self, flags)).1.state = mad_state.MAD_STATE_OK ∧
      (ticks hungry_engine n (self, flags)).1.input_buffer = 1000 ∧
      (ticks hungry_engine n (self, flags)).1.stream.buffer = 1000 ∧
      (ticks hungry_engine n (self, flags)).1.stream.next_frame = 1000 ∧
      (ticks hungry_engine n (self, flags)).1.stream.bufend = 1000 + 8 * n ∧
      (ticks hungry_engine n (self, flags)).1.guard_pointer + 8 = 1000 + 8 * n ∧
      (∀ a, (ticks hungry_engine n (self, flags)).1.heap a =
        if 1000 ≤ a ∧ a < 1000 + 8 * n then 0 else self.heap a) := by
  obtain ⟨m, rfl⟩ : ∃ m, n = m + 1 := ⟨n - 1, by omega⟩
  have hib0 : self.input_buffer ≠ 0 := by
    rw [hib]
    decide
  obtain ⟨a1, -, a3, a4, a5, a6, a7, a8⟩ := ticks_hungry self flags hs hb hnf hib0 m
  rw [hib] at a3 a4 a5 a6 a7 a8
  unfold MAD_BUFFER_GUARD at a6 a7 a8
  refine ⟨a1, a3, a4, a5, a6, ?_, a8⟩
  rw [a7]
  omega

/-- C22, evaluated at the failing input: a fresh context (in a memory that
holds 0xAA everywhere), an ended byte source and a decode engine that reports
need-more-data on every window and leaves `next_frame` where it was, at the
start of the window. Every tick carries the whole window over and appends a
guard region of 8 zero bytes. After 362 ticks `next_frame` is still inside the
window and the tail to carry over is 2896 bytes, more than `INPUT_BUFFER_SIZE`:
in the next refill `read_max` underflows to `2 ^ 32 - 6`, and the guard region
is written at offsets 2896 to 2903 of an arena of 2898 bytes; the bytes behind
the arena, 0xAA before that tick, are 0 after it. -/
theorem decode_mad_frame_refill_overflow :
    (∀ heap s f, (hungry_engine.mad_frame_decode heap s f).2.1.next_frame = s.next_frame) ∧
      (∀ m, hungry_engine.streambuf_read m = ([], false)) ∧
      (∀ n,
        (ticks hungry_engine (n + 1) (canary_start, no_flags)).1.stream.buffer ≤
            (ticks hungry_engine (n + 1) (canary_start, no_flags)).1.stream.next_frame ∧
          (ticks hungry_engine (n + 1) (canary_start, no_flags)).1.stream.next_frame ≤
            (ticks hungry_engine (n + 1) (canary_start, no_flags)).1.stream.bufend) ∧
      (ticks hungry_engine 362 (canary_start, no_flags)).1.state = mad_state.MAD_STATE_OK ∧
      refill_remaining (ticks hungry_engine 362 (canary_start, no_flags)).1 = 2896 ∧
      INPUT_BUFFER_SIZE < refill_remaining (ticks hungry_engine 362 (canary_start, no_flags)).1 ∧
      refill_read_max (ticks hungry_engine 362 (canary_start, no_flags)).1 = 2 ^ 32 - 6 ∧
      arena_end (ticks hungry_engine 362 (canary_start, no_flags)).1 = 1000 + 2898 ∧
      (ticks hungry_engine 362 (canary_start, no_flags)).1.heap (1000 + 2898) = 0xAA ∧
      (ticks hungry_engine 362 (canary_start, no_flags)).1.heap (1000 + 2903) = 0xAA ∧
      (ticks hungry_engine 363 (canary_start, no_flags)).1.guard_pointer = 1000 + 2896 ∧
      (ticks hungry_engine 363 (canary_start, no_flags)).1.stream.bufend = 1000 + 2904 ∧
      (ticks hungry_engine 363 (canary_start, no_flags)).1.heap (1000 + 2898) = 0 ∧
      (ticks hungry_engine 363 (canary_start, no_flags)).1.heap (1000 + 2903) = 0 := by
  obtain ⟨a1, a2, a3, a4, a5, a6, a7⟩ :=
    ticks_hungry_pos canary_start no_flags rfl rfl rfl rfl 362 (by omega)
  obtain ⟨b1, b2, b3, b4, b5, b6, b7⟩ :=
    ticks_hungry_pos canary_start no_flags rfl rfl rfl rfl 363 (by omega)
  have hrem : refill_remaining (ticks hungry_engine 362 (canary_start, no_flags)).1 = 2896 := by
    unfold refill_remaining
    rw [a4, if_pos (by omega), a5]
  refine ⟨fun _ _ _ => rfl, fun _ => rfl, fun n => ?_, a1, hrem, ?_, ?_, ?_, ?_, ?_, ?_, b5,
    ?_, ?_⟩
  · obtain ⟨-, -, c3, c4, c5, -, -⟩ :=
      ticks_hungry_pos canary_start no_flags rfl rfl rfl rfl (n + 1) (by omega)
    rw [c3, c4, c5]
    exact ⟨le_refl _, Nat.le_add_right _ _⟩
  · rw [hrem]
    unfold INPUT_BUFFER_SIZE
    omega
  · unfold refill_read_max
    rw [hrem]
    unfold INPUT_BUFFER_SIZE SIZE_MODULUS
    norm_num
  · unfold arena_end
    rw [a2]
    unfold INPUT_BUFFER_SIZE MAD_BUFFER_GUARD
    omega
  · rw [a7, if_neg (by omega)]
    rfl
  · rw [a7, if_neg (by omega)]
    rfl
  · omega
  · rw [b7, if_pos (by omega)]
  · rw [b7, if_pos (by omega)]

/-! ## Reaching the end of the stream with an engine that consumes its window (C15) -/

/-- What `consume_id3_tags` leaves alone besides the fields of
`consume_id3_tags_frame`: the bounds of the window, `next_frame`, and the
frame counter, the rate, the frame and the synthesis state. -/
theorem consume_id3_tags_window (resync : (Nat → Nat) → mad_stream → mad_bitptr)
    (self : decode_mad) :
    (consume_id3_tags resync self).1.stream.buffer = self.stream.buffer ∧
      (consume_id3_tags resync self).1.stream.bufend = self.stream.bufend ∧
      (consume_id3_tags resync self).1.stream.next_frame = self.stream.next_frame ∧
      (consume_id3_tags resync self).1.frames = self.frames ∧
      (consume_id3_tags resync self).1.sample_rate = self.sample_rate ∧
      (consume_id3_tags resync self).1.frame = self.frame ∧
      (consume_id3_tags resync self).1.synth = self.synth := by
  unfold consume_id3_tags
  dsimp only
  split <;> exact ⟨rfl, rfl, rfl, rfl, rfl, rfl, rfl⟩

/-- The value that `consume_id3_tags` returns: whether `tagtype` found a
tag. -/
theorem consume_id3_tags_rc (resync : (Nat → Nat) → mad_stream → mad_bitptr)
    (self : decode_mad) :
    (consume_id3_tags resync self).2 = true ↔
      tagtype (fun i => self.heap (self.stream.this_frame + i))
        (self.stream.bufend - self.stream.next_frame) ≠ 0 := by
  unfold consume_id3_tags
  dsimp only
  by_cases ht : tagtype (fun i => self.heap (self.stream.this_frame + i))
      (self.stream.bufend - self.stream.next_frame) ≠ 0
  · rw [if_pos ht]
    exact ⟨fun _ => ht, fun _ => rfl⟩
  · rw [if_neg ht]
    exact ⟨fun h => Bool.noConfusion h, fun h => absurd h ht⟩

/-- No tag starts with a zero byte. -/
theorem tagtype_zero_start (data : Nat → Nat) (n : Nat) (h0 : data 0 = 0) :
    tagtype data n = 0 := by
  by_contra hne
  rcases (tagtype_ne_zero_iff data n).mp hne with h | h
  · have h1 := h.2.1
    rw [h0] at h1
    exact absurd h1 (by decide)
  · have h1 := h.2.1.1
    rw [h0] at h1
    exact absurd h1 (by decide)

/-- The part of `decode_mad_frame` after the refill, by cases on what the
engine reports: success, need-more-data, a recoverable error that is retried,
and lost synchronization at the guard marker. -/
theorem decode_mad_frame_decode_cases (ext : externals) (self : decode_mad)
    (flags : decoder_flags) :
    ((decode_mad_frame_engine ext self).1 = false →
        decode_mad_frame_decode ext self flags =
          decode_mad_frame_synth ext (decode_mad_frame_engine ext self).2 flags
            [Event.frame_decode]) ∧
      ((decode_mad_frame_engine ext self).1 = true →
        (decode_mad_frame_engine ext self).2.stream.error = MAD_ERROR_BUFLEN →
        decode_mad_frame_decode ext self flags =
          ⟨(decode_mad_frame_engine ext self).2, flags, [Event.frame_decode]⟩) ∧
      ((decode_mad_frame_engine ext self).1 = true →
        MAD_RECOVERABLE (decode_mad_frame_engine ext self).2.stream.error = true →
        ((consume_id3_tags ext.resync (decode_mad_frame_engine ext self).2).2 = true ∨
          (decode_mad_frame_engine ext self).2.stream.error ≠ MAD_ERROR_LOSTSYNC ∨
          (decode_mad_frame_engine ext self).2.stream.this_frame ≠
            (decode_mad_frame_engine ext self).2.guard_pointer) →
        decode_mad_frame_decode ext self flags =
          ⟨(consume_id3_tags ext.resync (decode_mad_frame_engine ext self).2).1, flags,
            [Event.frame_decode] ++ [Event.stream_sync]⟩) ∧
      ((decode_mad_frame_engine ext self).1 = true →
        MAD_RECOVERABLE (decode_mad_frame_engine ext self).2.stream.error = true →
        (consume_id3_tags ext.resync (decode_mad_frame_engine ext self).2).2 = false →
        (decode_mad_frame_engine ext self).2.stream.error = MAD_ERROR_LOSTSYNC →
        (decode_mad_frame_engine ext self).2.stream.this_frame =
          (decode_mad_frame_engine ext self).2.guard_pointer →
        decode_mad_frame_decode ext self flags =
          decode_mad_frame_synth ext
            (consume_id3_tags ext.resync (decode_mad_frame_engine ext self).2).1 flags
            ([Event.frame_decode] ++ [Event.stream_sync])) := by
  obtain ⟨c1, -, -, -, c5, c6⟩ :=
    consume_id3_tags_frame ext.resync (decode_mad_frame_engine ext self).2
  have r2 : ¬ MAD_RECOVERABLE MAD_ERROR_BUFLEN = true := by decide
  unfold decode_mad_frame_decode
  dsimp only
  refine ⟨fun he => ?_, fun he hb => ?_, fun he hrec hretry => ?_, fun he hrec hc hl hg => ?_⟩
  · rw [if_neg (by rw [he]; exact fun h => Bool.noConfusion h)]
  · rw [if_pos he, hb, if_neg r2, if_pos rfl]
  · rw [if_pos he, if_pos hrec]
    by_cases hc : (consume_id3_tags ext.resync (decode_mad_frame_engine ext self).2).2 = true
    · rw [if_pos hc]
    · rw [if_neg hc, c5, c6, c1]
      have hg : (decode_mad_frame_engine ext self).2.stream.error ≠ MAD_ERROR_LOSTSYNC ∨
          (decode_mad_frame_engine ext self).2.stream.this_frame ≠
            (decode_mad_frame_engine ext self).2.guard_pointer :=
        hretry.resolve_left hc
      rw [if_pos hg]
  · have hc2 : ¬ (consume_id3_tags ext.resync (decode_mad_frame_engine ext self).2).2 = true := by
      rw [hc]
      exact fun h => Bool.noConfusion h
    rw [if_pos he, if_pos hrec, if_neg hc2, c5, c6, c1]
    have hg2 : ¬ ((decode_mad_frame_engine ext self).2.stream.error ≠ MAD_ERROR_LOSTSYNC ∨
        (decode_mad_frame_engine ext self).2.stream.this_frame ≠
          (decode_mad_frame_engine ext self).2.guard_pointer) := by
      intro h
      rcases h with h | h
      · exact h hl
      · exact h hg
    rw [if_neg hg2]

/-- The cursor compensation on the first frame changes nothing of the stream
state but the ancillary cursor. -/
theorem decode_mad_output_crc_window (self : decode_mad) :
    (decode_mad_output_crc self).stream.buffer = self.stream.buffer ∧
      (decode_mad_output_crc self).stream.bufend = self.stream.bufend ∧
      (decode_mad_output_crc self).stream.next_frame = self.stream.next_frame ∧
      (decode_mad_output_crc self).stream.error = self.stream.error := by
  unfold decode_mad_output_crc
  split
  · split
    · exact ⟨rfl, rfl, rfl, rfl⟩
    · exact ⟨rfl, rfl, rfl, rfl⟩
  · exact ⟨rfl, rfl, rfl, rfl⟩

/-- The converter on a block that it does not discard, with room in the sink:
the state is set by the guard test, the window of the engine is not touched,
the frame counter is incremented, and the rate is the one on entry on the
first frame and the rate of the block on a later frame. -/
theorem decode_mad_output_block (can_write : Nat → Nat → Bool) (self : decode_mad)
    (hroom : can_write (SAMPLES_TO_BYTES self.synth.pcm.length) self.sample_rate = true)
    (hd : ¬ (self.frames ≠ 0 ∧ self.frames + 1 > 2 ∧
      self.sample_rate ≠ self.frame.header.samplerate)) :
    (decode_mad_output can_write self).1.state =
        (if self.stream.this_frame = self.guard_pointer then mad_state.MAD_STATE_END_OF_FILE
        else mad_state.MAD_STATE_OK) ∧
      (decode_mad_output can_write self).1.stream.buffer = self.stream.buffer ∧
      (decode_mad_output can_write self).1.stream.bufend = self.stream.bufend ∧
      (decode_mad_output can_write self).1.stream.next_frame = self.stream.next_frame ∧
      (decode_mad_output can_write self).1.stream.error = self.stream.error ∧
      (decode_mad_output can_write self).1.frames = self.frames + 1 ∧
      (decode_mad_output can_write self).1.sample_rate =
        (if self.frames = 0 then self.sample_rate else self.frame.header.samplerate) := by
  have hst := decode_mad_output_state can_write self hroom
  rw [if_neg hd] at hst
  have hstream := decode_mad_output_stream can_write self
  obtain ⟨k1, k2, k3, k4⟩ := decode_mad_output_crc_window { self with frames := self.frames + 1 }
  have hwin : (decode_mad_output can_write self).1.stream.buffer = self.stream.buffer ∧
      (decode_mad_output can_write self).1.stream.bufend = self.stream.bufend ∧
      (decode_mad_output can_write self).1.stream.next_frame = self.stream.next_frame ∧
      (decode_mad_output can_write self).1.stream.error = self.stream.error := by
    rw [hstream]
    by_cases hc : self.frames = 0 ∧
        can_write (SAMPLES_TO_BYTES self.synth.pcm.length) self.sample_rate = true
    · rw [if_pos hc]
      exact ⟨k1, k2, k3, k4⟩
    · rw [if_neg hc]
      exact ⟨rfl, rfl, rfl, rfl⟩
  refine ⟨hst, hwin.1, hwin.2.1, hwin.2.2.1, hwin.2.2.2, ?_, ?_⟩
  · by_cases h0 : self.frames = 0
    · rw [(decode_mad_output_first_ctx can_write self h0 hroom).2.1, h0]
    · exact (decode_mad_output_later can_write self h0 hroom
        (fun h => hd ⟨h0, h⟩)).2.2.2.1
  · by_cases h0 : self.frames = 0
    · rw [if_pos h0, (decode_mad_output_first_ctx can_write self h0 hroom).1]
      show (xing_parse (decode_mad_output_crc { self with frames := 1 })).sample_rate = _
      rw [(xing_parse_frame _).2.1, (decode_mad_output_crc_frame _).2.1]
    · rw [if_neg h0]
      exact (decode_mad_output_later can_write self h0 hroom
        (fun h => hd ⟨h0, h⟩)).2.2.2.2.1

/-- The toy engine `byte_engine` consumes its window. -/
theorem byte_engine_consuming : consuming_engine byte_engine 44100 := by
  intro heap s f hle
  have r1 : MAD_RECOVERABLE MAD_ERROR_LOSTSYNC = true := by decide
  have n1 : MAD_ERROR_NONE ≠ MAD_ERROR_BUFLEN := by decide
  have n2 : MAD_ERROR_LOSTSYNC ≠ MAD_ERROR_BUFLEN := by decide
  by_cases h1 : s.bufend ≤ s.next_frame
  · have e : byte_engine.mad_frame_decode heap s f =
        (true, { s with error := MAD_ERROR_BUFLEN, next_frame := s.bufend },
          { header := { flags := 0, samplerate := 44100 } }) := by
      show (if s.bufend ≤ s.next_frame then _ else _) = _
      rw [if_pos h1]
    rw [e]
    refine ⟨fun _ => rfl, fun h => absurd ⟨rfl, rfl⟩ h, fun _ => Or.inr rfl,
      fun h => Bool.noConfusion h, rfl, fun hg _ => ?_⟩
    unfold MAD_BUFFER_GUARD at hg
    omega
  · by_cases h2 : heap s.next_frame = 0xFF
    · have e : byte_engine.mad_frame_decode heap s f =
          (false, { s with this_frame := s.next_frame, next_frame := s.next_frame + 1,
                           error := MAD_ERROR_NONE },
            { header := { flags := 0, samplerate := 44100 } }) := by
        show (if s.bufend ≤ s.next_frame then _ else _) = _
        rw [if_neg h1, if_pos h2]
      rw [e]
      refine ⟨fun h => Bool.noConfusion h.1, fun _ => ⟨Nat.lt_succ_self _, by
        show s.next_frame + 1 ≤ s.bufend
        omega⟩, fun h => Bool.noConfusion h, fun _ => n1, rfl, fun _ hz => ?_⟩
      have h0 := hz 0 (by decide)
      rw [Nat.add_zero, h2] at h0
      exact absurd h0 (by decide)
    · have e : byte_engine.mad_frame_decode heap s f =
          (true, { s with this_frame := s.next_frame, next_frame := s.next_frame + 1,
                          error := MAD_ERROR_LOSTSYNC },
            { header := { flags := 0, samplerate := 44100 } }) := by
        show (if s.bufend ≤ s.next_frame then _ else _) = _
        rw [if_neg h1, if_neg h2]
      rw [e]
      refine ⟨fun h => absurd h.2 n2, fun _ => ⟨Nat.lt_succ_self _, by
        show s.next_frame + 1 ≤ s.bufend
        omega⟩, fun _ => Or.inl r1, fun h => Bool.noConfusion h, rfl,
        fun _ _ => ⟨rfl, rfl, rfl⟩⟩

/-- A tick in state Ready, with room in the sink, whose refill (if one is
needed) is not starved, is the engine call and the converter on the window
that the refill leaves. -/
theorem decode_mad_callback_eq_from (ext : externals) (self : decode_mad)
    (flags : decoder_flags) (hs : self.state = mad_state.MAD_STATE_OK)
    (hroom : ext.can_write OUTPUT_BUFFER_BYTES self.sample_rate = true)
    (hn : ¬ decode_mad_frame_starved ext self flags) :
    (decode_mad_callback ext self flags).1.self =
      decode_mad_callback_from ext (decode_mad_frame_window ext self flags).self
        (decode_mad_frame_window ext self flags).flags := by
  have ht : ¬ (self.state = mad_state.MAD_STATE_END_OF_FILE ∨
      self.state = mad_state.MAD_STATE_ERROR) := by
    rw [hs]
    decide
  obtain ⟨-, b2, b3⟩ := decode_mad_callback_busy ext self flags ht hroom
  have hf : (decode_mad_frame ext self flags).self =
      (decode_mad_frame_decode ext (decode_mad_frame_window ext self flags).self
        (decode_mad_frame_window ext self flags).flags).self := by
    rw [decode_mad_frame_of_window ext self flags hn]
  unfold decode_mad_callback_from
  by_cases hp : (decode_mad_frame ext self flags).self.state = mad_state.MAD_STATE_PCM_READY
  · rw [b3 hs hp]
    rw [hf] at hp
    rw [if_pos hp]
    show (decode_mad_output ext.can_write (decode_mad_frame ext self flags).self).1 = _
    rw [hf]
  · rw [b2 hs hp]
    rw [hf] at hp
    rw [if_neg hp]
    exact hf

/-- One tick on a window in place, with a sink that always has room and an
engine that consumes its window: the driver is in EndOfStream, or it is in
Ready with the same window and either need-more-data reported at the end of
the window, or at least one more byte consumed. When exactly the guard region
is left and the guard marker is at its start, the driver is in
EndOfStream. -/
theorem decode_mad_callback_from_step (ext : externals) (rate : Nat) (w : decode_mad)
    (flags : decoder_flags)
    (hroom : ∀ a b, ext.can_write a b = true) (heng : consuming_engine ext rate)
    (hs : w.state = mad_state.MAD_STATE_OK)
    (hle : w.stream.next_frame ≤ w.stream.bufend)
    (hrate : 2 ≤ w.frames → w.sample_rate = rate) :
    ((decode_mad_callback_from ext w flags).state = mad_state.MAD_STATE_END_OF_FILE ∨
        ((decode_mad_callback_from ext w flags).state = mad_state.MAD_STATE_OK ∧
          (2 ≤ (decode_mad_callback_from ext w flags).frames →
            (decode_mad_callback_from ext w flags).sample_rate = rate) ∧
          (decode_mad_callback_from ext w flags).stream.buffer = w.stream.buffer ∧
          (decode_mad_callback_from ext w flags).stream.bufend = w.stream.bufend ∧
          (((decode_mad_callback_from ext w flags).stream.error = MAD_ERROR_BUFLEN ∧
              (decode_mad_callback_from ext w flags).stream.next_frame = w.stream.bufend) ∨
            ((decode_mad_callback_from ext w flags).stream.error ≠ MAD_ERROR_BUFLEN ∧
              w.stream.next_frame < (decode_mad_callback_from ext w flags).stream.next_frame ∧
              (decode_mad_callback_from ext w flags).stream.next_frame ≤ w.stream.bufend)))) ∧
      (w.stream.next_frame + MAD_BUFFER_GUARD = w.stream.bufend →
        (∀ i, i < MAD_BUFFER_GUARD → w.heap (w.stream.next_frame + i) = 0) →
        w.guard_pointer = w.stream.next_frame →
        (decode_mad_callback_from ext w flags).state = mad_state.MAD_STATE_END_OF_FILE) := by
  obtain ⟨k1, k2, k3, k4, k5, k6⟩ := heng w.heap w.stream w.frame hle
  obtain ⟨q1, q2, q3, q4⟩ := decode_mad_frame_decode_cases ext w flags
  obtain ⟨c1, c2, -, c4, c5, c6⟩ :=
    consume_id3_tags_frame ext.resync (decode_mad_frame_engine ext w).2
  obtain ⟨v1, v2, v3, v4, v5, v6, -⟩ :=
    consume_id3_tags_window ext.resync (decode_mad_frame_engine ext w).2
  have r2 : ¬ MAD_RECOVERABLE MAD_ERROR_BUFLEN = true := by decide
  have r3 : MAD_ERROR_LOSTSYNC ≠ MAD_ERROR_BUFLEN := by decide
  have r4 : MAD_RECOVERABLE MAD_ERROR_LOSTSYNC = true := by decide
  -- the fields of the context that the engine leaves
  have e1 : (decode_mad_frame_engine ext w).1 = (ext.mad_frame_decode w.heap w.stream w.frame).1 :=
    rfl
  have e2 : (decode_mad_frame_engine ext w).2.stream.error =
      (ext.mad_frame_decode w.heap w.stream w.frame).2.1.error := rfl
  have e3 : (decode_mad_frame_engine ext w).2.stream.next_frame =
      (ext.mad_frame_decode w.heap w.stream w.frame).2.1.next_frame := rfl
  have e4 : (decode_mad_frame_engine ext w).2.stream.this_frame =
      (ext.mad_frame_decode w.heap w.stream w.frame).2.1.this_frame := rfl
  have e5 : (decode_mad_frame_engine ext w).2.frame.header.samplerate = rate := k5
  -- a block made from a context with the counters of `w` is not discarded
  have hnd : ∀ (p : decode_mad), p.frames = w.frames → p.sample_rate = w.sample_rate →
      p.frame.header.samplerate = rate →
      ¬ (p.frames ≠ 0 ∧ p.frames + 1 > 2 ∧ p.sample_rate ≠ p.frame.header.samplerate) := by
    intro p p1 p2 p3 h
    rw [p1, p2, p3] at h
    exact h.2.2 (hrate (by omega))
  -- the synthesis followed by the converter
  have hblock : ∀ (p : decode_mad) (ev : List Event),
      decode_mad_frame_decode ext w flags = decode_mad_frame_synth ext p flags ev →
      p.frames = w.frames → p.sample_rate = w.sample_rate →
      p.frame.header.samplerate = rate →
      (decode_mad_callback_from ext w flags).state =
          (if p.stream.this_frame = p.guard_pointer then mad_state.MAD_STATE_END_OF_FILE
          else mad_state.MAD_STATE_OK) ∧
        (decode_mad_callback_from ext w flags).stream.buffer = p.stream.buffer ∧
        (decode_mad_callback_from ext w flags).stream.bufend = p.stream.bufend ∧
        (decode_mad_callback_from ext w flags).stream.next_frame = p.stream.next_frame ∧
        (decode_mad_callback_from ext w flags).stream.error = p.stream.error ∧
        (2 ≤ (decode_mad_callback_from ext w flags).frames →
          (decode_mad_callback_from ext w flags).sample_rate = rate) := by
    intro p ev hd p1 p2 p3
    unfold decode_mad_callback_from
    rw [hd]
    have hp : (decode_mad_frame_synth ext p flags ev).self.state =
        mad_state.MAD_STATE_PCM_READY := rfl
    rw [if_pos hp]
    obtain ⟨o1, o2, o3, o4, o5, o6, o7⟩ := decode_mad_output_block ext.can_write
      (decode_mad_frame_synth ext p flags ev).self (hroom _ _)
      (hnd (decode_mad_frame_synth ext p flags ev).self p1 p2 p3)
    refine ⟨o1, o2, o3, o4, o5, fun h2 => ?_⟩
    rw [o6] at h2
    rw [o7]
    have hf : (decode_mad_frame_synth ext p flags ev).self.frames = w.frames := p1
    rw [hf] at h2 ⊢
    rw [if_neg (by omega)]
    exact p3
  -- lost synchronization at the guard marker, no tag: the stream ends
  have hend : (decode_mad_frame_engine ext w).1 = true →
      (decode_mad_frame_engine ext w).2.stream.error = MAD_ERROR_LOSTSYNC →
      (consume_id3_tags ext.resync (decode_mad_frame_engine ext w).2).2 = false →
      (decode_mad_frame_engine ext w).2.stream.this_frame =
        (decode_mad_frame_engine ext w).2.guard_pointer →
      (decode_mad_callback_from ext w flags).state = mad_state.MAD_STATE_END_OF_FILE := by
    intro he hl hc hg
    have hrec : MAD_RECOVERABLE (decode_mad_frame_engine ext w).2.stream.error = true := by
      rw [hl]
      exact r4
    obtain ⟨b1, -⟩ := hblock _ _ (q4 he hrec hc hl hg) v4 v5 (by rw [v6]; exact e5)
    rw [b1, c6, c1, if_pos hg]
  refine ⟨?_, ?_⟩
  · by_cases he : (decode_mad_frame_engine ext w).1 = true
    · by_cases hb : (decode_mad_frame_engine ext w).2.stream.error = MAD_ERROR_BUFLEN
      · -- need-more-data
        have hd := q2 he hb
        have hr : decode_mad_callback_from ext w flags = (decode_mad_frame_engine ext w).2 := by
          unfold decode_mad_callback_from
          rw [hd]
          have hnp : ¬ (decode_mad_frame_engine ext w).2.state =
              mad_state.MAD_STATE_PCM_READY := by
            show ¬ w.state = _
            rw [hs]
            decide
          rw [if_neg hnp]
        rw [hr]
        exact Or.inr ⟨hs, hrate, rfl, rfl, Or.inl ⟨hb, k1 ⟨he, hb⟩⟩⟩
      · -- a recoverable error
        have hrec : MAD_RECOVERABLE (decode_mad_frame_engine ext w).2.stream.error = true :=
          (k3 he).resolve_right hb
        have hprog := k2 (fun h => hb h.2)
        by_cases hretry : (consume_id3_tags ext.resync (decode_mad_frame_engine ext w).2).2 = true ∨
            (decode_mad_frame_engine ext w).2.stream.error ≠ MAD_ERROR_LOSTSYNC ∨
            (decode_mad_frame_engine ext w).2.stream.this_frame ≠
              (decode_mad_frame_engine ext w).2.guard_pointer
        · have hd := q3 he hrec hretry
          have hr : decode_mad_callback_from ext w flags =
              (consume_id3_tags ext.resync (decode_mad_frame_engine ext w).2).1 := by
            unfold decode_mad_callback_from
            rw [hd]
            have hnp : ¬ (consume_id3_tags ext.resync (decode_mad_frame_engine ext w).2).1.state =
                mad_state.MAD_STATE_PCM_READY := by
              rw [c4]
              show ¬ w.state = _
              rw [hs]
              decide
            rw [if_neg hnp]
          rw [hr]
          refine Or.inr ⟨c4.trans hs, ?_, v1, v2, Or.inr ⟨?_, ?_, ?_⟩⟩
          · rw [v4, v5]
            exact hrate
          · rw [c5]
            exact hb
          · rw [v3]
            exact hprog.1
          · rw [v3]
            exact hprog.2
        · -- lost synchronization at the guard marker
          have hc : (consume_id3_tags ext.resync (decode_mad_frame_engine ext w).2).2 = false := by
            cases h : (consume_id3_tags ext.resync (decode_mad_frame_engine ext w).2).2
            · rfl
            · exact absurd (Or.inl h) hretry
          have hl : (decode_mad_frame_engine ext w).2.stream.error = MAD_ERROR_LOSTSYNC := by
            by_contra h
            exact hretry (Or.inr (Or.inl h))
          have hg : (decode_mad_frame_engine ext w).2.stream.this_frame =
              (decode_mad_frame_engine ext w).2.guard_pointer := by
            by_contra h
            exact hretry (Or.inr (Or.inr h))
          exact Or.inl (hend he hl hc hg)
    · -- success
      have he2 : (decode_mad_frame_engine ext w).1 = false := by
        cases h : (decode_mad_frame_engine ext w).1
        · rfl
        · exact absurd h he
      have hprog := k2 (fun h => he h.1)
      obtain ⟨b1, b2, b3, b4, b5, b6⟩ := hblock _ _ (q1 he2) rfl rfl e5
      by_cases hg : (decode_mad_frame_engine ext w).2.stream.this_frame =
          (decode_mad_frame_engine ext w).2.guard_pointer
      · rw [if_pos hg] at b1
        exact Or.inl b1
      · rw [if_neg hg] at b1
        refine Or.inr ⟨b1, b6, b2, b3, Or.inr ⟨?_, ?_, ?_⟩⟩
        · rw [b5]
          exact k4 he2
        · rw [b4]
          exact hprog.1
        · rw [b4]
          exact hprog.2
  · intro hg8 hz hgp
    obtain ⟨g1, g2, g3⟩ := k6 hg8 hz
    have hth : (decode_mad_frame_engine ext w).2.stream.this_frame = w.stream.next_frame := g3
    have hc : (consume_id3_tags ext.resync (decode_mad_frame_engine ext w).2).2 = false := by
      cases h : (consume_id3_tags ext.resync (decode_mad_frame_engine ext w).2).2
      · rfl
      · have ht := (consume_id3_tags_rc ext.resync (decode_mad_frame_engine ext w).2).mp h
        exact absurd (tagtype_zero_start _ _ (by
          show w.heap ((decode_mad_frame_engine ext w).2.stream.this_frame + 0) = 0
          rw [hth]
          exact hz 0 (by decide))) ht
    exact hend g1 g2 hc (hth.trans hgp.symm)

/-- A run of `n + j` ticks is a run of `n` ticks followed by `j` ticks. -/
theorem ticks_add (ext : externals) (s : decode_mad × decoder_flags) (n j : Nat) :
    ticks ext (n + j) s = ticks ext j (ticks ext n s) := by
  induction j with
  | zero => rfl
  | succ j ih =>
    show ((decode_mad_callback ext (ticks ext (n + j) s).1 (ticks ext (n + j) s).2).1.self,
      (decode_mad_callback ext (ticks ext (n + j) s).1 (ticks ext (n + j) s).2).1.flags) = _
    rw [ih]
    rfl

/-- Once the driver is in EndOfStream it is there after every later tick. -/
theorem ticks_end_of_file_stays (ext : externals) (s : decode_mad × decoder_flags) (n : Nat)
    (h : (ticks ext n s).1.state = mad_state.MAD_STATE_END_OF_FILE) (k : Nat) (hk : n ≤ k) :
    (ticks ext k s).1.state = mad_state.MAD_STATE_END_OF_FILE := by
  obtain ⟨j, rfl⟩ : ∃ j, k = n + j := ⟨k - n, by omega⟩
  rw [ticks_add, ticks_terminal ext (ticks ext n s).1 (ticks ext n s).2 (Or.inl h) j]
  exact h

/-- With an ended source, a sink that always has room and an engine that
consumes its window, the tick of a driver in Ready that needs a refill and has
no unconsumed byte to carry over appends the guard region, meets lost
synchronization at the guard marker and ends the stream. -/
theorem decode_mad_callback_guard_tick (ext : externals) (rate : Nat) (self : decode_mad)
    (flags : decoder_flags)
    (hsrc : ∀ m, ext.streambuf_read m = ([], false))
    (hroom : ∀ a b, ext.can_write a b = true) (heng : consuming_engine ext rate)
    (hs : self.state = mad_state.MAD_STATE_OK)
    (hneed : needs_refill self) (hrem : refill_remaining self = 0)
    (hrate : 2 ≤ self.frames → self.sample_rate = rate) :
    (decode_mad_callback ext self flags).1.self.state = mad_state.MAD_STATE_END_OF_FILE := by
  have hb : refill_bytes ext self = [] := by
    unfold refill_bytes
    rw [hsrc]
    exact List.take_nil
  have hstr : (ext.streambuf_read (refill_read_max self)).2 = false := by
    rw [hsrc]
  have hguard := decode_mad_frame_refill_guard ext self flags hb hstr
  have hnst : ¬ decode_mad_frame_starved ext self flags := by
    intro h
    have h2 := h.2
    rw [hguard] at h2
    exact Bool.noConfusion h2
  have hw : decode_mad_frame_window ext self flags =
      (decode_mad_frame_refill ext self flags).1 := by
    unfold decode_mad_frame_window
    rw [if_pos hneed]
  rw [decode_mad_callback_eq_from ext self flags hs (hroom _ _) hnst, hw, hguard]
  dsimp only
  refine (decode_mad_callback_from_step ext rate _ _ hroom heng ?_ ?_ ?_).2 ?_ ?_ ?_
  · exact hs
  · show self.input_buffer ≤ self.input_buffer + (0 + MAD_BUFFER_GUARD + refill_remaining self)
    omega
  · exact hrate
  · show self.input_buffer + MAD_BUFFER_GUARD =
      self.input_buffer + (0 + MAD_BUFFER_GUARD + refill_remaining self)
    omega
  · intro i hi
    show memset (store_bytes (refill_heap self) (self.input_buffer + refill_remaining self) [])
      (self.input_buffer + refill_remaining self) 0 MAD_BUFFER_GUARD (self.input_buffer + i) = 0
    unfold memset
    rw [if_pos ⟨by omega, by omega⟩]
  · show self.input_buffer + refill_remaining self = self.input_buffer
    omega

/-- With a sink that always has room and an engine that consumes its window,
the tick of a driver in Ready whose window is in use leaves it in EndOfStream,
or in Ready and either in need of a refill with no byte to carry over, or with
the window in use and at least one more byte consumed. -/
theorem decode_mad_callback_consume_tick (ext : externals) (rate : Nat) (self : decode_mad)
    (flags : decoder_flags)
    (hroom : ∀ a b, ext.can_write a b = true) (heng : consuming_engine ext rate)
    (hs : self.state = mad_state.MAD_STATE_OK)
    (hnr : ¬ needs_refill self) (hle : self.stream.next_frame ≤ self.stream.bufend)
    (hrate : 2 ≤ self.frames → self.sample_rate = rate) :
    (decode_mad_callback ext self flags).1.self.state = mad_state.MAD_STATE_END_OF_FILE ∨
      ((decode_mad_callback ext self flags).1.self.state = mad_state.MAD_STATE_OK ∧
        (2 ≤ (decode_mad_callback ext self flags).1.self.frames →
          (decode_mad_callback ext self flags).1.self.sample_rate = rate) ∧
        ((needs_refill (decode_mad_callback ext self flags).1.self ∧
            refill_remaining (decode_mad_callback ext self flags).1.self = 0) ∨
          (¬ needs_refill (decode_mad_callback ext self flags).1.self ∧
            (decode_mad_callback ext self flags).1.self.stream.next_frame ≤
              (decode_mad_callback ext self flags).1.self.stream.bufend ∧
            (decode_mad_callback ext self flags).1.self.stream.bufend -
                (decode_mad_callback ext self flags).1.self.stream.next_frame <
              self.stream.bufend - self.stream.next_frame))) := by
  have hnst : ¬ decode_mad_frame_starved ext self flags := fun h => hnr h.1
  have hw : decode_mad_frame_window ext self flags = ⟨self, flags, []⟩ := by
    unfold decode_mad_frame_window
    rw [if_neg hnr]
  rw [decode_mad_callback_eq_from ext self flags hs (hroom _ _) hnst, hw]
  dsimp only
  rcases (decode_mad_callback_from_step ext rate self flags hroom heng hs hle hrate).1 with
    h | ⟨h1, h2, h3, h4, h5⟩
  · exact Or.inl h
  · refine Or.inr ⟨h1, h2, ?_⟩
    rcases h5 with ⟨hb, hnx⟩ | ⟨hb, hlt, hle2⟩
    · refine Or.inl ⟨Or.inr hb, ?_⟩
      unfold refill_remaining
      rw [hnx, h4]
      by_cases h0 : self.stream.bufend ≠ 0
      · rw [if_pos h0]
        exact Nat.sub_self _
      · rw [if_neg h0]
    · refine Or.inr ⟨?_, ?_, ?_⟩
      · intro hn
        rcases hn with hn | hn
        · rw [h3] at hn
          exact hnr (Or.inl hn)
        · exact hb hn
      · rw [h4]
        exact hle2
      · rw [h4]
        omega

/-- The run of the driver from a context in Ready whose window is in use with
at most `m` unconsumed bytes, or which needs a refill and has no byte to carry
over, with an ended source, a sink that always has room and an engine that
consumes its window: the driver is in EndOfStream after at most `m + 2`
ticks. -/
theorem ticks_reach_end (ext : externals) (rate : Nat)
    (hsrc : ∀ m, ext.streambuf_read m = ([], false))
    (hroom : ∀ a b, ext.can_write a b = true) (heng : consuming_engine ext rate) (m : Nat) :
    ∀ (self : decode_mad) (flags : decoder_flags), self.state = mad_state.MAD_STATE_OK →
      (2 ≤ self.frames → self.sample_rate = rate) →
      ((needs_refill self ∧ refill_remaining self = 0) ∨
        (¬ needs_refill self ∧ self.stream.next_frame ≤ self.stream.bufend ∧
          self.stream.bufend - self.stream.next_frame ≤ m)) →
      ∃ n, n ≤ m + 2 ∧
        (ticks ext n (self, flags)).1.state = mad_state.MAD_STATE_END_OF_FILE := by
  have hB : ∀ (self : decode_mad) (flags : decoder_flags),
      self.state = mad_state.MAD_STATE_OK → (2 ≤ self.frames → self.sample_rate = rate) →
      needs_refill self → refill_remaining self = 0 →
      (ticks ext 1 (self, flags)).1.state = mad_state.MAD_STATE_END_OF_FILE :=
    fun self flags hs hrate hneed hrem =>
      decode_mad_callback_guard_tick ext rate self flags hsrc hroom heng hs hneed hrem hrate
  induction m with
  | zero =>
    intro self flags hs hrate hph
    rcases hph with ⟨hneed, hrem⟩ | ⟨hnr, hle, hm⟩
    · exact ⟨1, by omega, hB self flags hs hrate hneed hrem⟩
    · rcases decode_mad_callback_consume_tick ext rate self flags hroom heng hs hnr hle hrate
        with h | ⟨h1, h2, h3⟩
      · exact ⟨1, by omega, h⟩
      · rcases h3 with ⟨hneed, hrem⟩ | ⟨-, -, hlt⟩
        · refine ⟨2, by omega, ?_⟩
          rw [ticks_succ_first]
          exact hB _ _ h1 h2 hneed hrem
        · omega
  | succ m ih =>
    intro self flags hs hrate hph
    rcases hph with ⟨hneed, hrem⟩ | ⟨hnr, hle, hm⟩
    · exact ⟨1, by omega, hB self flags hs hrate hneed hrem⟩
    · rcases decode_mad_callback_consume_tick ext rate self flags hroom heng hs hnr hle hrate
        with h | ⟨h1, h2, h3⟩
      · exact ⟨1, by omega, h⟩
      · rcases h3 with ⟨hneed, hrem⟩ | ⟨hnr2, hle2, hlt⟩
        · refine ⟨2, by omega, ?_⟩
          rw [ticks_succ_first]
          exact hB _ _ h1 h2 hneed hrem
        · obtain ⟨n, hn, hend⟩ := ih (decode_mad_callback ext self flags).1.self
            (decode_mad_callback ext self flags).1.flags h1 h2
            (Or.inr ⟨hnr2, hle2, by omega⟩)
          refine ⟨n + 1, by omega, ?_⟩
          rw [ticks_succ_first]
          exact hend

end DecodeMad
